import Mathlib

/-!
# json_patch: a shallow embedding of the merge-patch engine

The Go program `json_patch.go` decodes a JSON object into a
`map[string]interface{}` and merges it, by reflection, into a struct reached
through a pointer.  This file embeds the data the program works on (decoded
JSON nodes, Go types, Go values as seen through `reflect.Value`) and each
function of the program, and proves properties of the embedded functions.

Conventions of the embedding.

* A decoded payload node is a `JSON`; a number is a `Rat` (every finite
  `float64` is a rational; `json.Unmarshal` never yields NaN or an infinity,
  and negative zero is identified with zero, as Go's `==` does).
* A `reflect.Value` is modelled by its settable flag (`CanSet()`) together with
  a self-describing `Val`; types are unnamed (predeclared or literal) types.
* A call either returns `nil`, returns an error value, or panics inside the
  `reflect` package or the runtime: `Outcome` records which.  Functions that
  mutate their destination return the destination after the call next to the
  outcome, also when the call fails, since writes are not rolled back.
* The source file holds two near-identical copies of the program; they differ
  only in where `getNewReflectValueSliceWithPayloadValues` allocates its
  scratch element.  `Copy` selects between them.
-/

namespace JsonPatch

/-! ## Go kinds, types and values -/

/-- The kinds of `reflect.Kind`. -/
inductive Kind where
  | Invalid | Bool
  | Int | Int8 | Int16 | Int32 | Int64
  | Uint | Uint8 | Uint16 | Uint32 | Uint64 | Uintptr
  | Float32 | Float64 | Complex64 | Complex128
  | Array | Chan | Func | Interface | Map | Pointer | Slice | String | Struct
  | UnsafePointer
  deriving DecidableEq, Repr

/-- The numeric kinds that `mergePayloadToStructField` sends to
`mergePayloadToNumberSF`. -/
inductive NumKind where
  | int | int8 | int16 | int32 | int64
  | uint | uint8 | uint16 | uint32 | uint64 | uintptr
  | float32 | float64
  deriving DecidableEq, Repr

/-- The kinds for which the program has no merge rule. -/
inductive OtherKind where
  | complex64 | complex128 | array | chan | func | pointer | unsafePointer
  deriving DecidableEq, Repr

/-- What Go leaves to the implementation: the width of `int`, `uint` and
`uintptr`, and the result of converting a floating-point number to an integer
type that cannot represent it. -/
structure Arch where
  /-- Whether `int`, `uint` and `uintptr` are 64 bits wide (otherwise 32). -/
  word64 : Bool
  /-- The value of `int64(f)` when the truncation of `f` is not an `int64`. -/
  floatToInt64 : Rat → Int
  /-- The value of `uint64(f)` when the truncation of `f` is not a `uint64`. -/
  floatToUint64 : Rat → Int

/-- A value of a floating-point kind. -/
inductive FloatVal where
  | fin (q : Rat)
  | inf (neg : Bool)
  | nan
  deriving DecidableEq

/-- The content of a value of a numeric kind. -/
inductive NumVal where
  | int (i : Int)
  | float (f : FloatVal)
  deriving DecidableEq

/-- What `reflect.StructField` tells the program about a field: its name, the
value of `Tag.Get("json")` (empty when the tag has no `json` key) and whether
the field is exported. -/
structure FieldInfo where
  name : String
  jsonTag : String
  exported : Bool
  deriving DecidableEq

/-- Go types (unnamed). -/
inductive GoType where
  | bool
  | string
  | num (k : NumKind)
  | struct (fields : List (FieldInfo × GoType))
  | map (key elem : GoType)
  | slice (elem : GoType)
  | iface (hasMethods : Bool)
  | other (k : OtherKind)

/-- Go values, each carrying what `reflect` reads off its type.  A `map` or
`slice` with content `none` is the nil map or slice; an `iface` with content
`none` is the nil interface. -/
inductive Val where
  | bool (b : Bool)
  | str (s : String)
  | num (k : NumKind) (x : NumVal)
  | struct (fields : List (FieldInfo × Val))
  | map (key elem : GoType) (entries : Option (List (Val × Val)))
  | slice (elem : GoType) (items : Option (List Val))
  | iface (hasMethods : Bool) (dyn : Option Val)
  | other (k : OtherKind) (content : Nat)

/-- A decoded payload node: what `json.Unmarshal` stores in an `interface{}`
(`nil`, `bool`, `float64`, `string`, `[]interface{}`, `map[string]interface{}`).
An object lists the entries of the Go map; a key is looked up by `lookup`. -/
inductive JSON where
  | null
  | bool (b : Bool)
  | num (q : Rat)
  | str (s : String)
  | arr (xs : List JSON)
  | obj (kvs : List (String × JSON))

/-- The error values the program builds with `errors.New`, by message. -/
inductive Err where
  /-- Message: "... should be the pointer of struct." -/
  | notPointer
  /-- Message: "... should be the struct type." -/
  | notStruct
  /-- Message: "... is unable to set the values." -/
  | notSettable
  /-- Message: "CanSet() failed." -/
  | canSetFailed
  /-- Message: "Invalid payload data for ...: incompatible for merging". -/
  | incompatible
  /-- Message: "Unsupported type ...". -/
  | unsupportedType
  /-- Message: "Missing json tag in ... struct field." -/
  | missingJsonTag
  /-- Message: "Unable to support multiple data type in Array or Slice." -/
  | multipleDataType
  /-- The error returned by `json.Unmarshal`. -/
  | decode
  deriving DecidableEq, Repr

/-- How a call ends: it returns `nil`, returns an error, or panics. -/
inductive Outcome where
  | ok
  | error (e : Err)
  | panic
  deriving DecidableEq, Repr

/-- The result of a function that returns a value and an error. -/
inductive Ret (α : Type) where
  | ok (a : α)
  | error (e : Err)
  | panic

/-- The two copies of the program in the source file. -/
inductive Copy where
  /-- Lines 1-430: the scratch element is allocated inside the loop. -/
  | first
  /-- Lines 431-861: the scratch element is allocated once, before the loop. -/
  | second
  deriving DecidableEq, Repr

/-! ## The reflect operations the program uses -/

mutual
/-- The zero value of a type (`reflect.New(t).Elem()`, the elements of
`reflect.MakeSlice`). -/
def zero : GoType → Val
  | .bool => .bool false
  | .string => .str ""
  | .num .float32 => .num .float32 (.float (.fin 0))
  | .num .float64 => .num .float64 (.float (.fin 0))
  | .num k => .num k (.int 0)
  | .struct fields => .struct (zeroFields fields)
  | .map key elem => .map key elem none
  | .slice elem => .slice elem none
  | .iface h => .iface h none
  | .other k => .other k 0
/-- The zero values of the fields of a struct type. -/
def zeroFields : List (FieldInfo × GoType) → List (FieldInfo × Val)
  | [] => []
  | (fi, t) :: rest => (fi, zero t) :: zeroFields rest
end

/-- The value of `reflect.ValueOf(x).Kind()` for a payload node. -/
def JSON.kind : JSON → Kind
  | .null => .Invalid
  | .bool _ => .Bool
  | .num _ => .Float64
  | .str _ => .String
  | .arr _ => .Slice
  | .obj _ => .Map

/-- The test `iPayloadValue == nil`. -/
def JSON.isNil : JSON → Bool
  | .null => true
  | _ => false

mutual
/-- A payload node as a value of type `interface{}`: the nil interface for
`null`, and otherwise the interface holding the node in its dynamic type
(`bool`, `float64`, `string`, `[]interface{}` or `map[string]interface{}`). -/
def ifaceOf : JSON → Val
  | .null => .iface false none
  | .bool b => .iface false (some (.bool b))
  | .num q => .iface false (some (.num .float64 (.float (.fin q))))
  | .str s => .iface false (some (.str s))
  | .arr xs => .iface false (some (.slice (.iface false) (some (dynItems xs))))
  | .obj kvs => .iface false (some (.map .string (.iface false) (some (dynEntries kvs))))
/-- The elements of a `[]interface{}`. -/
def dynItems : List JSON → List Val
  | [] => []
  | x :: xs => ifaceOf x :: dynItems xs
/-- The entries of a `map[string]interface{}`. -/
def dynEntries : List (String × JSON) → List (Val × Val)
  | [] => []
  | (k, x) :: kvs => (.str k, ifaceOf x) :: dynEntries kvs
end

/-! ## Numeric conversion (`reflect.Value.Convert` from `float64`) -/

/-- The width in bits of an integer kind. -/
def NumKind.bits (A : Arch) : NumKind → Nat
  | .int8 | .uint8 => 8
  | .int16 | .uint16 => 16
  | .int32 | .uint32 | .float32 => 32
  | .int64 | .uint64 | .float64 => 64
  | .int | .uint | .uintptr => if A.word64 then 64 else 32

/-- Whether a numeric kind is a signed integer kind. -/
def NumKind.signed : NumKind → Bool
  | .int | .int8 | .int16 | .int32 | .int64 => true
  | _ => false

/-- Whether a numeric kind is a floating-point kind. -/
def NumKind.isFloat : NumKind → Bool
  | .float32 | .float64 => true
  | _ => false

/-- The fraction discarded: truncation toward zero. -/
def truncToInt (q : Rat) : Int := Int.tdiv q.num q.den

/-- The low `w` bits of an integer read as a two's-complement signed number. -/
def wrapSigned (w : Nat) (i : Int) : Int := (i + 2 ^ (w - 1)) % 2 ^ w - 2 ^ (w - 1)

/-- The low `w` bits of an integer read as an unsigned number. -/
def wrapUnsigned (w : Nat) (i : Int) : Int := i % 2 ^ w

/-- The value of `int64(f)`. -/
def floatToInt64 (A : Arch) (q : Rat) : Int :=
  if -(2 : Int) ^ 63 ≤ truncToInt q ∧ truncToInt q < 2 ^ 63 then truncToInt q
  else wrapSigned 64 (A.floatToInt64 q)

/-- The value of `uint64(f)`. -/
def floatToUint64 (A : Arch) (q : Rat) : Int :=
  if 0 ≤ truncToInt q ∧ truncToInt q < 2 ^ 64 then truncToInt q
  else wrapUnsigned 64 (A.floatToUint64 q)

/-- The amd64 implementation, for the concrete examples.  `int64(f)` of an
`f` that is not an `int64` is the minimum `int64` (the indefinite value of
`CVTTSD2SQ`).  `uint64(f)` is computed through the signed conversion: an `f`
below zero whose truncation is an `int64` gives that integer modulo `2 ^ 64`
(so -1 gives `2 ^ 64 - 1`), and every other `f` that is not a `uint64` gives
`2 ^ 63`. -/
def arch64 : Arch where
  word64 := true
  floatToInt64 := fun _ => -(2 : Int) ^ 63
  floatToUint64 := fun q =>
    if -(2 : Int) ^ 63 ≤ truncToInt q ∧ truncToInt q < 0 then truncToInt q else (2 : Int) ^ 63

/-- The number of binary digits of a natural number (`fuel` bounds the
recursion; `bitLen n n` is the bit length of `n`). -/
def bitLen : Nat → Nat → Nat
  | 0, _ => 0
  | fuel + 1, n => if n = 0 then 0 else bitLen fuel (n / 2) + 1

/-- The quotient `n / d` rounded to the nearest natural number, ties to even. -/
def roundHalfEven (n d : Nat) : Nat :=
  if 2 * (n % d) < d then n / d
  else if d < 2 * (n % d) then n / d + 1
  else if (n / d) % 2 = 0 then n / d else n / d + 1

/-- The value of `float32(f)` for a finite `float64` `f`: IEEE 754 binary32
rounding to nearest, ties to even (24-bit significand, least exponent -149,
overflow to an infinity). -/
def roundFloat32 (q : Rat) : FloatVal :=
  if q.num = 0 then .fin 0 else
    let n := q.num.natAbs
    let d := q.den
    let k : Int := (bitLen n n : Int) - (bitLen d d : Int)
    -- the floor of the base-2 logarithm of n / d
    let fl : Int :=
      if (if 0 ≤ k then d * 2 ^ k.toNat ≤ n else d ≤ n * 2 ^ (-k).toNat) then k else k - 1
    let e : Int := if -149 ≤ fl - 23 then fl - 23 else -149
    -- the significand, an integer below 2 ^ 24 before rounding
    let m : Nat :=
      if 0 ≤ e then roundHalfEven n (d * 2 ^ e.toNat) else roundHalfEven (n * 2 ^ (-e).toNat) d
    let s : Int := if q.num < 0 then -1 else 1
    if 0 ≤ e then
      if 2 ^ 128 ≤ m * 2 ^ e.toNat then .inf (decide (q.num < 0))
      else .fin (Rat.ofInt (s * (m * 2 ^ e.toNat : Nat)))
    else .fin (mkRat (s * m) (2 ^ (-e).toNat))

/-- The conversion `reflect.ValueOf(f).Convert(t)` of a `float64` to a type of
numeric kind `k` (`cvtFloat`, `cvtFloatInt`, `cvtFloatUint` followed by the
store at the width of `k`). -/
def convertFloat (A : Arch) (k : NumKind) (q : Rat) : NumVal :=
  match k with
  | .float64 => .float (.fin q)
  | .float32 => .float (roundFloat32 q)
  | .int | .int8 | .int16 | .int32 | .int64 => .int (wrapSigned (k.bits A) (floatToInt64 A q))
  | .uint | .uint8 | .uint16 | .uint32 | .uint64 | .uintptr =>
    .int (wrapUnsigned (k.bits A) (floatToUint64 A q))

/-- The conversion `reflect.ValueOf(0).Convert(t)` of the `int` zero to a type
of numeric kind `k`. -/
def convertZero (k : NumKind) : NumVal :=
  match k with
  | .float32 | .float64 => .float (.fin 0)
  | _ => .int 0

/-! ## Helpers of the program -/

/-- The value of `payloadMap[key]` with its presence flag. -/
def lookup (key : String) : List (String × JSON) → Option JSON
  | [] => none
  | (k, v) :: rest => if k = key then some v else lookup key rest

/-- The pieces of `strings.Split(s, ",")`, on the characters of `s`. -/
def stringsSplitComma : List Char → List (List Char)
  | [] => [[]]
  | c :: cs =>
    if c = ',' then [] :: stringsSplitComma cs
    else
      match stringsSplitComma cs with
      | [] => [[c]]
      | piece :: pieces => (c :: piece) :: pieces

/-- The function `getJsonStructTag`: the first comma-separated piece of the
field's `json` tag, or an error when that piece is empty. -/
def getJsonStructTag (structField : FieldInfo) : Except Err String :=
  let tags := stringsSplitComma structField.jsonTag.data
  let jsonTag := match tags with
    | [] => structField.jsonTag
    | first :: _ => String.mk first
  if jsonTag = "" then .error .missingJsonTag else .ok jsonTag

/-- The function `helperCheckSettabilityAndSFDataType`, on the value's
`CanSet()` flag; the type it returns next to the error is read off the value. -/
def helperCheckSettabilityAndSFDataType (canSet : Bool) : Except Err Unit :=
  if canSet then .ok () else .error .canSetFailed

/-- The function `isNumericValue`. -/
def isNumericValue (iPayloadValue : JSON) : Bool :=
  match iPayloadValue.kind with
  | .Int | .Int8 | .Int16 | .Int32 | .Int64
  | .Uint | .Uint8 | .Uint16 | .Uint32 | .Uint64 | .Uintptr
  | .Float32 | .Float64 => true
  | _ => false

/-- The value of `reflect.ValueOf(v).Type()`; `none` is the panic of `Type`
on the zero `reflect.Value`, which `reflect.ValueOf(nil)` is. -/
def dynType : JSON → Option GoType
  | .null => none
  | .bool _ => some .bool
  | .num _ => some (.num .float64)
  | .str _ => some .string
  | .arr _ => some (.slice (.iface false))
  | .obj _ => some (.map .string (.iface false))

/-- The value of `reflect.ValueOf(k).Convert(t)` for a string `k` and a map key
type `t`; `none` is the panic of `Convert` when a string does not convert to
`t`.  A map key type is comparable, so it is not one of the slice types a
string converts to. -/
def convertStringTo (t : GoType) (k : String) : Option Val :=
  match t with
  | .string => some (.str k)
  | .iface false => some (.iface false (some (.str k)))
  | _ => none

/-- A payload value, held in its dynamic type, assigned to a location of type
`t` (the `assignTo` of `Set` and `SetMapIndex`); `none` is the panic raised
when the value is not assignable: the zero `reflect.Value`, a type other than
`t`, or an interface type with methods. -/
def assignPayloadTo (t : GoType) (v : JSON) : Option Val :=
  match t, v with
  | _, .null => none
  | .iface false, v => some (ifaceOf v)
  | .bool, .bool b => some (.bool b)
  | .num .float64, .num q => some (.num .float64 (.float (.fin q)))
  | .string, .str s => some (.str s)
  | .slice (.iface false), .arr xs => some (.slice (.iface false) (some (dynItems xs)))
  | .map .string (.iface false), .obj kvs =>
    some (.map .string (.iface false) (some (dynEntries kvs)))
  | _, _ => none

/-- The value of `reflect.ValueOf(v).Convert(t)` for a payload value `v` and a
type `t` of kind Bool, String, Interface or of a numeric kind, the types at
which the program converts a payload value to a declared type; `none` is the
panic of `Convert` when the value does not convert to `t`. -/
def convertPayloadTo (A : Arch) (t : GoType) (v : JSON) : Option Val :=
  match t, v with
  | _, .null => none
  | .iface false, v => some (ifaceOf v)
  | .bool, .bool b => some (.bool b)
  | .string, .str s => some (.str s)
  | .num k, .num q => some (.num k (convertFloat A k q))
  | _, _ => none

/-- The function `getMapKeyAndValueReflectType`: the key converted to the
map's key type and the type of the payload value itself; `none` is a panic. -/
def getMapKeyAndValueReflectType (key : GoType) (k : String) (v : JSON) :
    Option (Val × GoType) :=
  match dynType v with
  | none => none
  | some mapValueReflectType =>
    match convertStringTo key k with
    | none => none
    | some mapKeyReflectValue => some (mapKeyReflectValue, mapValueReflectType)

/-- Whether a map key built by `convertStringTo` comes from the string `k`. -/
def isKeyOf (k : String) : Val → Bool
  | .str s => s = k
  | .iface _ (some (.str s)) => s = k
  | _ => false

/-- The store `newMap.SetMapIndex(key, elem)` into a map built from string
keys: the entry of an equal key is replaced, a new key is added. -/
def setMapIndex (entries : List (Val × Val)) (k : String) (key elem : Val) :
    List (Val × Val) :=
  if entries.any (fun kv => isKeyOf k kv.1) then
    entries.map (fun kv => if isKeyOf k kv.1 then (kv.1, elem) else kv)
  else entries ++ [(key, elem)]

/-- The loop of `getNewReflectValueMapWithPayloadValues` over the payload
entries; `none` is a panic.  The conversion of `v` to `mapKeyReflectVal`, its
own type, changes nothing; the store panics unless that type is assignable to
the map's element type. -/
def getNewReflectValueMapLoop (key elem : GoType) :
    List (String × JSON) → List (Val × Val) → Option (List (Val × Val))
  | [], newMap => some newMap
  | (k, v) :: rest, newMap =>
    match getMapKeyAndValueReflectType key k v with
    | none => none
    | some (mapItemReflectKey, _) =>
      match assignPayloadTo elem v with
      | none => none
      | some item =>
        getNewReflectValueMapLoop key elem rest (setMapIndex newMap k mapItemReflectKey item)

/-- The function `getNewReflectValueMapWithPayloadValues`, for the map type
with key type `key` and element type `elem`.  The map returned next to an
error is not modelled: no caller reads it. -/
def getNewReflectValueMapWithPayloadValues (key elem : GoType) (iPayloadValue : JSON) :
    Ret Val :=
  match iPayloadValue with
  | .obj payloadMap =>
    match getNewReflectValueMapLoop key elem payloadMap [] with
    | some newMap => .ok (.map key elem (some newMap))
    | none => .panic
  | _ => .error .incompatible

/-- The function `makeNewSlice`: `reflect.MakeSlice` of the length of the
payload (the capacity is not modelled). -/
def makeNewSlice (elem : GoType) (interfaces : List JSON) : List Val :=
  List.replicate interfaces.length (zero elem)

/-- The function `parseStructValueToInterfaceArray`: the payload as a
`[]interface{}` and the `skip` flag of the empty array. -/
def parseStructValueToInterfaceArray (val : JSON) : Except Err (List JSON × Bool) :=
  match val with
  | .arr interfaceSlice =>
    if interfaceSlice.length = 0 then .ok (interfaceSlice, true)
    else .ok (interfaceSlice, false)
  | _ => .error .incompatible

/-- The value of `reflect.TypeOf(x).Kind()`; `none` is the nil dereference of
calling `Kind` on the nil `reflect.Type`, which `reflect.TypeOf(nil)` is. -/
def typeOfKind : JSON → Option Kind
  | .null => none
  | x => some x.kind

/-- The loop of `checkMultipleDataTypeInPayloadArray`, from the kind seen
last. -/
def checkMultipleDataTypeLoop (payloadArrayItemDataType : Kind) : List JSON → Outcome
  | [] => .ok
  | ival :: rest =>
    match typeOfKind ival with
    | none => .panic
    | some payloadArrayItemActualDataType =>
      if payloadArrayItemDataType ≠ .Invalid ∧
          payloadArrayItemDataType ≠ payloadArrayItemActualDataType then
        .error .multipleDataType
      else checkMultipleDataTypeLoop payloadArrayItemActualDataType rest

/-- The function `checkMultipleDataTypeInPayloadArray`. -/
def checkMultipleDataTypeInPayloadArray (interfaceSlice : List JSON) : Outcome :=
  checkMultipleDataTypeLoop .Invalid interfaceSlice

/-! ## The merges of the fields without recursion -/

/-- The function `mergePayloadToMapSF` on a field of type `map[key]elem`
holding `cur`. -/
def mergePayloadToMapSF (canSet : Bool) (key elem : GoType)
    (cur : Option (List (Val × Val))) (iPayloadValue : JSON) : Val × Outcome :=
  match helperCheckSettabilityAndSFDataType canSet with
  | .error e => (.map key elem cur, .error e)
  | .ok _ =>
    if iPayloadValue.isNil then (.map key elem (some []), .ok)
    else
      if iPayloadValue.kind ≠ .Map then (.map key elem cur, .error .incompatible)
      else
        match getNewReflectValueMapWithPayloadValues key elem iPayloadValue with
        | .ok mapReflectValue => (mapReflectValue, .ok)
        | .error e => (.map key elem cur, .error e)
        | .panic => (.map key elem cur, .panic)

/-- The function `mergePayloadToInterfaceSF` on a field of an interface type
holding `cur`.  `Set` panics on the zero `reflect.Value` of a nil payload and
on a value that does not implement the interface. -/
def mergePayloadToInterfaceSF (canSet : Bool) (hasMethods : Bool) (cur : Option Val)
    (iPayloadValue : JSON) : Val × Outcome :=
  match helperCheckSettabilityAndSFDataType canSet with
  | .error e => (.iface hasMethods cur, .error e)
  | .ok _ =>
    match assignPayloadTo (.iface hasMethods) iPayloadValue with
    | some v => (v, .ok)
    | none => (.iface hasMethods cur, .panic)

/-- The function `mergePayloadToBoolSF` on a field of kind Bool holding
`cur`. -/
def mergePayloadToBoolSF (A : Arch) (canSet : Bool) (cur : Bool) (iPayloadValue : JSON) :
    Val × Outcome :=
  match helperCheckSettabilityAndSFDataType canSet with
  | .error e => (.bool cur, .error e)
  | .ok _ =>
    if iPayloadValue.isNil then (.bool false, .ok)
    else
      if iPayloadValue.kind ≠ .Bool then (.bool cur, .error .incompatible)
      else
        match convertPayloadTo A .bool iPayloadValue with
        | some v => (v, .ok)
        | none => (.bool cur, .panic)

/-- The function `mergePayloadToStringSF` on a field of kind String holding
`cur`. -/
def mergePayloadToStringSF (A : Arch) (canSet : Bool) (cur : String) (iPayloadValue : JSON) :
    Val × Outcome :=
  match helperCheckSettabilityAndSFDataType canSet with
  | .error e => (.str cur, .error e)
  | .ok _ =>
    if iPayloadValue.isNil then (.str "", .ok)
    else
      if iPayloadValue.kind ≠ .String then (.str cur, .error .incompatible)
      else
        match convertPayloadTo A .string iPayloadValue with
        | some v => (v, .ok)
        | none => (.str cur, .panic)

/-- The function `mergePayloadToNumberSF` on a field of numeric kind `k`
holding `cur`. -/
def mergePayloadToNumberSF (A : Arch) (canSet : Bool) (k : NumKind) (cur : NumVal)
    (iPayloadValue : JSON) : Val × Outcome :=
  match helperCheckSettabilityAndSFDataType canSet with
  | .error e => (.num k cur, .error e)
  | .ok _ =>
    if iPayloadValue.isNil then (.num k (convertZero k), .ok)
    else
      if !isNumericValue iPayloadValue then (.num k cur, .error .incompatible)
      else
        match convertPayloadTo A (.num k) iPayloadValue with
        | some v => (v, .ok)
        | none => (.num k cur, .panic)

/-! ## The loops of `getNewReflectValueSliceWithPayloadValues` without recursion

Each loop runs over the payload elements still to be converted, with the
slice built so far and the index of the next element; it stores the converted
element with `sliceReflectValue.Index(index).Set(...)`. -/

/-- The loop of the `reflect.Map` case, for the element type `map[key]elem`. -/
def sliceMapLoop (key elem : GoType) (sliceReflectValue : List Val) (index : Nat) :
    List JSON → Ret (List Val)
  | [] => .ok sliceReflectValue
  | ival :: rest =>
    match ival with
    | .obj payloadMap =>
      match getNewReflectValueMapWithPayloadValues key elem (.obj payloadMap) with
      | .ok mapReflectVal =>
        sliceMapLoop key elem (sliceReflectValue.set index mapReflectVal) (index + 1) rest
      | .error e => .error e
      | .panic => .panic
    | _ => .error .incompatible

/-- The loop of the `reflect.Interface` case.  The assertion `ival.(interface{})`
fails on a nil element. -/
def sliceInterfaceLoop (A : Arch) (hasMethods : Bool) (sliceReflectValue : List Val)
    (index : Nat) : List JSON → Ret (List Val)
  | [] => .ok sliceReflectValue
  | ival :: rest =>
    match ival with
    | .null => .error .incompatible
    | nestedPayload =>
      match convertPayloadTo A (.iface hasMethods) nestedPayload with
      | some v =>
        sliceInterfaceLoop A hasMethods (sliceReflectValue.set index v) (index + 1) rest
      | none => .panic

/-- The loop of the `reflect.Bool, reflect.String` case, for the element type
`elem` of kind `k`. -/
def sliceScalarLoop (A : Arch) (elem : GoType) (k : Kind) (sliceReflectValue : List Val)
    (index : Nat) : List JSON → Ret (List Val)
  | [] => .ok sliceReflectValue
  | ival :: rest =>
    if ival.kind ≠ k then .error .incompatible
    else
      match convertPayloadTo A elem ival with
      | some v => sliceScalarLoop A elem k (sliceReflectValue.set index v) (index + 1) rest
      | none => .panic

/-- The loop of the case of the numeric kinds, for the element kind `k`. -/
def sliceNumberLoop (A : Arch) (k : NumKind) (sliceReflectValue : List Val)
    (index : Nat) : List JSON → Ret (List Val)
  | [] => .ok sliceReflectValue
  | ival :: rest =>
    if !isNumericValue ival then .error .incompatible
    else
      match convertPayloadTo A (.num k) ival with
      | some v => sliceNumberLoop A k (sliceReflectValue.set index v) (index + 1) rest
      | none => .panic

/-! ## The recursive merge -/

set_option linter.unusedVariables false

mutual
/-- The function `traverseStructAndMergeStructFieldsWithPayload` on the fields
of a struct value whose `CanSet()` is `canSet`; the loop over the field index
is the recursion over the fields still to be visited. -/
def traverseStructAndMergeStructFieldsWithPayload (A : Arch) (cp : Copy) (canSet : Bool)
    (fields : List (FieldInfo × Val)) (payloadMap : List (String × JSON)) :
    List (FieldInfo × Val) × Outcome :=
  match fields with
  | [] => ([], .ok)
  | (structField, structFieldValue) :: rest =>
    match getJsonStructTag structField with
    | .error e => ((structField, structFieldValue) :: rest, .error e)
    | .ok structFieldJsonTag =>
      match h : lookup structFieldJsonTag payloadMap with
      | some iPayloadValue =>
        match mergePayloadToStructField A cp (canSet && structField.exported)
            structFieldValue iPayloadValue with
        | (merged, .ok) =>
          let r := traverseStructAndMergeStructFieldsWithPayload A cp canSet rest payloadMap
          ((structField, merged) :: r.1, r.2)
        | (merged, out) => ((structField, merged) :: rest, out)
      | none =>
        let r := traverseStructAndMergeStructFieldsWithPayload A cp canSet rest payloadMap
        ((structField, structFieldValue) :: r.1, r.2)
termination_by (sizeOf payloadMap, fields.length + 2)
decreasing_by
  all_goals simp_wf
  · refine Prod.Lex.left _ _ ?_
    induction payloadMap with
    | nil => simp [lookup] at h
    | cons hd tl ih =>
      obtain ⟨k, w⟩ := hd
      simp only [lookup] at h
      split at h
      · cases h
        simp
        omega
      · have := ih h
        simp
        omega
  · exact Prod.Lex.right _ (by omega)
  · exact Prod.Lex.right _ (by omega)

/-- The function `mergePayloadToStructField`: the dispatch on the kind of the
field. -/
def mergePayloadToStructField (A : Arch) (cp : Copy) (canSet : Bool)
    (structFieldValue : Val) (iPayloadValue : JSON) : Val × Outcome :=
  match structFieldValue with
  | .struct fields =>
    let r := mergePayloadToStructSF A cp canSet fields iPayloadValue
    (.struct r.1, r.2)
  | .map key elem cur => mergePayloadToMapSF canSet key elem cur iPayloadValue
  | .slice elem cur => mergePayloadToSliceSF A cp canSet elem cur iPayloadValue
  | .iface hasMethods cur => mergePayloadToInterfaceSF canSet hasMethods cur iPayloadValue
  | .bool cur => mergePayloadToBoolSF A canSet cur iPayloadValue
  | .str cur => mergePayloadToStringSF A canSet cur iPayloadValue
  | .num k cur => mergePayloadToNumberSF A canSet k cur iPayloadValue
  | .other k content => (.other k content, .error .unsupportedType)
termination_by (sizeOf iPayloadValue, 2)
decreasing_by
  · exact Prod.Lex.right _ (by omega)
  · exact Prod.Lex.right _ (by omega)

/-- The function `mergePayloadToStructSF` on a field of kind Struct with the
fields `fields`. -/
def mergePayloadToStructSF (A : Arch) (cp : Copy) (canSet : Bool)
    (fields : List (FieldInfo × Val)) (iPayloadValue : JSON) :
    List (FieldInfo × Val) × Outcome :=
  match helperCheckSettabilityAndSFDataType canSet with
  | .error e => (fields, .error e)
  | .ok _ =>
    match iPayloadValue with
    | .obj payloadMap =>
      traverseStructAndMergeStructFieldsWithPayload A cp canSet fields payloadMap
    | _ => (fields, .error .incompatible)
termination_by (sizeOf iPayloadValue, 1)
decreasing_by
  exact Prod.Lex.left _ _ (by simp_wf)

/-- The function `mergePayloadToSliceSF` on a field of type `[]elem` holding
`cur`.  `Set` panics on the zero `reflect.Value`. -/
def mergePayloadToSliceSF (A : Arch) (cp : Copy) (canSet : Bool) (elem : GoType)
    (cur : Option (List Val)) (iPayloadValue : JSON) : Val × Outcome :=
  match helperCheckSettabilityAndSFDataType canSet with
  | .error e => (.slice elem cur, .error e)
  | .ok _ =>
    if iPayloadValue.isNil then (.slice elem (some (makeNewSlice elem [])), .ok)
    else
      if iPayloadValue.kind ≠ .Slice then (.slice elem cur, .error .incompatible)
      else
        match getNewReflectValueSliceWithPayloadValues A cp canSet elem iPayloadValue with
        | .ok (some sliceReflectValue) => (sliceReflectValue, .ok)
        | .ok none => (.slice elem cur, .panic)
        | .error e => (.slice elem cur, .error e)
        | .panic => (.slice elem cur, .panic)
termination_by (sizeOf iPayloadValue, 1)
decreasing_by
  exact Prod.Lex.right _ (by omega)

/-- The function `getNewReflectValueSliceWithPayloadValues` for a
`structFieldValue` of type `[]elem` whose `CanSet()` is `canSet`.  The result
`none` is the zero `reflect.Value`, which the named result still is when the
function returns on `skip`.  The slice returned next to an error is not
modelled: no caller reads it; the test of the type for the kind `Invalid` never
holds and is left out. -/
def getNewReflectValueSliceWithPayloadValues (A : Arch) (cp : Copy) (canSet : Bool)
    (elem : GoType) (iPayloadValue : JSON) : Ret (Option Val) :=
  if !canSet then .error .canSetFailed
  else
    match h : parseStructValueToInterfaceArray iPayloadValue with
    | .error e => .error e
    | .ok (interfaceSlice, skip) =>
      if skip then .ok none
      else
        match checkMultipleDataTypeInPayloadArray interfaceSlice with
        | .error e => .error e
        | .panic => .panic
        | .ok =>
          let sliceReflectValue := makeNewSlice elem interfaceSlice
          let filled : Ret (List Val) :=
            match elem with
            | .struct fieldTypes =>
              sliceStructLoop A cp fieldTypes (zeroFields fieldTypes) sliceReflectValue 0
                interfaceSlice
            | .map key e => sliceMapLoop key e sliceReflectValue 0 interfaceSlice
            | .iface hasMethods =>
              sliceInterfaceLoop A hasMethods sliceReflectValue 0 interfaceSlice
            | .slice e => sliceSliceLoop A cp e sliceReflectValue 0 interfaceSlice
            | .bool => sliceScalarLoop A elem .Bool sliceReflectValue 0 interfaceSlice
            | .string => sliceScalarLoop A elem .String sliceReflectValue 0 interfaceSlice
            | .num k => sliceNumberLoop A k sliceReflectValue 0 interfaceSlice
            | .other _ => .ok sliceReflectValue
          match filled with
          | .ok items => .ok (some (.slice elem (some items)))
          | .error e => .error e
          | .panic => .panic
termination_by (sizeOf iPayloadValue, 0)
decreasing_by
  all_goals
    refine Prod.Lex.left _ _ ?_
    cases iPayloadValue <;> simp [parseStructValueToInterfaceArray] at h
    split at h <;> simp at h <;> (obtain ⟨rfl, -⟩ := h; simp)

/-- The loop of the `reflect.Struct` case, for the element type with the fields
`fieldTypes`.  `arrayItemAsStruct` is a new zero value in each round of the
first copy, and the value left by the round before in the second copy, where
it is allocated before the loop. -/
def sliceStructLoop (A : Arch) (cp : Copy) (fieldTypes : List (FieldInfo × GoType))
    (scratch : List (FieldInfo × Val)) (sliceReflectValue : List Val) (index : Nat)
    (interfaceSlice : List JSON) : Ret (List Val) :=
  match interfaceSlice with
  | [] => .ok sliceReflectValue
  | ival :: rest =>
    match ival with
    | .obj nestedPayload =>
      let arrayItemAsStruct :=
        match cp with
        | .first => zeroFields fieldTypes
        | .second => scratch
      match traverseStructAndMergeStructFieldsWithPayload A cp true arrayItemAsStruct
          nestedPayload with
      | (merged, .ok) =>
        sliceStructLoop A cp fieldTypes merged (sliceReflectValue.set index (.struct merged))
          (index + 1) rest
      | (_, .error e) => .error e
      | (_, .panic) => .panic
    | _ => .error .incompatible
termination_by (sizeOf interfaceSlice, 0)
decreasing_by
  all_goals simp_wf
  · exact Prod.Lex.left _ _ (by omega)
  · exact Prod.Lex.left _ _ (by omega)

/-- The loop of the `reflect.Slice` case, for the element type `[]elem`: the
recursion of the function into itself on a new settable value of that type. -/
def sliceSliceLoop (A : Arch) (cp : Copy) (elem : GoType) (sliceReflectValue : List Val)
    (index : Nat) (interfaceSlice : List JSON) : Ret (List Val) :=
  match interfaceSlice with
  | [] => .ok sliceReflectValue
  | ival :: rest =>
    match ival with
    | .arr slicePayload =>
      match getNewReflectValueSliceWithPayloadValues A cp true elem (.arr slicePayload) with
      | .ok (some nestedSliceRefletValue) =>
        sliceSliceLoop A cp elem (sliceReflectValue.set index nestedSliceRefletValue)
          (index + 1) rest
      | .ok none => .panic
      | .error e => .error e
      | .panic => .panic
    | _ => .error .incompatible
termination_by (sizeOf interfaceSlice, 0)
decreasing_by
  all_goals simp_wf
  · exact Prod.Lex.left _ _ (by omega)
  · exact Prod.Lex.left _ _ (by omega)
end

/-! ## The entry point -/

/-- The `interface{}` argument `iStructPointer` of `PatchValues`. -/
inductive Arg where
  /-- The nil interface. -/
  | nil
  /-- A value that is not a pointer. -/
  | value (v : Val)
  /-- A nil pointer to a variable of type `t`. -/
  | nilPointer (t : GoType)
  /-- A pointer to a variable holding `v`. -/
  | pointer (v : Val)

/-- The function `getReflectValueFromIStructPointer`; the struct value it
returns is given by its fields.  `Type` panics on the zero `reflect.Value` that
`Elem` returns for a nil pointer; the `Elem` of a pointer is settable, so the
last check of the function passes. -/
def getReflectValueFromIStructPointer (iStructPointer : Arg) :
    Ret (List (FieldInfo × Val)) :=
  match iStructPointer with
  | .nil => .error .notPointer
  | .value _ => .error .notPointer
  | .nilPointer _ => .panic
  | .pointer valueOfIStructPointerElem =>
    match valueOfIStructPointerElem with
    | .struct fields =>
      let canSet := true
      if !canSet then .error .notSettable else .ok fields
    | _ => .error .notStruct

/-- The function `PatchValues`.  The bytes `src` are represented by what
`json.Unmarshal(src, &payloadMap)` makes of them: `none` when it returns an
error, the decoded map otherwise.  The result is the argument after the call
with the outcome. -/
def PatchValues (A : Arch) (cp : Copy) (src : Option (List (String × JSON)))
    (iStructPointer : Arg) : Arg × Outcome :=
  match src with
  | none => (iStructPointer, .error .decode)
  | some payloadMap =>
    match getReflectValueFromIStructPointer iStructPointer with
    | .error e => (iStructPointer, .error e)
    | .panic => (iStructPointer, .panic)
    | .ok structReflectValue =>
      let r := traverseStructAndMergeStructFieldsWithPayload A cp true structReflectValue
        payloadMap
      (.pointer (.struct r.1), r.2)

/-! ## The recursive merge with a bound on the depth of its calls -/

mutual
/-- The nesting depth of a payload node: 0 for null, a Bool, a Number and a
String, and one more than the deepest element or value for an array and a
map. -/
def JSON.depth : JSON → Nat
  | .arr xs => depthItems xs + 1
  | .obj kvs => depthEntries kvs + 1
  | _ => 0
/-- The depth of the deepest element of a payload array. -/
def depthItems : List JSON → Nat
  | [] => 0
  | x :: xs => max x.depth (depthItems xs)
/-- The depth of the deepest value of a payload map. -/
def depthEntries : List (String × JSON) → Nat
  | [] => 0
  | (_, v) :: rest => max v.depth (depthEntries rest)
end

mutual
/-- The function `traverseStructAndMergeStructFieldsWithPayload` run with room
for `depth` nested activations of the two functions that descend into a payload
node, this one and `getNewReflectValueSliceWithPayloadValues`; `none` when the
room is used up. -/
def traverseWithin (A : Arch) (cp : Copy) (depth : Nat) (canSet : Bool)
    (fields : List (FieldInfo × Val)) (payloadMap : List (String × JSON)) :
    Option (List (FieldInfo × Val) × Outcome) :=
  match depth with
  | 0 => none
  | d + 1 => traverseLoopWithin A cp d canSet fields payloadMap
termination_by (depth, 0, 0)
decreasing_by
  exact Prod.Lex.left _ _ (by omega)

/-- The loop over the field index of
`traverseStructAndMergeStructFieldsWithPayload`, with room for `depth` nested
activations below it. -/
def traverseLoopWithin (A : Arch) (cp : Copy) (depth : Nat) (canSet : Bool)
    (fields : List (FieldInfo × Val)) (payloadMap : List (String × JSON)) :
    Option (List (FieldInfo × Val) × Outcome) :=
  match fields with
  | [] => some ([], .ok)
  | (structField, structFieldValue) :: rest =>
    match getJsonStructTag structField with
    | .error e => some ((structField, structFieldValue) :: rest, .error e)
    | .ok structFieldJsonTag =>
      match lookup structFieldJsonTag payloadMap with
      | some iPayloadValue =>
        match mergePayloadToStructFieldWithin A cp depth (canSet && structField.exported)
            structFieldValue iPayloadValue with
        | none => none
        | some (merged, .ok) =>
          match traverseLoopWithin A cp depth canSet rest payloadMap with
          | none => none
          | some r => some ((structField, merged) :: r.1, r.2)
        | some (merged, out) => some ((structField, merged) :: rest, out)
      | none =>
        match traverseLoopWithin A cp depth canSet rest payloadMap with
        | none => none
        | some r => some ((structField, structFieldValue) :: r.1, r.2)
termination_by (depth, 3, fields.length)
decreasing_by
  all_goals first
    | exact Prod.Lex.right _ (Prod.Lex.left _ _ (by omega))
    | exact Prod.Lex.right _ (Prod.Lex.right _ (by simp))

/-- The function `mergePayloadToStructField` with room for `depth` nested
activations below it. -/
def mergePayloadToStructFieldWithin (A : Arch) (cp : Copy) (depth : Nat) (canSet : Bool)
    (structFieldValue : Val) (iPayloadValue : JSON) : Option (Val × Outcome) :=
  match structFieldValue with
  | .struct fields =>
    match mergePayloadToStructSFWithin A cp depth canSet fields iPayloadValue with
    | none => none
    | some r => some (.struct r.1, r.2)
  | .map key elem cur => some (mergePayloadToMapSF canSet key elem cur iPayloadValue)
  | .slice elem cur => mergePayloadToSliceSFWithin A cp depth canSet elem cur iPayloadValue
  | .iface hasMethods cur =>
    some (mergePayloadToInterfaceSF canSet hasMethods cur iPayloadValue)
  | .bool cur => some (mergePayloadToBoolSF A canSet cur iPayloadValue)
  | .str cur => some (mergePayloadToStringSF A canSet cur iPayloadValue)
  | .num k cur => some (mergePayloadToNumberSF A canSet k cur iPayloadValue)
  | .other k content => some (.other k content, .error .unsupportedType)
termination_by (depth, 2, 0)
decreasing_by
  · exact Prod.Lex.right _ (Prod.Lex.left _ _ (by omega))
  · exact Prod.Lex.right _ (Prod.Lex.left _ _ (by omega))

/-- The function `mergePayloadToStructSF` with room for `depth` nested
activations below it. -/
def mergePayloadToStructSFWithin (A : Arch) (cp : Copy) (depth : Nat) (canSet : Bool)
    (fields : List (FieldInfo × Val)) (iPayloadValue : JSON) :
    Option (List (FieldInfo × Val) × Outcome) :=
  match helperCheckSettabilityAndSFDataType canSet with
  | .error e => some (fields, .error e)
  | .ok _ =>
    match iPayloadValue with
    | .obj payloadMap => traverseWithin A cp depth canSet fields payloadMap
    | _ => some (fields, .error .incompatible)
termination_by (depth, 1, 0)
decreasing_by
  exact Prod.Lex.right _ (Prod.Lex.left _ _ (by omega))

/-- The function `mergePayloadToSliceSF` with room for `depth` nested
activations below it. -/
def mergePayloadToSliceSFWithin (A : Arch) (cp : Copy) (depth : Nat) (canSet : Bool)
    (elem : GoType) (cur : Option (List Val)) (iPayloadValue : JSON) :
    Option (Val × Outcome) :=
  match helperCheckSettabilityAndSFDataType canSet with
  | .error e => some (.slice elem cur, .error e)
  | .ok _ =>
    if iPayloadValue.isNil then some (.slice elem (some (makeNewSlice elem [])), .ok)
    else
      if iPayloadValue.kind ≠ .Slice then some (.slice elem cur, .error .incompatible)
      else
        match getNewReflectValueSliceWithin A cp depth canSet elem iPayloadValue with
        | none => none
        | some (.ok (some sliceReflectValue)) => some (sliceReflectValue, .ok)
        | some (.ok none) => some (.slice elem cur, .panic)
        | some (.error e) => some (.slice elem cur, .error e)
        | some .panic => some (.slice elem cur, .panic)
termination_by (depth, 1, 0)
decreasing_by
  exact Prod.Lex.right _ (Prod.Lex.left _ _ (by omega))

/-- The function `getNewReflectValueSliceWithPayloadValues` run with room for
`depth` nested activations, this one included; `none` when the room is used
up. -/
def getNewReflectValueSliceWithin (A : Arch) (cp : Copy) (depth : Nat) (canSet : Bool)
    (elem : GoType) (iPayloadValue : JSON) : Option (Ret (Option Val)) :=
  match depth with
  | 0 => none
  | d + 1 =>
    if !canSet then some (.error .canSetFailed)
    else
      match parseStructValueToInterfaceArray iPayloadValue with
      | .error e => some (.error e)
      | .ok (interfaceSlice, skip) =>
        if skip then some (.ok none)
        else
          match checkMultipleDataTypeInPayloadArray interfaceSlice with
          | .error e => some (.error e)
          | .panic => some .panic
          | .ok =>
            let sliceReflectValue := makeNewSlice elem interfaceSlice
            let filled : Option (Ret (List Val)) :=
              match elem with
              | .struct fieldTypes =>
                sliceStructLoopWithin A cp d fieldTypes (zeroFields fieldTypes)
                  sliceReflectValue 0 interfaceSlice
              | .map key e => some (sliceMapLoop key e sliceReflectValue 0 interfaceSlice)
              | .iface hasMethods =>
                some (sliceInterfaceLoop A hasMethods sliceReflectValue 0 interfaceSlice)
              | .slice e => sliceSliceLoopWithin A cp d e sliceReflectValue 0 interfaceSlice
              | .bool => some (sliceScalarLoop A elem .Bool sliceReflectValue 0 interfaceSlice)
              | .string =>
                some (sliceScalarLoop A elem .String sliceReflectValue 0 interfaceSlice)
              | .num k => some (sliceNumberLoop A k sliceReflectValue 0 interfaceSlice)
              | .other _ => some (.ok sliceReflectValue)
            match filled with
            | none => none
            | some (.ok items) => some (.ok (some (.slice elem (some items))))
            | some (.error e) => some (.error e)
            | some .panic => some .panic
termination_by (depth, 0, 0)
decreasing_by
  · exact Prod.Lex.left _ _ (by omega)
  · exact Prod.Lex.left _ _ (by omega)

/-- The loop of the `reflect.Struct` case with room for `depth` nested
activations below it. -/
def sliceStructLoopWithin (A : Arch) (cp : Copy) (depth : Nat)
    (fieldTypes : List (FieldInfo × GoType)) (scratch : List (FieldInfo × Val))
    (sliceReflectValue : List Val) (index : Nat) (interfaceSlice : List JSON) :
    Option (Ret (List Val)) :=
  match interfaceSlice with
  | [] => some (.ok sliceReflectValue)
  | ival :: rest =>
    match ival with
    | .obj nestedPayload =>
      let arrayItemAsStruct :=
        match cp with
        | .first => zeroFields fieldTypes
        | .second => scratch
      match traverseWithin A cp depth true arrayItemAsStruct nestedPayload with
      | none => none
      | some (merged, .ok) =>
        sliceStructLoopWithin A cp depth fieldTypes merged
          (sliceReflectValue.set index (.struct merged)) (index + 1) rest
      | some (_, .error e) => some (.error e)
      | some (_, .panic) => some .panic
    | _ => some (.error .incompatible)
termination_by (depth, 1, interfaceSlice.length)
decreasing_by
  all_goals first
    | exact Prod.Lex.right _ (Prod.Lex.left _ _ (by omega))
    | exact Prod.Lex.right _ (Prod.Lex.right _ (by simp))

/-- The loop of the `reflect.Slice` case with room for `depth` nested
activations below it. -/
def sliceSliceLoopWithin (A : Arch) (cp : Copy) (depth : Nat) (elem : GoType)
    (sliceReflectValue : List Val) (index : Nat) (interfaceSlice : List JSON) :
    Option (Ret (List Val)) :=
  match interfaceSlice with
  | [] => some (.ok sliceReflectValue)
  | ival :: rest =>
    match ival with
    | .arr slicePayload =>
      match getNewReflectValueSliceWithin A cp depth true elem (.arr slicePayload) with
      | none => none
      | some (.ok (some nestedSliceRefletValue)) =>
        sliceSliceLoopWithin A cp depth elem (sliceReflectValue.set index nestedSliceRefletValue)
          (index + 1) rest
      | some (.ok none) => some .panic
      | some (.error e) => some (.error e)
      | some .panic => some .panic
    | _ => some (.error .incompatible)
termination_by (depth, 1, interfaceSlice.length)
decreasing_by
  all_goals first
    | exact Prod.Lex.right _ (Prod.Lex.left _ _ (by omega))
    | exact Prod.Lex.right _ (Prod.Lex.right _ (by simp))
end

/-! ## Vocabulary of the properties -/

/-- The merge of the payload value `p` into a field does the same to the field
it has already been merged into. -/
def Idem (A : Arch) (cp : Copy) (p : JSON) : Prop :=
  ∀ canSet v, mergePayloadToStructField A cp canSet
      (mergePayloadToStructField A cp canSet v p).1 p = mergePayloadToStructField A cp canSet v p

/-- The integer `i` is a value of the integer kind `k`. -/
def NumKind.represents (A : Arch) (k : NumKind) (i : Int) : Prop :=
  if k.signed then -(2 : Int) ^ (k.bits A - 1) ≤ i ∧ i < 2 ^ (k.bits A - 1)
  else 0 ≤ i ∧ i < 2 ^ k.bits A

/-- The declaration of an exported field with the given name and `json` tag. -/
def field (name jsonTag : String) : FieldInfo := ⟨name, jsonTag, true⟩

/-- The destination `{Name: "old", Age: 30, Tags: ["x","y"]}`. -/
def personFields : List (FieldInfo × Val) :=
  [(field "Name" "name", .str "old"),
   (field "Age" "age", .num .int (.int 30)),
   (field "Tags" "tags", .slice .string (some [.str "x", .str "y"]))]

/-- The record `{City: "A", Zip: "1"}`. -/
def addrFields : List (FieldInfo × Val) :=
  [(field "City" "city", .str "A"), (field "Zip" "zip", .str "1")]

/-- The kinds of error of the taxonomy of the specification. -/
inductive ErrorKind where
  | MalformedPayload | InvalidDestination | MissingFieldKey | TypeMismatch
  | HeterogeneousArray | UnsupportedShape
  deriving DecidableEq, Repr

/-- The kind of the taxonomy under which an error value of the program falls,
by its message. -/
def Err.kind : Err → ErrorKind
  | .decode => .MalformedPayload
  | .notPointer | .notStruct | .notSettable | .canSetFailed => .InvalidDestination
  | .missingJsonTag => .MissingFieldKey
  | .incompatible => .TypeMismatch
  | .multipleDataType => .HeterogeneousArray
  | .unsupportedType => .UnsupportedShape

/-- The destination is not a pointer, or is a pointer, not nil, to a value that
is not a struct. -/
def Arg.notRecordReference : Arg → Prop
  | .nil => True
  | .value _ => True
  | .nilPointer _ => False
  | .pointer (.struct _) => False
  | .pointer _ => True

/-- The kind of payload value that the loop of an element type takes. -/
def expectedKind : GoType → Option Kind
  | .struct _ => some .Map
  | .map _ _ => some .Map
  | .slice _ => some .Slice
  | .bool => some .Bool
  | .string => some .String
  | .num _ => some .Float64
  | .iface _ => none
  | .other _ => none

/-- Modelled from the spec: the prefix of a tag before its first comma, the
whole tag when it has no comma. -/
def tagPrefix (t : String) : String := String.mk (t.data.takeWhile (fun c => c != ','))

/-- The external keys that the fields of a record declare. -/
def fieldKeys (fields : List (FieldInfo × Val)) : List String :=
  fields.filterMap (fun x =>
    match getJsonStructTag x.1 with
    | .ok key => some key
    | .error _ => none)

/-- Modelled from the spec: the payload without the top-level keys that no
field of the record declares. -/
def restrictToKeys (fields : List (FieldInfo × Val)) (m : List (String × JSON)) :
    List (String × JSON) :=
  m.filter (fun kv => decide (kv.1 ∈ fieldKeys fields))

/-- Modelled from the spec: the scalar of the declared type `t` that the
Scalar rules give for a payload node: the same boolean for a Bool, the same
string for a String, the number converted to the declared numeric type for a
Number; `none` for another type or a node of another kind. -/
def convertedScalar (A : Arch) : GoType → JSON → Option Val
  | .bool, .bool b => some (.bool b)
  | .string, .str s => some (.str s)
  | .num k, .num q => some (.num k (convertFloat A k q))
  | _, _ => none

/-- Modelled from the spec: the elements that the Scalar rules give for the
nodes of a payload array, in order; `none` when a node has none. -/
def convertedItems (A : Arch) (t : GoType) : List JSON → Option (List Val)
  | [] => some []
  | x :: xs =>
    match convertedScalar A t x, convertedItems A t xs with
    | some v, some vs => some (v :: vs)
    | _, _ => none

/-- Modelled from the spec: the converted value that a field holding `v` takes
from the payload node `pv`, for the shapes whose rule does not recurse into a
record.  `null` gives the zero value of a Bool, String, numeric, map or
sequence field; a Bool, String or Number gives a field of the matching kind
the converted scalar; a node other than `null` is stored as it is in a field
of type `interface{}`; an array that is not empty gives a sequence field of
scalars the converted elements.  `none` for the other combinations. -/
def convertedValue (A : Arch) (v : Val) (pv : JSON) : Option Val :=
  match v, pv with
  | .bool _, .null => some (.bool false)
  | .str _, .null => some (.str "")
  | .num k _, .null => some (.num k (if k.isFloat then .float (.fin 0) else .int 0))
  | .map key elem _, .null => some (.map key elem (some []))
  | .slice elem _, .null => some (.slice elem (some []))
  | .bool _, .bool b => some (.bool b)
  | .str _, .str s => some (.str s)
  | .num k _, .num q => some (.num k (convertFloat A k q))
  | .iface false _, .bool b => some (ifaceOf (.bool b))
  | .iface false _, .num q => some (ifaceOf (.num q))
  | .iface false _, .str s => some (ifaceOf (.str s))
  | .iface false _, .arr xs => some (ifaceOf (.arr xs))
  | .iface false _, .obj kvs => some (ifaceOf (.obj kvs))
  | .slice elem _, .arr (x :: xs) =>
    match convertedItems A elem (x :: xs) with
    | some items => some (.slice elem (some items))
    | none => none
  | _, _ => none

/-- The record type `struct { A int; B int }` with the keys `a` and `b`. -/
def pairType : List (FieldInfo × GoType) :=
  [(field "A" "a", .num .int), (field "B" "b", .num .int)]

/-- The record `{A: a, B: b}` of the type `pairType`. -/
def pair (a b : Int) : Val :=
  .struct [(field "A" "a", .num .int (.int a)), (field "B" "b", .num .int (.int b))]

/-- The payload `[{"a": 1, "b": 2}, {"a": 3}]`. -/
def pairsPayload : JSON :=
  .arr [.obj [("a", .num 1), ("b", .num 2)], .obj [("a", .num 3)]]

/-! ## Properties -/

/-- A payload value found in a map is smaller than the map. -/
theorem lookup_sizeOf_lt {key : String} {m : List (String × JSON)} {v : JSON}
    (h : lookup key m = some v) : sizeOf v < sizeOf m := by
  induction m with
  | nil => simp [lookup] at h
  | cons hd tl ih =>
    obtain ⟨k, w⟩ := hd
    simp only [lookup] at h
    split at h
    · cases h
      simp
      omega
    · have := ih h
      simp
      omega

/-- The first component of a traversal has the fields of the destination, in
order, with their declarations. -/
theorem traverse_map_fst (A : Arch) (cp : Copy) (canSet : Bool)
    (fields : List (FieldInfo × Val)) (payloadMap : List (String × JSON)) :
    (traverseStructAndMergeStructFieldsWithPayload A cp canSet fields payloadMap).1.map Prod.fst
      = fields.map Prod.fst := by
  induction fields with
  | nil => simp [traverseStructAndMergeStructFieldsWithPayload]
  | cons hd tl ih =>
    obtain ⟨sf, v⟩ := hd
    rw [traverseStructAndMergeStructFieldsWithPayload]
    split
    · simp
    · split
      · split
        · simp [ih]
        · simp
      · simp [ih]

/-- One round of the loop of the traversal. -/
theorem traverse_cons (A : Arch) (cp : Copy) (canSet : Bool) (sf : FieldInfo) (v : Val)
    (tl : List (FieldInfo × Val)) (m : List (String × JSON)) :
    traverseStructAndMergeStructFieldsWithPayload A cp canSet ((sf, v) :: tl) m =
      match getJsonStructTag sf with
      | .error e => ((sf, v) :: tl, .error e)
      | .ok key =>
        match lookup key m with
        | some pv =>
          if (mergePayloadToStructField A cp (canSet && sf.exported) v pv).2 = .ok then
            ((sf, (mergePayloadToStructField A cp (canSet && sf.exported) v pv).1) ::
              (traverseStructAndMergeStructFieldsWithPayload A cp canSet tl m).1,
              (traverseStructAndMergeStructFieldsWithPayload A cp canSet tl m).2)
          else
            ((sf, (mergePayloadToStructField A cp (canSet && sf.exported) v pv).1) :: tl,
              (mergePayloadToStructField A cp (canSet && sf.exported) v pv).2)
        | none =>
          ((sf, v) :: (traverseStructAndMergeStructFieldsWithPayload A cp canSet tl m).1,
            (traverseStructAndMergeStructFieldsWithPayload A cp canSet tl m).2) := by
  rw [traverseStructAndMergeStructFieldsWithPayload]
  cases htag : getJsonStructTag sf with
  | error e => rfl
  | ok key =>
    simp only
    split
    · rename_i pv hpv
      simp only [hpv]
      split
      · rename_i merged hm
        simp [hm]
      · rename_i merged out hne hm
        have : out ≠ .ok := fun h => hne (by rw [h])
        simp [hm, this]
    · rename_i hnone
      simp only [hnone]

/-- A traversal is idempotent when the merge of each payload value of the map
is. -/
theorem traverse_idem (A : Arch) (cp : Copy) (canSet : Bool) (m : List (String × JSON))
    (h : ∀ key pv, lookup key m = some pv → Idem A cp pv) (fields : List (FieldInfo × Val)) :
    traverseStructAndMergeStructFieldsWithPayload A cp canSet
        (traverseStructAndMergeStructFieldsWithPayload A cp canSet fields m).1 m
      = traverseStructAndMergeStructFieldsWithPayload A cp canSet fields m := by
  induction fields with
  | nil => simp [traverseStructAndMergeStructFieldsWithPayload]
  | cons hd tl ih =>
    obtain ⟨sf, v⟩ := hd
    cases htag : getJsonStructTag sf with
    | error e =>
      have e1 : traverseStructAndMergeStructFieldsWithPayload A cp canSet ((sf, v) :: tl) m
          = ((sf, v) :: tl, .error e) := by
        rw [traverse_cons]; simp only [htag]
      rw [e1, e1]
    | ok key =>
      cases hl : lookup key m with
      | none =>
        have e1 : traverseStructAndMergeStructFieldsWithPayload A cp canSet ((sf, v) :: tl) m
            = ((sf, v) :: (traverseStructAndMergeStructFieldsWithPayload A cp canSet tl m).1,
                (traverseStructAndMergeStructFieldsWithPayload A cp canSet tl m).2) := by
          rw [traverse_cons]; simp only [htag, hl]
        rw [e1, traverse_cons]
        simp only [htag, hl, ih]
      | some pv =>
        have hi := h key pv hl (canSet && sf.exported) v
        by_cases hok : (mergePayloadToStructField A cp (canSet && sf.exported) v pv).2 = .ok
        · have e1 : traverseStructAndMergeStructFieldsWithPayload A cp canSet ((sf, v) :: tl) m
              = ((sf, (mergePayloadToStructField A cp (canSet && sf.exported) v pv).1) ::
                  (traverseStructAndMergeStructFieldsWithPayload A cp canSet tl m).1,
                  (traverseStructAndMergeStructFieldsWithPayload A cp canSet tl m).2) := by
            rw [traverse_cons]; simp only [htag, hl, hok, if_true]
          rw [e1, traverse_cons]
          simp only [htag, hl, hi, hok, if_true, ih]
        · have e1 : traverseStructAndMergeStructFieldsWithPayload A cp canSet ((sf, v) :: tl) m
              = ((sf, (mergePayloadToStructField A cp (canSet && sf.exported) v pv).1) :: tl,
                  (mergePayloadToStructField A cp (canSet && sf.exported) v pv).2) := by
            rw [traverse_cons]; simp only [htag, hl, hok, if_false]
          rw [e1, traverse_cons]
          simp only [htag, hl, hi, hok, if_false]


/-- A slice built by the program has the declared element type. -/
theorem getNewSlice_shape {A : Arch} {cp : Copy} {canSet : Bool} {elem : GoType} {p : JSON}
    {v : Val} (h : getNewReflectValueSliceWithPayloadValues A cp canSet elem p = .ok (some v)) :
    ∃ items, v = .slice elem (some items) := by
  rw [getNewReflectValueSliceWithPayloadValues] at h
  split at h
  · cases h
  · split at h
    · cases h
    · split at h
      · cases h
      · split at h
        · cases h
        · cases h
        · simp only at h
          split at h
          · rename_i items _
            cases h
            exact ⟨items, rfl⟩
          · cases h
          · cases h

/-- A map built by the program has the declared key and element types. -/
theorem getNewMap_shape {key elem : GoType} {p : JSON} {v : Val}
    (h : getNewReflectValueMapWithPayloadValues key elem p = .ok v) :
    ∃ entries, v = .map key elem (some entries) := by
  unfold getNewReflectValueMapWithPayloadValues at h
  split at h
  · split at h
    · rename_i newMap _
      cases h
      exact ⟨newMap, rfl⟩
    · cases h
  · cases h

/-- A conversion to the Bool type gives a Bool value. -/
theorem convertPayloadTo_bool {A : Arch} {p : JSON} {v : Val}
    (h : convertPayloadTo A .bool p = some v) : ∃ b, v = .bool b := by
  cases p <;> simp [convertPayloadTo] at h
  exact ⟨_, h.symm⟩

/-- A conversion to the String type gives a String value. -/
theorem convertPayloadTo_string {A : Arch} {p : JSON} {v : Val}
    (h : convertPayloadTo A .string p = some v) : ∃ s, v = .str s := by
  cases p <;> simp [convertPayloadTo] at h
  exact ⟨_, h.symm⟩

/-- A conversion to a numeric type gives a value of that kind. -/
theorem convertPayloadTo_num {A : Arch} {k : NumKind} {p : JSON} {v : Val}
    (h : convertPayloadTo A (.num k) p = some v) : ∃ x, v = .num k x := by
  cases p <;> simp [convertPayloadTo] at h
  exact ⟨_, h.symm⟩

/-- An assignment to an interface type gives a value of that type. -/
theorem assignPayloadTo_iface {hasMethods : Bool} {p : JSON} {v : Val}
    (h : assignPayloadTo (.iface hasMethods) p = some v) :
    ∃ dyn, v = .iface hasMethods dyn := by
  cases hasMethods <;> cases p <;> simp [assignPayloadTo, ifaceOf] at h <;>
    exact ⟨_, h.symm⟩

/-- The map merge either fails, leaving the field as it is, or stores a map
that does not depend on the field. -/
theorem mapSF_cases (canSet : Bool) (key elem : GoType) (p : JSON) :
    (∃ o, ∀ cur, mergePayloadToMapSF canSet key elem cur p = (.map key elem cur, o)) ∨
    (∃ entries, ∀ cur, mergePayloadToMapSF canSet key elem cur p
        = (.map key elem (some entries), .ok)) := by
  cases canSet
  · exact Or.inl ⟨.error .canSetFailed, fun cur => by
      simp [mergePayloadToMapSF, helperCheckSettabilityAndSFDataType]⟩
  · by_cases hn : p.isNil
    · exact Or.inr ⟨[], fun cur => by
        simp [mergePayloadToMapSF, helperCheckSettabilityAndSFDataType, hn]⟩
    · by_cases hk : p.kind = .Map
      · cases hg : getNewReflectValueMapWithPayloadValues key elem p with
        | ok v =>
          obtain ⟨entries, rfl⟩ := getNewMap_shape hg
          exact Or.inr ⟨entries, fun cur => by
            simp [mergePayloadToMapSF, helperCheckSettabilityAndSFDataType, hn, hk, hg]⟩
        | error e =>
          exact Or.inl ⟨.error e, fun cur => by
            simp [mergePayloadToMapSF, helperCheckSettabilityAndSFDataType, hn, hk, hg]⟩
        | panic =>
          exact Or.inl ⟨.panic, fun cur => by
            simp [mergePayloadToMapSF, helperCheckSettabilityAndSFDataType, hn, hk, hg]⟩
      · exact Or.inl ⟨.error .incompatible, fun cur => by
          simp [mergePayloadToMapSF, helperCheckSettabilityAndSFDataType, hn, hk]⟩

/-- The slice merge either fails, leaving the field as it is, or stores a slice
that does not depend on the field. -/
theorem sliceSF_cases (A : Arch) (cp : Copy) (canSet : Bool) (elem : GoType) (p : JSON) :
    (∃ o, ∀ cur, mergePayloadToSliceSF A cp canSet elem cur p = (.slice elem cur, o)) ∨
    (∃ items, ∀ cur, mergePayloadToSliceSF A cp canSet elem cur p
        = (.slice elem (some items), .ok)) := by
  cases canSet
  · exact Or.inl ⟨.error .canSetFailed, fun cur => by
      simp [mergePayloadToSliceSF, helperCheckSettabilityAndSFDataType]⟩
  · by_cases hn : p.isNil
    · exact Or.inr ⟨makeNewSlice elem [], fun cur => by
        simp [mergePayloadToSliceSF, helperCheckSettabilityAndSFDataType, hn]⟩
    · by_cases hk : p.kind = .Slice
      · cases hg : getNewReflectValueSliceWithPayloadValues A cp true elem p with
        | ok v =>
          cases v with
          | none =>
            exact Or.inl ⟨.panic, fun cur => by
              simp [mergePayloadToSliceSF, helperCheckSettabilityAndSFDataType, hn, hk, hg]⟩
          | some v =>
            obtain ⟨items, rfl⟩ := getNewSlice_shape hg
            exact Or.inr ⟨items, fun cur => by
              simp [mergePayloadToSliceSF, helperCheckSettabilityAndSFDataType, hn, hk, hg]⟩
        | error e =>
          exact Or.inl ⟨.error e, fun cur => by
            simp [mergePayloadToSliceSF, helperCheckSettabilityAndSFDataType, hn, hk, hg]⟩
        | panic =>
          exact Or.inl ⟨.panic, fun cur => by
            simp [mergePayloadToSliceSF, helperCheckSettabilityAndSFDataType, hn, hk, hg]⟩
      · exact Or.inl ⟨.error .incompatible, fun cur => by
          simp [mergePayloadToSliceSF, helperCheckSettabilityAndSFDataType, hn, hk]⟩

/-- The interface merge either fails, leaving the field as it is, or stores a
value that does not depend on the field. -/
theorem interfaceSF_cases (canSet : Bool) (hasMethods : Bool) (p : JSON) :
    (∃ o, ∀ cur, mergePayloadToInterfaceSF canSet hasMethods cur p
        = (.iface hasMethods cur, o)) ∨
    (∃ dyn, ∀ cur, mergePayloadToInterfaceSF canSet hasMethods cur p
        = (.iface hasMethods dyn, .ok)) := by
  cases canSet
  · exact Or.inl ⟨.error .canSetFailed, fun cur => by
      simp [mergePayloadToInterfaceSF, helperCheckSettabilityAndSFDataType]⟩
  · cases hg : assignPayloadTo (.iface hasMethods) p with
    | none =>
      exact Or.inl ⟨.panic, fun cur => by
        simp [mergePayloadToInterfaceSF, helperCheckSettabilityAndSFDataType, hg]⟩
    | some v =>
      obtain ⟨dyn, rfl⟩ := assignPayloadTo_iface hg
      exact Or.inr ⟨dyn, fun cur => by
        simp [mergePayloadToInterfaceSF, helperCheckSettabilityAndSFDataType, hg]⟩

/-- The Bool merge either fails, leaving the field as it is, or stores a value
that does not depend on the field. -/
theorem boolSF_cases (A : Arch) (canSet : Bool) (p : JSON) :
    (∃ o, ∀ cur, mergePayloadToBoolSF A canSet cur p = (.bool cur, o)) ∨
    (∃ b, ∀ cur, mergePayloadToBoolSF A canSet cur p = (.bool b, .ok)) := by
  cases canSet
  · exact Or.inl ⟨.error .canSetFailed, fun cur => by
      simp [mergePayloadToBoolSF, helperCheckSettabilityAndSFDataType]⟩
  · cases p with
    | bool b =>
      exact Or.inr ⟨b, fun cur => by
        simp [mergePayloadToBoolSF, helperCheckSettabilityAndSFDataType, JSON.isNil, JSON.kind,
          convertPayloadTo]⟩
    | null =>
      exact Or.inr ⟨false, fun cur => by
        simp [mergePayloadToBoolSF, helperCheckSettabilityAndSFDataType, JSON.isNil]⟩
    | _ =>
      exact Or.inl ⟨.error .incompatible, fun cur => by
        simp [mergePayloadToBoolSF, helperCheckSettabilityAndSFDataType, JSON.isNil, JSON.kind]⟩

/-- The String merge either fails, leaving the field as it is, or stores a
value that does not depend on the field. -/
theorem stringSF_cases (A : Arch) (canSet : Bool) (p : JSON) :
    (∃ o, ∀ cur, mergePayloadToStringSF A canSet cur p = (.str cur, o)) ∨
    (∃ s, ∀ cur, mergePayloadToStringSF A canSet cur p = (.str s, .ok)) := by
  cases canSet
  · exact Or.inl ⟨.error .canSetFailed, fun cur => by
      simp [mergePayloadToStringSF, helperCheckSettabilityAndSFDataType]⟩
  · cases p with
    | str s =>
      exact Or.inr ⟨s, fun cur => by
        simp [mergePayloadToStringSF, helperCheckSettabilityAndSFDataType, JSON.isNil, JSON.kind,
          convertPayloadTo]⟩
    | null =>
      exact Or.inr ⟨"", fun cur => by
        simp [mergePayloadToStringSF, helperCheckSettabilityAndSFDataType, JSON.isNil]⟩
    | _ =>
      exact Or.inl ⟨.error .incompatible, fun cur => by
        simp [mergePayloadToStringSF, helperCheckSettabilityAndSFDataType, JSON.isNil, JSON.kind]⟩

/-- The numeric merge either fails, leaving the field as it is, or stores a
value that does not depend on the field. -/
theorem numberSF_cases (A : Arch) (canSet : Bool) (k : NumKind) (p : JSON) :
    (∃ o, ∀ cur, mergePayloadToNumberSF A canSet k cur p = (.num k cur, o)) ∨
    (∃ x, ∀ cur, mergePayloadToNumberSF A canSet k cur p = (.num k x, .ok)) := by
  cases canSet
  · exact Or.inl ⟨.error .canSetFailed, fun cur => by
      simp [mergePayloadToNumberSF, helperCheckSettabilityAndSFDataType]⟩
  · cases p with
    | num q =>
      exact Or.inr ⟨convertFloat A k q, fun cur => by
        simp [mergePayloadToNumberSF, helperCheckSettabilityAndSFDataType, JSON.isNil, JSON.kind,
          convertPayloadTo, isNumericValue]⟩
    | null =>
      exact Or.inr ⟨convertZero k, fun cur => by
        simp [mergePayloadToNumberSF, helperCheckSettabilityAndSFDataType, JSON.isNil]⟩
    | _ =>
      exact Or.inl ⟨.error .incompatible, fun cur => by
        simp [mergePayloadToNumberSF, helperCheckSettabilityAndSFDataType, JSON.isNil, JSON.kind,
          isNumericValue]⟩

/-- The merge of a payload value into a field does the same to the field it has
already been merged into. -/
theorem mergeField_idem (A : Arch) (cp : Copy) (p : JSON) : Idem A cp p := by
  suffices H : ∀ n, ∀ p, sizeOf p = n → Idem A cp p from H _ p rfl
  intro n
  induction n using Nat.strong_induction_on with
  | _ n ih =>
    intro p hsz canSet v
    cases v with
    | struct fields =>
      have hf : ∀ fs, mergePayloadToStructField A cp canSet (.struct fs) p
          = (.struct (mergePayloadToStructSF A cp canSet fs p).1,
              (mergePayloadToStructSF A cp canSet fs p).2) := by
        intro fs
        rw [mergePayloadToStructField]
      rw [hf fields]
      simp only
      rw [hf]
      have hs : mergePayloadToStructSF A cp canSet
          (mergePayloadToStructSF A cp canSet fields p).1 p
            = mergePayloadToStructSF A cp canSet fields p := by
        cases p with
        | obj m =>
          cases canSet
          · simp [helperCheckSettabilityAndSFDataType, mergePayloadToStructSF]
          · have hm : ∀ key pv, lookup key m = some pv → Idem A cp pv := by
              intro key pv hl
              have := lookup_sizeOf_lt hl
              exact ih (sizeOf pv) (by subst hsz; simp; omega) pv rfl
            have := traverse_idem A cp true m hm fields
            simp only [mergePayloadToStructSF, helperCheckSettabilityAndSFDataType, if_true]
            rw [this]
        | _ => cases canSet <;> simp [helperCheckSettabilityAndSFDataType, mergePayloadToStructSF]
      rw [hs]
    | map key elem cur =>
      simp only [mergePayloadToStructField]
      rcases mapSF_cases canSet key elem p with ⟨o, h⟩ | ⟨entries, h⟩
      · rw [h cur]; simp only [mergePayloadToStructField]; rw [h cur]
      · rw [h cur]; simp only [mergePayloadToStructField]; rw [h]
    | slice elem cur =>
      simp only [mergePayloadToStructField]
      rcases sliceSF_cases A cp canSet elem p with ⟨o, h⟩ | ⟨items, h⟩
      · rw [h cur]; simp only [mergePayloadToStructField]; rw [h cur]
      · rw [h cur]; simp only [mergePayloadToStructField]; rw [h]
    | iface hasMethods cur =>
      simp only [mergePayloadToStructField]
      rcases interfaceSF_cases canSet hasMethods p with ⟨o, h⟩ | ⟨dyn, h⟩
      · rw [h cur]; simp only [mergePayloadToStructField]; rw [h cur]
      · rw [h cur]; simp only [mergePayloadToStructField]; rw [h]
    | bool cur =>
      simp only [mergePayloadToStructField]
      rcases boolSF_cases A canSet p with ⟨o, h⟩ | ⟨b, h⟩
      · rw [h cur]; simp only [mergePayloadToStructField]; rw [h cur]
      · rw [h cur]; simp only [mergePayloadToStructField]; rw [h]
    | str cur =>
      simp only [mergePayloadToStructField]
      rcases stringSF_cases A canSet p with ⟨o, h⟩ | ⟨s, h⟩
      · rw [h cur]; simp only [mergePayloadToStructField]; rw [h cur]
      · rw [h cur]; simp only [mergePayloadToStructField]; rw [h]
    | num k cur =>
      simp only [mergePayloadToStructField]
      rcases numberSF_cases A canSet k p with ⟨o, h⟩ | ⟨x, h⟩
      · rw [h cur]; simp only [mergePayloadToStructField]; rw [h cur]
      · rw [h cur]; simp only [mergePayloadToStructField]; rw [h]
    | other k content => simp [mergePayloadToStructField]


/-- C1 (absence preserves): whatever the outcome of the traversal (success, a
returned error or a panic), a field whose external key is not a key of the
payload, or that declares no key, holds after the call the value it held
before. -/
theorem absence_preserves (A : Arch) (cp : Copy) (canSet : Bool)
    (fields : List (FieldInfo × Val)) (payloadMap : List (String × JSON))
    (i : Nat) (structField : FieldInfo) (v : Val)
    (hfield : fields[i]? = some (structField, v))
    (habsent : ∀ key, getJsonStructTag structField = .ok key → lookup key payloadMap = none) :
    (traverseStructAndMergeStructFieldsWithPayload A cp canSet fields payloadMap).1[i]?
      = some (structField, v) := by
  induction fields generalizing i with
  | nil => simp at hfield
  | cons hd tl ih =>
    obtain ⟨sf, w⟩ := hd
    rw [traverseStructAndMergeStructFieldsWithPayload]
    split
    · exact hfield
    · rename_i key hkey
      split
      · rename_i pv hpv
        cases i with
        | zero =>
          simp at hfield
          obtain ⟨rfl, rfl⟩ := hfield
          rw [habsent key hkey] at hpv
          cases hpv
        | succ j =>
          simp at hfield
          split
          · simpa using ih j hfield
          · simpa using hfield
      · cases i with
        | zero => simpa using hfield
        | succ j =>
          simp at hfield
          simpa using ih j hfield

/-- Witness of C1 on the round-trip scenario: with the payload `{"name": "new"}`
the field `Age` of `{Name: "old", Age: 30, Tags: ["x","y"]}` keeps 30. -/
theorem absence_preserves_witness :
    personFields[1]? = some (field "Age" "age", .num .int (.int 30)) ∧
    (∀ key, getJsonStructTag (field "Age" "age") = .ok key →
      lookup key [("name", JSON.str "new")] = none) ∧
    (traverseStructAndMergeStructFieldsWithPayload arch64 .first true personFields
        [("name", .str "new")]).1[1]? = some (field "Age" "age", .num .int (.int 30)) :=
  have h1 : personFields[1]? = some (field "Age" "age", .num .int (.int 30)) := rfl
  have h2 : ∀ key, getJsonStructTag (field "Age" "age") = .ok key →
      lookup key [("name", JSON.str "new")] = none := by
    intro key hkey
    have : getJsonStructTag (field "Age" "age") = .ok "age" := rfl
    rw [this] at hkey
    cases hkey
    rfl
  ⟨h1, h2, absence_preserves arch64 .first true personFields [("name", .str "new")] 1 _ _ h1 h2⟩

/-- The round-trip scenario: `{Name: "old", Age: 30, Tags: ["x","y"]}` merged with
`{"name": "new"}` becomes `{Name: "new", Age: 30, Tags: ["x","y"]}`. -/
theorem round_trip_scenario (A : Arch) (cp : Copy) :
    traverseStructAndMergeStructFieldsWithPayload A cp true personFields [("name", .str "new")]
      = ([(field "Name" "name", .str "new"),
          (field "Age" "age", .num .int (.int 30)),
          (field "Tags" "tags", .slice .string (some [.str "x", .str "y"]))], .ok) := by
  simp [traverseStructAndMergeStructFieldsWithPayload, personFields, field, getJsonStructTag,
    stringsSplitComma, lookup, mergePayloadToStructField, mergePayloadToStringSF,
    helperCheckSettabilityAndSFDataType, JSON.isNil, JSON.kind, convertPayloadTo]

/-- A number that the integer kind `k` represents converts to its truncation. -/
theorem convertFloat_of_represents (A : Arch) (k : NumKind) (q : Rat)
    (hk : k.isFloat = false) (hr : k.represents A (truncToInt q)) :
    convertFloat A k q = .int (truncToInt q) := by
  cases k <;> simp only [NumKind.isFloat] at hk <;>
    cases hw : A.word64 <;>
    simp only [NumKind.represents, NumKind.signed, NumKind.bits, hw, if_true] at hr <;>
    simp only [convertFloat, floatToInt64, floatToUint64, wrapSigned, wrapUnsigned,
      NumKind.bits, hw] <;>
    generalize truncToInt q = t at hr ⊢ <;>
    norm_num at hr ⊢ <;>
    first
      | (rw [if_pos (by omega)]; omega)
      | exact absurd hk (by decide)

/-- The merge of a Bool payload into a settable Bool field. -/
theorem mergeField_bool (A : Arch) (cp : Copy) (cur b : Bool) :
    mergePayloadToStructField A cp true (.bool cur) (.bool b) = (.bool b, .ok) := by
  simp [mergePayloadToStructField, mergePayloadToBoolSF, helperCheckSettabilityAndSFDataType,
    JSON.isNil, JSON.kind, convertPayloadTo]

/-- The merge of a String payload into a settable String field. -/
theorem mergeField_string (A : Arch) (cp : Copy) (cur s : String) :
    mergePayloadToStructField A cp true (.str cur) (.str s) = (.str s, .ok) := by
  simp [mergePayloadToStructField, mergePayloadToStringSF, helperCheckSettabilityAndSFDataType,
    JSON.isNil, JSON.kind, convertPayloadTo]

/-- The merge of a Number payload into a settable numeric field. -/
theorem mergeField_number (A : Arch) (cp : Copy) (k : NumKind) (cur : NumVal) (q : Rat) :
    mergePayloadToStructField A cp true (.num k cur) (.num q)
      = (.num k (convertFloat A k q), .ok) := by
  simp [mergePayloadToStructField, mergePayloadToNumberSF, helperCheckSettabilityAndSFDataType,
    JSON.isNil, JSON.kind, convertPayloadTo, isNumericValue]

/-- C2, as stated, fails: the Number 16777217 merged into a `float32` field
leaves 16777216 in the field, not the number unchanged. -/
theorem scalar_overwrite_float32_changes :
    mergePayloadToStructField arch64 .first true (.num .float32 (.float (.fin 0)))
        (.num 16777217) = (.num .float32 (.float (.fin 16777216)), .ok) ∧
    (mergePayloadToStructField arch64 .first true (.num .float32 (.float (.fin 0)))
        (.num 16777217)).1 ≠ .num .float32 (.float (.fin 16777217)) := by
  have h : roundFloat32 16777217 = .fin 16777216 := by decide
  constructor
  · rw [mergeField_number, convertFloat, h]
  · rw [mergeField_number, convertFloat, h]
    intro hc
    injection hc with _ hc
    injection hc with hc
    injection hc with hc
    revert hc
    decide

/-- C2 (presence overwrites, scalar fields), amended: a settable field of kind
Bool, String or of a numeric kind, merged with a payload node of the matching
kind, is set, whatever it held, to the same boolean, the same string, or the
number converted to the declared numeric type, and no Number is rejected.  The
conversion leaves the number unchanged for a `float64` field, rounds it to the
nearest `float32` (ties to even) for a `float32` field, and truncates it toward
zero for an integer field whose kind represents the truncation. -/
theorem scalar_presence_overwrites (A : Arch) (cp : Copy) :
    (∀ cur b, mergePayloadToStructField A cp true (.bool cur) (.bool b) = (.bool b, .ok)) ∧
    (∀ cur s, mergePayloadToStructField A cp true (.str cur) (.str s) = (.str s, .ok)) ∧
    (∀ k cur q, mergePayloadToStructField A cp true (.num k cur) (.num q)
        = (.num k (convertFloat A k q), .ok)) ∧
    (∀ q, convertFloat A .float64 q = .float (.fin q)) ∧
    (∀ q, convertFloat A .float32 q = .float (roundFloat32 q)) ∧
    (∀ k q, k.isFloat = false → k.represents A (truncToInt q) →
        convertFloat A k q = .int (truncToInt q)) :=
  ⟨mergeField_bool A cp, mergeField_string A cp, mergeField_number A cp,
    fun _ => rfl, fun _ => rfl, convertFloat_of_represents A⟩

/-- Witness of C2: 3.5 merged into a `uint8` location gives 3. -/
theorem scalar_presence_overwrites_witness :
    NumKind.isFloat .uint8 = false ∧ NumKind.represents arch64 .uint8 (truncToInt (mkRat 7 2)) ∧
    convertFloat arch64 .uint8 (mkRat 7 2) = .int (truncToInt (mkRat 7 2)) ∧
    truncToInt (mkRat 7 2) = 3 :=
  have h1 : NumKind.isFloat .uint8 = false := rfl
  have h2 : NumKind.represents arch64 .uint8 (truncToInt (mkRat 7 2)) := by
    unfold NumKind.represents
    decide
  ⟨h1, h2, (scalar_presence_overwrites arch64 .first).2.2.2.2.2 .uint8 (mkRat 7 2) h1 h2, by decide⟩

/-- C3 (null-as-zero): a settable field merged with the payload `null` is
reset, whatever it held, to `false` for a Bool field, the empty string for a
String field, the zero of the declared numeric kind for a numeric field, an empty
map that is not nil for a map field, and an empty slice of length 0 for a slice
field; the merge returns `nil`. -/
theorem null_resets_to_zero (A : Arch) (cp : Copy) :
    (∀ cur, mergePayloadToStructField A cp true (.bool cur) .null = (.bool false, .ok)) ∧
    (∀ cur, mergePayloadToStructField A cp true (.str cur) .null = (.str "", .ok)) ∧
    (∀ k cur, mergePayloadToStructField A cp true (.num k cur) .null
        = (.num k (if k.isFloat then .float (.fin 0) else .int 0), .ok)) ∧
    (∀ key elem cur, mergePayloadToStructField A cp true (.map key elem cur) .null
        = (.map key elem (some []), .ok)) ∧
    (∀ elem cur, mergePayloadToStructField A cp true (.slice elem cur) .null
        = (.slice elem (some []), .ok)) := by
  refine ⟨?_, ?_, ?_, ?_, ?_⟩
  · intro cur
    simp [mergePayloadToStructField, mergePayloadToBoolSF, helperCheckSettabilityAndSFDataType,
      JSON.isNil]
  · intro cur
    simp [mergePayloadToStructField, mergePayloadToStringSF, helperCheckSettabilityAndSFDataType,
      JSON.isNil]
  · intro k cur
    cases k <;>
      simp [mergePayloadToStructField, mergePayloadToNumberSF,
        helperCheckSettabilityAndSFDataType, JSON.isNil, convertZero, NumKind.isFloat]
  · intro key elem cur
    simp [mergePayloadToStructField, mergePayloadToMapSF, helperCheckSettabilityAndSFDataType,
      JSON.isNil]
  · intro elem cur
    simp [mergePayloadToStructField, mergePayloadToSliceSF, helperCheckSettabilityAndSFDataType,
      JSON.isNil, makeNewSlice]

/-- After a traversal that returns `nil`, each field whose key is in the payload
holds the result of its own merge, which returned `nil`, and each other field
holds its prior value. -/
theorem traverse_ok_fields (A : Arch) (cp : Copy) (canSet : Bool)
    (fields : List (FieldInfo × Val)) (m : List (String × JSON))
    (hok : (traverseStructAndMergeStructFieldsWithPayload A cp canSet fields m).2 = .ok)
    (i : Nat) (sf : FieldInfo) (v : Val) (hfield : fields[i]? = some (sf, v)) :
    ∃ key, getJsonStructTag sf = .ok key ∧
      (∀ pv, lookup key m = some pv →
        (mergePayloadToStructField A cp (canSet && sf.exported) v pv).2 = .ok ∧
        (traverseStructAndMergeStructFieldsWithPayload A cp canSet fields m).1[i]?
          = some (sf, (mergePayloadToStructField A cp (canSet && sf.exported) v pv).1)) ∧
      (lookup key m = none →
        (traverseStructAndMergeStructFieldsWithPayload A cp canSet fields m).1[i]?
          = some (sf, v)) := by
  induction fields generalizing i with
  | nil => simp at hfield
  | cons hd tl ih =>
    obtain ⟨sf0, v0⟩ := hd
    rw [traverse_cons] at hok ⊢
    cases htag : getJsonStructTag sf0 with
    | error e => simp [htag] at hok
    | ok key0 =>
      simp only [htag] at hok ⊢
      cases hl : lookup key0 m with
      | none =>
        simp only [hl] at hok ⊢
        cases i with
        | zero =>
          simp at hfield
          obtain ⟨rfl, rfl⟩ := hfield
          refine ⟨key0, htag, ?_, fun _ => by simp⟩
          intro pv hpv
          rw [hl] at hpv
          cases hpv
        | succ j =>
          simp at hfield
          simpa using ih hok j hfield
      | some pv0 =>
        simp only [hl] at hok ⊢
        by_cases hm : (mergePayloadToStructField A cp (canSet && sf0.exported) v0 pv0).2 = .ok
        · simp only [hm, if_true] at hok ⊢
          cases i with
          | zero =>
            simp at hfield
            obtain ⟨rfl, rfl⟩ := hfield
            refine ⟨key0, htag, ?_, ?_⟩
            · intro pv hpv
              rw [hl] at hpv
              cases hpv
              exact ⟨hm, by simp⟩
            · intro hn
              rw [hl] at hn
              cases hn
          | succ j =>
            simp at hfield
            simpa using ih hok j hfield
        · simp only [hm, if_false] at hok

/-- The nested record scenario: `{Addr: {City: "A", Zip: "1"}}` merged with
`{"addr": {"city": "B"}}` becomes `{Addr: {City: "B", Zip: "1"}}`. -/
theorem nested_record_scenario (A : Arch) (cp : Copy) :
    traverseStructAndMergeStructFieldsWithPayload A cp true
        [(field "Addr" "addr", .struct addrFields)] [("addr", .obj [("city", .str "B")])]
      = ([(field "Addr" "addr",
            .struct [(field "City" "city", .str "B"), (field "Zip" "zip", .str "1")])], .ok) := by
  simp [mergePayloadToStructField, mergePayloadToStructSF, helperCheckSettabilityAndSFDataType,
      traverseStructAndMergeStructFieldsWithPayload, addrFields, field, getJsonStructTag,
      stringsSplitComma, lookup, mergePayloadToStringSF, JSON.isNil, JSON.kind, convertPayloadTo]

/-- C9 (idempotence): merging the same payload a second time leaves the
destination and the outcome (success, the error returned, or a panic) as the
first merge left them, for the traversal of a record and for `PatchValues`. -/
theorem merge_idempotent (A : Arch) (cp : Copy) :
    (∀ canSet fields payloadMap,
      traverseStructAndMergeStructFieldsWithPayload A cp canSet
          (traverseStructAndMergeStructFieldsWithPayload A cp canSet fields payloadMap).1
          payloadMap
        = traverseStructAndMergeStructFieldsWithPayload A cp canSet fields payloadMap) ∧
    (∀ src iStructPointer,
      PatchValues A cp src (PatchValues A cp src iStructPointer).1
        = PatchValues A cp src iStructPointer) := by
  have h1 : ∀ canSet fields payloadMap,
      traverseStructAndMergeStructFieldsWithPayload A cp canSet
          (traverseStructAndMergeStructFieldsWithPayload A cp canSet fields payloadMap).1
          payloadMap
        = traverseStructAndMergeStructFieldsWithPayload A cp canSet fields payloadMap :=
    fun canSet fields payloadMap =>
      traverse_idem A cp canSet payloadMap (fun _ pv _ => mergeField_idem A cp pv) fields
  refine ⟨h1, ?_⟩
  intro src iStructPointer
  cases src with
  | none => simp [PatchValues]
  | some payloadMap =>
    cases iStructPointer with
    | nil => simp [PatchValues, getReflectValueFromIStructPointer]
    | value v => simp [PatchValues, getReflectValueFromIStructPointer]
    | nilPointer t => simp [PatchValues, getReflectValueFromIStructPointer]
    | pointer v =>
      cases v <;> simp [PatchValues, getReflectValueFromIStructPointer, h1]

/-- C5, at an input where the code departs from it: for the field
`M map[string]int` and the payload `{"m": {"a": 1}}`, whose value 1 converts to
`int`, `PatchValues` panics in `SetMapIndex` and leaves the field as it was:
the value is converted to its own type `float64`, not to the element type. -/
theorem map_field_int_values_panics :
    PatchValues arch64 .first (some [("m", .obj [("a", .num 1)])])
        (.pointer (.struct [(field "M" "m", .map .string (.num .int) none)]))
      = (.pointer (.struct [(field "M" "m", .map .string (.num .int) none)]), .panic) := by
  simp [PatchValues, getReflectValueFromIStructPointer,
    traverseStructAndMergeStructFieldsWithPayload, field, getJsonStructTag, stringsSplitComma,
    lookup, mergePayloadToStructField, mergePayloadToMapSF, helperCheckSettabilityAndSFDataType,
    JSON.isNil, JSON.kind, getNewReflectValueMapWithPayloadValues, getNewReflectValueMapLoop,
    getMapKeyAndValueReflectType, dynType, convertStringTo, assignPayloadTo]

/-- C6, at inputs where the code departs from it: the non-empty homogeneous
payload `[[1], []]` for a field `G [][]int`, and `[{"a": 1}]` for a field
`G []map[string]int`, have elements that convert to the element type, but
`PatchValues` panics on both and leaves the field as it was. -/
theorem sequence_of_convertible_elements_panics :
    PatchValues arch64 .first (some [("g", .arr [.arr [.num 1], .arr []])])
        (.pointer (.struct [(field "G" "g", .slice (.slice (.num .int)) none)]))
      = (.pointer (.struct [(field "G" "g", .slice (.slice (.num .int)) none)]), .panic) ∧
    PatchValues arch64 .first (some [("g", .arr [.obj [("a", .num 1)]])])
        (.pointer (.struct [(field "G" "g", .slice (.map .string (.num .int)) none)]))
      = (.pointer (.struct [(field "G" "g", .slice (.map .string (.num .int)) none)]), .panic) := by
  constructor
  · simp [PatchValues, getReflectValueFromIStructPointer,
      traverseStructAndMergeStructFieldsWithPayload, field, getJsonStructTag, stringsSplitComma,
      lookup, mergePayloadToStructField, mergePayloadToSliceSF,
      helperCheckSettabilityAndSFDataType, JSON.isNil, JSON.kind,
      getNewReflectValueSliceWithPayloadValues, parseStructValueToInterfaceArray,
      checkMultipleDataTypeInPayloadArray, checkMultipleDataTypeLoop, typeOfKind, makeNewSlice,
      sliceSliceLoop, sliceNumberLoop, isNumericValue, convertPayloadTo, zero]
  · simp [PatchValues, getReflectValueFromIStructPointer,
      traverseStructAndMergeStructFieldsWithPayload, field, getJsonStructTag, stringsSplitComma,
      lookup, mergePayloadToStructField, mergePayloadToSliceSF,
      helperCheckSettabilityAndSFDataType, JSON.isNil, JSON.kind,
      getNewReflectValueSliceWithPayloadValues, parseStructValueToInterfaceArray,
      checkMultipleDataTypeInPayloadArray, checkMultipleDataTypeLoop, typeOfKind, makeNewSlice,
      sliceMapLoop, getNewReflectValueMapWithPayloadValues, getNewReflectValueMapLoop,
      getMapKeyAndValueReflectType, dynType, convertStringTo, assignPayloadTo, zero]

/-- C7, at inputs where the code departs from it: for the payload `[]`,
`getNewReflectValueSliceWithPayloadValues` returns the zero `reflect.Value` with
a nil error, on which `Set` panics: `PatchValues` panics for `{"tags": []}` on a
field `Tags []string` and for `{"rows": [[]]}` on a field `Rows [][]string`, and
no empty sequence is stored. -/
theorem empty_sequence_payload_panics :
    PatchValues arch64 .first (some [("tags", .arr [])])
        (.pointer (.struct [(field "Tags" "tags", .slice .string (some [.str "x"]))]))
      = (.pointer (.struct [(field "Tags" "tags", .slice .string (some [.str "x"]))]), .panic) ∧
    PatchValues arch64 .first (some [("rows", .arr [.arr []])])
        (.pointer (.struct [(field "Rows" "rows", .slice (.slice .string) none)]))
      = (.pointer (.struct [(field "Rows" "rows", .slice (.slice .string) none)]), .panic) ∧
    (∀ A cp elem, getNewReflectValueSliceWithPayloadValues A cp true elem (.arr []) = .ok none) := by
  refine ⟨?_, ?_, ?_⟩
  · simp [PatchValues, getReflectValueFromIStructPointer,
      traverseStructAndMergeStructFieldsWithPayload, field, getJsonStructTag, stringsSplitComma,
      lookup, mergePayloadToStructField, mergePayloadToSliceSF,
      helperCheckSettabilityAndSFDataType, JSON.isNil, JSON.kind,
      getNewReflectValueSliceWithPayloadValues, parseStructValueToInterfaceArray]
  · simp [PatchValues, getReflectValueFromIStructPointer,
      traverseStructAndMergeStructFieldsWithPayload, field, getJsonStructTag, stringsSplitComma,
      lookup, mergePayloadToStructField, mergePayloadToSliceSF,
      helperCheckSettabilityAndSFDataType, JSON.isNil, JSON.kind,
      getNewReflectValueSliceWithPayloadValues, parseStructValueToInterfaceArray,
      checkMultipleDataTypeInPayloadArray, checkMultipleDataTypeLoop, typeOfKind, makeNewSlice,
      sliceSliceLoop, zero]
  · intro A cp elem
    simp [getNewReflectValueSliceWithPayloadValues, parseStructValueToInterfaceArray]

/-- A settable field of type `interface{}` takes every payload node other than
`null` as it is. -/
theorem open_field_takes_non_null (A : Arch) (cp : Copy) (cur : Option Val) (p : JSON)
    (hp : p.isNil = false) :
    mergePayloadToStructField A cp true (.iface false cur) p = (ifaceOf p, .ok) := by
  cases p <;> simp [JSON.isNil] at hp <;>
    simp [mergePayloadToStructField, mergePayloadToInterfaceSF,
      helperCheckSettabilityAndSFDataType, assignPayloadTo]

/-- C8, at an input where the code departs from it: for the field
`X interface{}` and the payload `{"x": null}`, `PatchValues` panics, since `Set`
is called with the zero `reflect.Value` of `reflect.ValueOf(nil)`, and the field
keeps what it held. -/
theorem open_field_null_panics :
    PatchValues arch64 .first (some [("x", .null)])
        (.pointer (.struct [(field "X" "x", .iface false (some (.str "old")))]))
      = (.pointer (.struct [(field "X" "x", .iface false (some (.str "old")))]), .panic) := by
  simp [PatchValues, getReflectValueFromIStructPointer,
    traverseStructAndMergeStructFieldsWithPayload, field, getJsonStructTag, stringsSplitComma,
    lookup, mergePayloadToStructField, mergePayloadToInterfaceSF,
    helperCheckSettabilityAndSFDataType, assignPayloadTo]

/-- C10, at an input where the code departs from it: for the field
`Tags []string` and the payload `{"tags": [null]}`, `PatchValues` panics in
`checkMultipleDataTypeInPayloadArray`, which calls `Kind` on the nil
`reflect.Type` of the nil element, instead of returning an error. -/
theorem payload_array_with_null_panics :
    PatchValues arch64 .first (some [("tags", .arr [.null])])
        (.pointer (.struct [(field "Tags" "tags", .slice .string none)]))
      = (.pointer (.struct [(field "Tags" "tags", .slice .string none)]), .panic) := by
  simp [PatchValues, getReflectValueFromIStructPointer,
    traverseStructAndMergeStructFieldsWithPayload, field, getJsonStructTag, stringsSplitComma,
    lookup, mergePayloadToStructField, mergePayloadToSliceSF,
    helperCheckSettabilityAndSFDataType, JSON.isNil, JSON.kind,
    getNewReflectValueSliceWithPayloadValues, parseStructValueToInterfaceArray,
    checkMultipleDataTypeInPayloadArray, checkMultipleDataTypeLoop, typeOfKind]


/-- The traversal of no field. -/
theorem traverse_nil (A : Arch) (cp : Copy) (canSet : Bool) (m : List (String × JSON)) :
    traverseStructAndMergeStructFieldsWithPayload A cp canSet [] m = ([], .ok) := by
  simp [traverseStructAndMergeStructFieldsWithPayload]

/-- The traversal of the fields `xs ++ ys` traverses `xs`, and then `ys` when
the traversal of `xs` returned `nil`. -/
theorem traverse_append (A : Arch) (cp : Copy) (canSet : Bool)
    (xs ys : List (FieldInfo × Val)) (m : List (String × JSON)) :
    traverseStructAndMergeStructFieldsWithPayload A cp canSet (xs ++ ys) m =
      if (traverseStructAndMergeStructFieldsWithPayload A cp canSet xs m).2 = .ok then
        ((traverseStructAndMergeStructFieldsWithPayload A cp canSet xs m).1 ++
            (traverseStructAndMergeStructFieldsWithPayload A cp canSet ys m).1,
          (traverseStructAndMergeStructFieldsWithPayload A cp canSet ys m).2)
      else
        ((traverseStructAndMergeStructFieldsWithPayload A cp canSet xs m).1 ++ ys,
          (traverseStructAndMergeStructFieldsWithPayload A cp canSet xs m).2) := by
  induction xs with
  | nil => simp [traverse_nil]
  | cons hd tl ih =>
    obtain ⟨sf, v⟩ := hd
    rw [List.cons_append, traverse_cons, traverse_cons]
    cases htag : getJsonStructTag sf with
    | error e => simp
    | ok key =>
      simp only
      cases hl : lookup key m with
      | none =>
        simp only [ih]
        split <;> simp
      | some pv =>
        simp only
        by_cases hm : (mergePayloadToStructField A cp (canSet && sf.exported) v pv).2 = .ok
        · simp only [hm, if_true, ih]
          split <;> simp
        · simp [hm]

/-- A traversal that does not return `nil` stops at a first field: the fields
before it were traversed with a `nil` outcome, the field itself has no key or
its merge failed, and the fields after it are left as they were. -/
theorem traverse_fail_split (A : Arch) (cp : Copy) (canSet : Bool)
    (fields : List (FieldInfo × Val)) (m : List (String × JSON))
    (hfail : (traverseStructAndMergeStructFieldsWithPayload A cp canSet fields m).2 ≠ .ok) :
    ∃ pre sf v post, fields = pre ++ (sf, v) :: post ∧
      (traverseStructAndMergeStructFieldsWithPayload A cp canSet pre m).2 = .ok ∧
      ((∃ e, getJsonStructTag sf = .error e ∧
          traverseStructAndMergeStructFieldsWithPayload A cp canSet fields m
            = ((traverseStructAndMergeStructFieldsWithPayload A cp canSet pre m).1 ++
                (sf, v) :: post, .error e)) ∨
       (∃ key pv, getJsonStructTag sf = .ok key ∧ lookup key m = some pv ∧
          (mergePayloadToStructField A cp (canSet && sf.exported) v pv).2 ≠ .ok ∧
          traverseStructAndMergeStructFieldsWithPayload A cp canSet fields m
            = ((traverseStructAndMergeStructFieldsWithPayload A cp canSet pre m).1 ++
                (sf, (mergePayloadToStructField A cp (canSet && sf.exported) v pv).1) :: post,
               (mergePayloadToStructField A cp (canSet && sf.exported) v pv).2))) := by
  induction fields with
  | nil => simp [traverse_nil] at hfail
  | cons hd tl ih =>
    obtain ⟨sf0, v0⟩ := hd
    rw [traverse_cons] at hfail ⊢
    cases htag : getJsonStructTag sf0 with
    | error e =>
      exact ⟨[], sf0, v0, tl, rfl, by simp [traverse_nil], Or.inl ⟨e, htag, by simp [traverse_nil]⟩⟩
    | ok key =>
      simp only [htag] at hfail ⊢
      cases hl : lookup key m with
      | none =>
        simp only [hl] at hfail ⊢
        obtain ⟨pre, sf, v, post, hsplit, hpre, hcase⟩ := ih hfail
        have hcons : traverseStructAndMergeStructFieldsWithPayload A cp canSet
            ((sf0, v0) :: pre) m
              = ((sf0, v0) :: (traverseStructAndMergeStructFieldsWithPayload A cp canSet pre m).1,
                  .ok) := by
          rw [traverse_cons]
          simp only [htag, hl, hpre]
        refine ⟨(sf0, v0) :: pre, sf, v, post, by rw [hsplit]; rfl, by rw [hcons], ?_⟩
        rcases hcase with ⟨e, he, hr⟩ | ⟨k2, pv, hk2, hl2, hne, hr⟩
        · exact Or.inl ⟨e, he, by rw [hr, hcons]; rfl⟩
        · exact Or.inr ⟨k2, pv, hk2, hl2, hne, by rw [hr, hcons]; rfl⟩
      | some pv0 =>
        simp only [hl] at hfail ⊢
        by_cases hm : (mergePayloadToStructField A cp (canSet && sf0.exported) v0 pv0).2 = .ok
        · simp only [hm, if_true] at hfail ⊢
          obtain ⟨pre, sf, v, post, hsplit, hpre, hcase⟩ := ih hfail
          have hcons : traverseStructAndMergeStructFieldsWithPayload A cp canSet
              ((sf0, v0) :: pre) m
                = ((sf0, (mergePayloadToStructField A cp (canSet && sf0.exported) v0 pv0).1) ::
                    (traverseStructAndMergeStructFieldsWithPayload A cp canSet pre m).1,
                    .ok) := by
            rw [traverse_cons]
            simp only [htag, hl, hm, if_true, hpre]
          refine ⟨(sf0, v0) :: pre, sf, v, post, by rw [hsplit]; rfl, by rw [hcons], ?_⟩
          rcases hcase with ⟨e, he, hr⟩ | ⟨k2, pv, hk2, hl2, hne, hr⟩
          · exact Or.inl ⟨e, he, by rw [hr, hcons]; rfl⟩
          · exact Or.inr ⟨k2, pv, hk2, hl2, hne, by rw [hr, hcons]; rfl⟩
        · simp only [hm, if_false] at hfail ⊢
          exact ⟨[], sf0, v0, tl, rfl, by simp [traverse_nil],
            Or.inr ⟨key, pv0, htag, hl, hm, by simp [traverse_nil]⟩⟩

/-- A traversal keeps the number of fields. -/
theorem traverse_length (A : Arch) (cp : Copy) (canSet : Bool)
    (fields : List (FieldInfo × Val)) (m : List (String × JSON)) :
    (traverseStructAndMergeStructFieldsWithPayload A cp canSet fields m).1.length
      = fields.length := by
  have := congrArg List.length (traverse_map_fst A cp canSet fields m)
  simpa using this

/-- The only error of `getJsonStructTag` is the missing tag. -/
theorem getJsonStructTag_error {structField : FieldInfo} {e : Err}
    (h : getJsonStructTag structField = .error e) : e = .missingJsonTag := by
  unfold getJsonStructTag at h
  simp only at h
  split at h
  · cases h; rfl
  · cases h

/-- A traversal in which no field has its key in the payload returns `nil` and
changes nothing. -/
theorem traverse_all_absent (A : Arch) (cp : Copy) (canSet : Bool)
    (fields : List (FieldInfo × Val)) (m : List (String × JSON))
    (h : ∀ x ∈ fields, ∃ key, getJsonStructTag x.1 = .ok key ∧ lookup key m = none) :
    traverseStructAndMergeStructFieldsWithPayload A cp canSet fields m = (fields, .ok) := by
  induction fields with
  | nil => exact traverse_nil A cp canSet m
  | cons hd tl ih =>
    obtain ⟨sf, v⟩ := hd
    obtain ⟨key, hkey, hl⟩ := h (sf, v) (List.mem_cons_self _ _)
    rw [traverse_cons]
    simp only [hkey, hl, ih (fun x hx => h x (List.mem_cons_of_mem _ hx))]

/-- C11 (scalar type mismatch): a settable field of kind Bool, String or of a
numeric kind, merged with a payload node that is not nil and not of the field's
own kind (Bool, String, Number), fails with the error "incompatible for
merging", a TypeMismatch, and keeps the value it held. -/
theorem scalar_type_mismatch (A : Arch) (cp : Copy) :
    (∀ cur p, p.isNil = false → p.kind ≠ .Bool →
      mergePayloadToStructField A cp true (.bool cur) p = (.bool cur, .error .incompatible)) ∧
    (∀ cur p, p.isNil = false → p.kind ≠ .String →
      mergePayloadToStructField A cp true (.str cur) p = (.str cur, .error .incompatible)) ∧
    (∀ k cur p, p.isNil = false → p.kind ≠ .Float64 →
      mergePayloadToStructField A cp true (.num k cur) p = (.num k cur, .error .incompatible)) ∧
    Err.kind .incompatible = .TypeMismatch := by
  refine ⟨?_, ?_, ?_, rfl⟩
  · intro cur p hn hk
    cases p <;> simp [JSON.isNil, JSON.kind] at hn hk <;>
      simp [mergePayloadToStructField, mergePayloadToBoolSF, helperCheckSettabilityAndSFDataType,
        JSON.isNil, JSON.kind]
  · intro cur p hn hk
    cases p <;> simp [JSON.isNil, JSON.kind] at hn hk <;>
      simp [mergePayloadToStructField, mergePayloadToStringSF,
        helperCheckSettabilityAndSFDataType, JSON.isNil, JSON.kind]
  · intro k cur p hn hk
    cases p <;> simp [JSON.isNil, JSON.kind] at hn hk <;>
      simp [mergePayloadToStructField, mergePayloadToNumberSF,
        helperCheckSettabilityAndSFDataType, JSON.isNil, JSON.kind, isNumericValue]

/-- Witness of C11: the field `Age int` holding 30 and the payload value
`"thirty"`. -/
theorem scalar_type_mismatch_witness :
    (JSON.str "thirty").isNil = false ∧ (JSON.str "thirty").kind ≠ .Float64 ∧
    mergePayloadToStructField arch64 .first true (.num .int (.int 30)) (.str "thirty")
      = (.num .int (.int 30), .error .incompatible) :=
  have h1 : (JSON.str "thirty").isNil = false := rfl
  have h2 : (JSON.str "thirty").kind ≠ .Float64 := by decide
  ⟨h1, h2, (scalar_type_mismatch arch64 .first).2.2.1 .int (.int 30) (.str "thirty") h1 h2⟩

/-- The type mismatch scenario: `{Age: 30}` merged with `{"age": "thirty"}`
fails with a TypeMismatch and keeps 30. -/
theorem type_mismatch_scenario (A : Arch) (cp : Copy) :
    traverseStructAndMergeStructFieldsWithPayload A cp true
        [(field "Age" "age", .num .int (.int 30))] [("age", .str "thirty")]
      = ([(field "Age" "age", .num .int (.int 30))], .error .incompatible) := by
  simp [traverseStructAndMergeStructFieldsWithPayload, field, getJsonStructTag,
    stringsSplitComma, lookup, mergePayloadToStructField, mergePayloadToNumberSF,
    helperCheckSettabilityAndSFDataType, JSON.isNil, JSON.kind, isNumericValue]

/-- C12 (record field with a payload that is not a mapping): for a settable
field of kind Struct and a payload node that is not a map (nil, a boolean, a
number, a string or an array), `mergePayloadToStructSF` fails with the error
"incompatible for merging", a TypeMismatch, and no nested field is changed. -/
theorem record_field_non_mapping_payload (A : Arch) (cp : Copy)
    (fields : List (FieldInfo × Val)) (p : JSON) (hp : p.kind ≠ .Map) :
    mergePayloadToStructSF A cp true fields p = (fields, .error .incompatible) ∧
    mergePayloadToStructField A cp true (.struct fields) p
      = (.struct fields, .error .incompatible) ∧
    Err.kind .incompatible = .TypeMismatch := by
  have h : mergePayloadToStructSF A cp true fields p = (fields, .error .incompatible) := by
    cases p <;> simp [JSON.kind] at hp <;>
      simp [mergePayloadToStructSF, helperCheckSettabilityAndSFDataType]
  refine ⟨h, ?_, rfl⟩
  rw [mergePayloadToStructField, h]

/-- Witness of C12: the record `{City: "A", Zip: "1"}` and the payload `null`. -/
theorem record_field_non_mapping_payload_witness :
    JSON.null.kind ≠ .Map ∧
    mergePayloadToStructSF arch64 .first true addrFields .null
      = (addrFields, .error .incompatible) ∧
    mergePayloadToStructField arch64 .first true (.struct addrFields) .null
      = (.struct addrFields, .error .incompatible) ∧
    Err.kind .incompatible = .TypeMismatch :=
  have h : JSON.null.kind ≠ .Map := by decide
  ⟨h, record_field_non_mapping_payload arch64 .first addrFields .null h⟩

/-- The merge of a payload that is neither nil nor a map into a settable map
field is rejected as incompatible, and the field is left as it was. -/
theorem map_field_non_mapping_payload (A : Arch) (cp : Copy) (key elem : GoType)
    (cur : Option (List (Val × Val))) (p : JSON) (hn : p.isNil = false) (hk : p.kind ≠ .Map) :
    mergePayloadToStructField A cp true (.map key elem cur) p
      = (.map key elem cur, .error .incompatible) := by
  cases p <;> simp [JSON.isNil, JSON.kind] at hn hk <;>
    simp [mergePayloadToStructField, mergePayloadToMapSF, helperCheckSettabilityAndSFDataType,
      JSON.isNil, JSON.kind]

/-- The merge of a payload map into a settable map field returns `nil` or
panics: it returns no error. -/
theorem map_field_mapping_payload_outcome (A : Arch) (cp : Copy) (key elem : GoType)
    (cur : Option (List (Val × Val))) (m : List (String × JSON)) :
    (mergePayloadToStructField A cp true (.map key elem cur) (.obj m)).2 = .ok ∨
    mergePayloadToStructField A cp true (.map key elem cur) (.obj m)
      = (.map key elem cur, .panic) := by
  cases h : getNewReflectValueMapLoop key elem m [] <;>
    simp [mergePayloadToStructField, mergePayloadToMapSF, helperCheckSettabilityAndSFDataType,
      JSON.isNil, JSON.kind, getNewReflectValueMapWithPayloadValues, h]

/-- C13, at inputs where the code departs from it: a payload mapping with a
value that does not convert to the element type makes `PatchValues` panic
instead of failing with a TypeMismatch: `{"m": {"a": "x"}}` for a field
`M map[string]int` panics in `SetMapIndex`, and `{"m": {"a": null}}` for a
field `M map[string]string` panics in `Type` on the zero `reflect.Value`; the
field keeps its prior map. -/
theorem map_field_unconvertible_value_panics :
    PatchValues arch64 .first (some [("m", .obj [("a", .str "x")])])
        (.pointer (.struct [(field "M" "m", .map .string (.num .int) (some []))]))
      = (.pointer (.struct [(field "M" "m", .map .string (.num .int) (some []))]), .panic) ∧
    PatchValues arch64 .first (some [("m", .obj [("a", .null)])])
        (.pointer (.struct [(field "M" "m", .map .string .string (some []))]))
      = (.pointer (.struct [(field "M" "m", .map .string .string (some []))]), .panic) := by
  constructor <;>
  simp [PatchValues, getReflectValueFromIStructPointer,
    traverseStructAndMergeStructFieldsWithPayload, field, getJsonStructTag, stringsSplitComma,
    lookup, mergePayloadToStructField, mergePayloadToMapSF, helperCheckSettabilityAndSFDataType,
    JSON.isNil, JSON.kind, getNewReflectValueMapWithPayloadValues, getNewReflectValueMapLoop,
    getMapKeyAndValueReflectType, dynType, convertStringTo, assignPayloadTo]

/-- The kind of a payload value that is not nil. -/
theorem typeOfKind_of_not_nil {x : JSON} (h : x.isNil = false) :
    typeOfKind x = some x.kind ∧ x.kind ≠ .Invalid := by
  cases x <;> simp [JSON.isNil] at h <;> simp [typeOfKind, JSON.kind]

/-- The loop of the check fails on values without nil as soon as one of them is
not of the kind seen last. -/
theorem checkLoop_mismatch (prev : Kind) (xs : List JSON)
    (hnn : ∀ x ∈ xs, x.isNil = false) (hprev : prev ≠ .Invalid)
    (h : ∃ x ∈ xs, x.kind ≠ prev) :
    checkMultipleDataTypeLoop prev xs = .error .multipleDataType := by
  induction xs generalizing prev with
  | nil => simp at h
  | cons a rest ih =>
    obtain ⟨hk, hinv⟩ := typeOfKind_of_not_nil (hnn a (List.mem_cons_self _ _))
    rw [checkMultipleDataTypeLoop, hk]
    simp only
    by_cases hpa : prev = a.kind
    · have hcond : ¬ (prev ≠ .Invalid ∧ prev ≠ a.kind) := fun hc => hc.2 hpa
      rw [if_neg hcond]
      refine ih a.kind (fun x hx => hnn x (List.mem_cons_of_mem _ hx)) hinv ?_
      obtain ⟨x, hx, hxk⟩ := h
      rcases List.mem_cons.mp hx with rfl | hx
      · exact absurd hpa.symm hxk
      · exact ⟨x, hx, by rw [← hpa]; exact hxk⟩
    · rw [if_pos ⟨hprev, hpa⟩]

/-- The check rejects an array without nil that holds two values of different
kinds. -/
theorem check_heterogeneous (xs : List JSON) (hnn : ∀ x ∈ xs, x.isNil = false)
    (h : ∃ x ∈ xs, ∃ y ∈ xs, x.kind ≠ y.kind) :
    checkMultipleDataTypeInPayloadArray xs = .error .multipleDataType := by
  cases xs with
  | nil => simp at h
  | cons a rest =>
    obtain ⟨hk, hinv⟩ := typeOfKind_of_not_nil (hnn a (List.mem_cons_self _ _))
    rw [checkMultipleDataTypeInPayloadArray, checkMultipleDataTypeLoop, hk]
    simp only
    rw [if_neg (fun hc => hc.1 rfl)]
    refine checkLoop_mismatch a.kind rest (fun x hx => hnn x (List.mem_cons_of_mem _ hx)) hinv ?_
    obtain ⟨x, hx, y, hy, hxy⟩ := h
    by_cases hxa : x.kind = a.kind
    · rcases List.mem_cons.mp hy with rfl | hy
      · exact absurd hxa hxy
      · exact ⟨y, hy, fun hya => hxy (by rw [hxa, hya])⟩
    · rcases List.mem_cons.mp hx with rfl | hx
      · exact absurd rfl hxa
      · exact ⟨x, hx, hxa⟩

/-- The loop of the check, when it returns `nil`, has met no nil value and only
values of one kind, the kind seen last if there was one. -/
theorem checkLoop_ok (prev : Kind) (xs : List JSON)
    (h : checkMultipleDataTypeLoop prev xs = .ok) :
    ∀ x ∈ xs, x.isNil = false ∧ (prev ≠ .Invalid → x.kind = prev) ∧
      ∀ y ∈ xs, x.kind = y.kind := by
  induction xs generalizing prev with
  | nil => simp
  | cons a rest ih =>
    rw [checkMultipleDataTypeLoop] at h
    have hnil : a.isNil = false := by
      cases a <;> simp [typeOfKind] at h <;> rfl
    obtain ⟨hk, hinv⟩ := typeOfKind_of_not_nil hnil
    rw [hk] at h
    simp only at h
    split at h
    · cases h
    · rename_i hcond
      have hrest := ih a.kind h
      have hprev : prev ≠ .Invalid → a.kind = prev := by
        intro hp
        by_contra hne
        exact hcond ⟨hp, fun e => hne e.symm⟩
      intro x hx
      rcases List.mem_cons.mp hx with rfl | hx
      · refine ⟨hnil, hprev, ?_⟩
        intro y hy
        rcases List.mem_cons.mp hy with rfl | hy
        · rfl
        · exact ((hrest y hy).2.1 hinv).symm
      · obtain ⟨h1, h2, h3⟩ := hrest x hx
        refine ⟨h1, fun hp => (h2 hinv).trans (hprev hp), ?_⟩
        intro y hy
        rcases List.mem_cons.mp hy with rfl | hy
        · exact h2 hinv
        · exact h3 y hy

/-- The function `getNewReflectValueSliceWithPayloadValues` on a settable value
and a payload array that is not empty: the check, then the loop of the element
kind. -/
theorem getNewSlice_cons (A : Arch) (cp : Copy) (elem : GoType) (x : JSON) (rest : List JSON) :
    getNewReflectValueSliceWithPayloadValues A cp true elem (.arr (x :: rest)) =
      match checkMultipleDataTypeInPayloadArray (x :: rest) with
      | .error e => .error e
      | .panic => .panic
      | .ok =>
        match (match elem with
          | .struct fieldTypes =>
            sliceStructLoop A cp fieldTypes (zeroFields fieldTypes)
              (makeNewSlice elem (x :: rest)) 0 (x :: rest)
          | .map key e => sliceMapLoop key e (makeNewSlice elem (x :: rest)) 0 (x :: rest)
          | .iface hasMethods =>
            sliceInterfaceLoop A hasMethods (makeNewSlice elem (x :: rest)) 0 (x :: rest)
          | .slice e => sliceSliceLoop A cp e (makeNewSlice elem (x :: rest)) 0 (x :: rest)
          | .bool => sliceScalarLoop A elem .Bool (makeNewSlice elem (x :: rest)) 0 (x :: rest)
          | .string =>
            sliceScalarLoop A elem .String (makeNewSlice elem (x :: rest)) 0 (x :: rest)
          | .num k => sliceNumberLoop A k (makeNewSlice elem (x :: rest)) 0 (x :: rest)
          | .other _ => .ok (makeNewSlice elem (x :: rest))) with
        | .ok items => .ok (some (.slice elem (some items)))
        | .error e => .error e
        | .panic => .panic := by
  rw [getNewReflectValueSliceWithPayloadValues]
  simp [parseStructValueToInterfaceArray]

/-- The merge of a payload array that is not empty into a settable slice field:
the field is set when the slice is built and is left as it was otherwise. -/
theorem sliceSF_cons (A : Arch) (cp : Copy) (elem : GoType) (cur : Option (List Val))
    (x : JSON) (rest : List JSON) :
    mergePayloadToStructField A cp true (.slice elem cur) (.arr (x :: rest)) =
      match getNewReflectValueSliceWithPayloadValues A cp true elem (.arr (x :: rest)) with
      | .ok (some sliceReflectValue) => (sliceReflectValue, .ok)
      | .ok none => (.slice elem cur, .panic)
      | .error e => (.slice elem cur, .error e)
      | .panic => (.slice elem cur, .panic) := by
  simp [mergePayloadToStructField, mergePayloadToSliceSF, helperCheckSettabilityAndSFDataType,
    JSON.isNil, JSON.kind]

/-- A payload array without nil that holds two values of different kinds,
merged into a settable slice field of any element type, is rejected by the
check, and the field is left as it was. -/
theorem heterogeneous_array_rejected (A : Arch) (cp : Copy) (elem : GoType)
    (cur : Option (List Val)) (xs : List JSON) (hnn : ∀ x ∈ xs, x.isNil = false)
    (h : ∃ x ∈ xs, ∃ y ∈ xs, x.kind ≠ y.kind) :
    mergePayloadToStructField A cp true (.slice elem cur) (.arr xs)
      = (.slice elem cur, .error .multipleDataType) := by
  have hc := check_heterogeneous xs hnn h
  cases xs with
  | nil => simp at h
  | cons x rest => rw [sliceSF_cons, getNewSlice_cons, hc]

/-- C14, at an input where the code departs from it: the payload `[1, null]`
holds two elements of different decoded kinds, but for the field `Nums []int`
`PatchValues` panics in `checkMultipleDataTypeInPayloadArray` on the nil
element instead of failing with HeterogeneousArray. -/
theorem heterogeneous_array_with_null_panics :
    PatchValues arch64 .first (some [("nums", .arr [.num 1, .null])])
        (.pointer (.struct [(field "Nums" "nums", .slice (.num .int) none)]))
      = (.pointer (.struct [(field "Nums" "nums", .slice (.num .int) none)]), .panic) ∧
    (JSON.num 1).kind ≠ JSON.null.kind := by
  refine ⟨?_, by decide⟩
  simp [PatchValues, getReflectValueFromIStructPointer,
    traverseStructAndMergeStructFieldsWithPayload, field, getJsonStructTag, stringsSplitComma,
    lookup, mergePayloadToStructField, mergePayloadToSliceSF,
    helperCheckSettabilityAndSFDataType, JSON.isNil, JSON.kind,
    getNewReflectValueSliceWithPayloadValues, parseStructValueToInterfaceArray,
    checkMultipleDataTypeInPayloadArray, checkMultipleDataTypeLoop, typeOfKind]

/-- The homogeneity scenario: `[1, "a"]` merged into a settable field of type
`[]int` fails with HeterogeneousArray, and the field is left as it was. -/
theorem homogeneity_scenario (A : Arch) (cp : Copy) (cur : Option (List Val)) :
    mergePayloadToStructField A cp true (.slice (.num .int) cur) (.arr [.num 1, .str "a"])
      = (.slice (.num .int) cur, .error .multipleDataType) := by
  apply heterogeneous_array_rejected
  · intro x hx
    simp at hx
    rcases hx with rfl | rfl <;> rfl
  · exact ⟨.num 1, by simp, .str "a", by simp, by decide⟩

/-- The merge of a slice field is all or nothing: unless it returns `nil`, the
field is left as it was. -/
theorem slice_merge_all_or_nothing (A : Arch) (cp : Copy) (canSet : Bool) (elem : GoType)
    (cur : Option (List Val)) (p : JSON)
    (h : (mergePayloadToStructField A cp canSet (.slice elem cur) p).2 ≠ .ok) :
    (mergePayloadToStructField A cp canSet (.slice elem cur) p).1 = .slice elem cur := by
  simp only [mergePayloadToStructField] at h ⊢
  rcases sliceSF_cases A cp canSet elem p with ⟨o, ho⟩ | ⟨items, hi⟩
  · rw [ho]
  · rw [hi] at h
    exact absurd rfl h

/-- A payload array that passes the check and holds a value that is not of the
kind the element type takes is rejected as incompatible, and the settable slice
field is left as it was. -/
theorem slice_wrong_kind_rejected (A : Arch) (cp : Copy) (elem : GoType)
    (cur : Option (List Val)) (xs : List JSON) (k : Kind)
    (hcheck : checkMultipleDataTypeInPayloadArray xs = .ok)
    (hk : expectedKind elem = some k) (hwrong : ∃ y ∈ xs, y.kind ≠ k) :
    mergePayloadToStructField A cp true (.slice elem cur) (.arr xs)
      = (.slice elem cur, .error .incompatible) := by
  cases xs with
  | nil => simp at hwrong
  | cons x rest =>
    have hall := checkLoop_ok .Invalid (x :: rest) hcheck
    have hx : x.kind ≠ k := by
      obtain ⟨y, hy, hyk⟩ := hwrong
      have := (hall x (List.mem_cons_self _ _)).2.2 y hy
      rw [this]
      exact hyk
    rw [sliceSF_cons, getNewSlice_cons, hcheck]
    cases elem <;> simp [expectedKind] at hk <;> subst hk <;>
      cases x <;> simp [JSON.kind] at hx <;>
      simp [sliceStructLoop, sliceMapLoop, sliceSliceLoop, sliceScalarLoop, sliceNumberLoop,
        JSON.kind, isNumericValue]

/-- C15, at inputs where the code departs from it: a homogeneous, non-empty
payload with an element that fails conversion makes `PatchValues` panic instead
of failing with a TypeMismatch: `[{"a": "x"}]` for a field
`Rows []map[string]int` (a failure nested in the element) and `[null, null]`
for a field `Nums []int` (elements of the wrong kind); the field keeps its
prior sequence. -/
theorem sequence_failing_element_panics :
    PatchValues arch64 .first (some [("rows", .arr [.obj [("a", .str "x")]])])
        (.pointer (.struct [(field "Rows" "rows", .slice (.map .string (.num .int)) none)]))
      = (.pointer (.struct [(field "Rows" "rows", .slice (.map .string (.num .int)) none)]),
          .panic) ∧
    PatchValues arch64 .first (some [("nums", .arr [.null, .null])])
        (.pointer (.struct [(field "Nums" "nums", .slice (.num .int) none)]))
      = (.pointer (.struct [(field "Nums" "nums", .slice (.num .int) none)]), .panic) := by
  constructor
  · simp [PatchValues, getReflectValueFromIStructPointer,
      traverseStructAndMergeStructFieldsWithPayload, field, getJsonStructTag, stringsSplitComma,
      lookup, mergePayloadToStructField, mergePayloadToSliceSF,
      helperCheckSettabilityAndSFDataType, JSON.isNil, JSON.kind,
      getNewReflectValueSliceWithPayloadValues, parseStructValueToInterfaceArray,
      checkMultipleDataTypeInPayloadArray, checkMultipleDataTypeLoop, typeOfKind, makeNewSlice,
      sliceMapLoop, getNewReflectValueMapWithPayloadValues, getNewReflectValueMapLoop,
      getMapKeyAndValueReflectType, dynType, convertStringTo, assignPayloadTo, zero]
  · simp [PatchValues, getReflectValueFromIStructPointer,
      traverseStructAndMergeStructFieldsWithPayload, field, getJsonStructTag, stringsSplitComma,
      lookup, mergePayloadToStructField, mergePayloadToSliceSF,
      helperCheckSettabilityAndSFDataType, JSON.isNil, JSON.kind,
      getNewReflectValueSliceWithPayloadValues, parseStructValueToInterfaceArray,
      checkMultipleDataTypeInPayloadArray, checkMultipleDataTypeLoop, typeOfKind]

/-- C16 (unsupported shape): a field of a kind for which the program has no
merge rule (complex number, array, channel, function, pointer, unsafe pointer)
fails with the error "Unsupported type", an UnsupportedShape, for every payload
node, nil included, and is not changed; when its key is absent from the
payload the traversal passes over it and goes on with the fields after it. -/
theorem unsupported_shape (A : Arch) (cp : Copy) :
    (∀ canSet k content p,
      mergePayloadToStructField A cp canSet (.other k content) p
        = (.other k content, .error .unsupportedType)) ∧
    Err.kind .unsupportedType = .UnsupportedShape ∧
    (∀ canSet structField k content rest payloadMap key,
      getJsonStructTag structField = .ok key → lookup key payloadMap = none →
      traverseStructAndMergeStructFieldsWithPayload A cp canSet
          ((structField, .other k content) :: rest) payloadMap
        = ((structField, .other k content) ::
            (traverseStructAndMergeStructFieldsWithPayload A cp canSet rest payloadMap).1,
           (traverseStructAndMergeStructFieldsWithPayload A cp canSet rest payloadMap).2)) := by
  refine ⟨?_, rfl, ?_⟩
  · intro canSet k content p
    simp [mergePayloadToStructField]
  · intro canSet structField k content rest payloadMap key hkey hl
    rw [traverse_cons]
    simp only [hkey, hl]

/-- Witness of C16: a pointer field `Next` whose key `next` is not in the
payload `{"name": "new"}`. -/
theorem unsupported_shape_witness :
    getJsonStructTag (field "Next" "next") = .ok "next" ∧
    lookup "next" [("name", JSON.str "new")] = none ∧
    traverseStructAndMergeStructFieldsWithPayload arch64 .first true
        ((field "Next" "next", .other .pointer 0) :: personFields) [("name", .str "new")]
      = ((field "Next" "next", .other .pointer 0) ::
          (traverseStructAndMergeStructFieldsWithPayload arch64 .first true personFields
            [("name", .str "new")]).1,
         (traverseStructAndMergeStructFieldsWithPayload arch64 .first true personFields
            [("name", .str "new")]).2) :=
  have h1 : getJsonStructTag (field "Next" "next") = .ok "next" := rfl
  have h2 : lookup "next" [("name", JSON.str "new")] = none := rfl
  ⟨h1, h2, (unsupported_shape arch64 .first).2.2 true (field "Next" "next") .pointer 0
    personFields [("name", .str "new")] "next" h1 h2⟩

/-- C17, as stated, fails: the record `{Age int; Note string}` in which `Note`
declares no key, merged with `{"age": "thirty"}`, fails with the TypeMismatch of
`Age`, not with MissingFieldKey. -/
theorem missing_field_key_not_surfaced :
    getJsonStructTag (field "Note" "") = .error .missingJsonTag ∧
    traverseStructAndMergeStructFieldsWithPayload arch64 .first true
        [(field "Age" "age", .num .int (.int 30)), (field "Note" "", .str "n")]
        [("age", .str "thirty")]
      = ([(field "Age" "age", .num .int (.int 30)), (field "Note" "", .str "n")],
          .error .incompatible) ∧
    Outcome.error .incompatible ≠ Outcome.error .missingJsonTag := by
  refine ⟨rfl, ?_, by decide⟩
  simp [traverseStructAndMergeStructFieldsWithPayload, field, getJsonStructTag,
    stringsSplitComma, lookup, mergePayloadToStructField, mergePayloadToNumberSF,
    helperCheckSettabilityAndSFDataType, JSON.isNil, JSON.kind, isNumericValue]

/-- C17 (MissingFieldKey), amended: the merge into a record that declares a
field with no external key never succeeds.  It ends with the outcome of the
fields declared before that field when their traversal fails, and with the
error "Missing json tag", a MissingFieldKey, when it succeeds, in particular
when none of their keys is in the payload; the record is then unchanged. -/
theorem missing_field_key_surfaced (A : Arch) (cp : Copy) (canSet : Bool)
    (pre : List (FieldInfo × Val)) (structField : FieldInfo) (v : Val)
    (post : List (FieldInfo × Val)) (m : List (String × JSON))
    (hkey : getJsonStructTag structField = .error .missingJsonTag) :
    (traverseStructAndMergeStructFieldsWithPayload A cp canSet
        (pre ++ (structField, v) :: post) m).2
      = (if (traverseStructAndMergeStructFieldsWithPayload A cp canSet pre m).2 = .ok then
          .error .missingJsonTag
         else (traverseStructAndMergeStructFieldsWithPayload A cp canSet pre m).2) ∧
    (traverseStructAndMergeStructFieldsWithPayload A cp canSet
        (pre ++ (structField, v) :: post) m).2 ≠ .ok ∧
    ((∀ x ∈ pre, ∃ key, getJsonStructTag x.1 = .ok key ∧ lookup key m = none) →
      traverseStructAndMergeStructFieldsWithPayload A cp canSet
          (pre ++ (structField, v) :: post) m
        = (pre ++ (structField, v) :: post, .error .missingJsonTag)) ∧
    Err.kind .missingJsonTag = .MissingFieldKey := by
  have hcons : traverseStructAndMergeStructFieldsWithPayload A cp canSet
      ((structField, v) :: post) m = ((structField, v) :: post, .error .missingJsonTag) := by
    rw [traverse_cons]
    simp only [hkey]
  have happ := traverse_append A cp canSet pre ((structField, v) :: post) m
  rw [hcons] at happ
  refine ⟨?_, ?_, ?_, rfl⟩
  · rw [happ]
    split <;> rfl
  · rw [happ]
    split
    · simp
    · assumption
  · intro habs
    rw [happ, traverse_all_absent A cp canSet pre m habs]
    simp

/-- Witness of C17: the field `Note` with the tag `,omitempty` after the fields
of `{Name, Age, Tags}`, and the payload `{"zip": "1"}`. -/
theorem missing_field_key_surfaced_witness :
    getJsonStructTag (field "Note" ",omitempty") = .error .missingJsonTag ∧
    (traverseStructAndMergeStructFieldsWithPayload arch64 .first true
        (personFields ++ (field "Note" ",omitempty", .str "n") :: []) [("zip", .str "1")]).2
      = .error .missingJsonTag :=
  have h : getJsonStructTag (field "Note" ",omitempty") = .error .missingJsonTag := rfl
  ⟨h, by
    have := (missing_field_key_surfaced arch64 .first true personFields
      (field "Note" ",omitempty") (.str "n") [] [("zip", .str "1")] h).2.2.1
      (by
        intro x hx
        simp [personFields] at hx
        rcases hx with rfl | rfl | rfl
        · exact ⟨"name", rfl, rfl⟩
        · exact ⟨"age", rfl, rfl⟩
        · exact ⟨"tags", rfl, rfl⟩)
    rw [this]⟩

/-- C18, as stated, fails: for a destination that is not a pointer and bytes
that do not decode, `PatchValues` returns the error of `json.Unmarshal`, a
MalformedPayload, not an InvalidDestination: the payload is decoded first. -/
theorem invalid_destination_after_malformed_payload :
    Arg.notRecordReference (.value (.bool true)) ∧
    PatchValues arch64 .first none (.value (.bool true))
      = (.value (.bool true), .error .decode) ∧
    Err.kind .decode ≠ .InvalidDestination := by
  refine ⟨trivial, ?_, by decide⟩
  simp [PatchValues]

/-- C18 (invalid destination), amended: for a destination that is not a
pointer, or is a pointer, not nil, to a value that is not a struct,
`PatchValues` fails with an InvalidDestination for every payload that decodes,
and with the MalformedPayload of the decoder for bytes that do not decode; the
destination is unchanged. -/
theorem invalid_destination_rejected (A : Arch) (cp : Copy) (iStructPointer : Arg)
    (h : iStructPointer.notRecordReference) :
    (∀ payloadMap, ∃ e,
      PatchValues A cp (some payloadMap) iStructPointer = (iStructPointer, .error e) ∧
      e.kind = .InvalidDestination) ∧
    PatchValues A cp none iStructPointer = (iStructPointer, .error .decode) ∧
    Err.kind .decode = .MalformedPayload := by
  refine ⟨?_, by simp [PatchValues], rfl⟩
  intro payloadMap
  cases iStructPointer with
  | nil => exact ⟨.notPointer, by simp [PatchValues, getReflectValueFromIStructPointer], rfl⟩
  | value v => exact ⟨.notPointer, by simp [PatchValues, getReflectValueFromIStructPointer], rfl⟩
  | nilPointer t => exact absurd h (by simp [Arg.notRecordReference])
  | pointer v =>
    cases v with
    | struct fields => exact absurd h (by simp [Arg.notRecordReference])
    | _ => exact ⟨.notStruct, by simp [PatchValues, getReflectValueFromIStructPointer], rfl⟩

/-- Witness of C18: a pointer to a string. -/
theorem invalid_destination_rejected_witness :
    Arg.notRecordReference (.pointer (.str "s")) ∧
    (∀ payloadMap, ∃ e,
      PatchValues arch64 .first (some payloadMap) (.pointer (.str "s"))
        = (.pointer (.str "s"), .error e) ∧
      e.kind = .InvalidDestination) ∧
    PatchValues arch64 .first none (.pointer (.str "s")) = (.pointer (.str "s"), .error .decode) ∧
    Err.kind .decode = .MalformedPayload :=
  have h : Arg.notRecordReference (.pointer (.str "s")) := trivial
  ⟨h, invalid_destination_rejected arch64 .first (.pointer (.str "s")) h⟩

/-- The binder returns the fields of the struct exactly for a pointer, not nil,
to a struct, and an InvalidDestination for a destination that is not a pointer
or points to a value that is not a struct. -/
theorem binder_result (iStructPointer : Arg) :
    (∀ fields, getReflectValueFromIStructPointer iStructPointer = .ok fields ↔
      iStructPointer = .pointer (.struct fields)) ∧
    (iStructPointer.notRecordReference →
      ∃ e, getReflectValueFromIStructPointer iStructPointer = .error e ∧
        e.kind = .InvalidDestination) := by
  cases iStructPointer with
  | nil => simp [getReflectValueFromIStructPointer, Err.kind]
  | value v => simp [getReflectValueFromIStructPointer, Err.kind]
  | nilPointer t => simp [getReflectValueFromIStructPointer, Arg.notRecordReference]
  | pointer v =>
    cases v <;> simp [getReflectValueFromIStructPointer, Err.kind, Arg.notRecordReference]

/-- C19, at an input where the code departs from it: for a nil pointer
`getReflectValueFromIStructPointer` panics, since `Elem` returns the zero
`reflect.Value` and `Type` is called on it, instead of returning an
InvalidDestination; `PatchValues` panics with it. -/
theorem nil_pointer_destination_panics (A : Arch) (cp : Copy) (t : GoType) :
    getReflectValueFromIStructPointer (.nilPointer t) = .panic ∧
    (∀ payloadMap,
      PatchValues A cp (some payloadMap) (.nilPointer t) = (.nilPointer t, .panic)) := by
  constructor
  · rfl
  · intro payloadMap
    simp [PatchValues, getReflectValueFromIStructPointer]

/-- The partial mutation scenario: `{Name: "old", Age: 30, City: "A"}` merged
with `{"name": "new", "age": "thirty", "city": "B"}` fails at `Age` with `Name`
already set and `City` untouched. -/
theorem partial_mutation_scenario (A : Arch) (cp : Copy) :
    traverseStructAndMergeStructFieldsWithPayload A cp true
        [(field "Name" "name", .str "old"), (field "Age" "age", .num .int (.int 30)),
          (field "City" "city", .str "A")]
        [("name", .str "new"), ("age", .str "thirty"), ("city", .str "B")]
      = ([(field "Name" "name", .str "new"), (field "Age" "age", .num .int (.int 30)),
          (field "City" "city", .str "A")], .error .incompatible) := by
  simp [traverseStructAndMergeStructFieldsWithPayload, field, getJsonStructTag,
    stringsSplitComma, lookup, mergePayloadToStructField, mergePayloadToNumberSF,
    mergePayloadToStringSF, convertPayloadTo,
    helperCheckSettabilityAndSFDataType, JSON.isNil, JSON.kind, isNumericValue]

/-- The loop of the check returns `nil` on values without nil that all have the
kind `k`, when the kind seen before is `Invalid` or `k`. -/
theorem checkLoop_same (prev k : Kind) (xs : List JSON)
    (hprev : prev = .Invalid ∨ prev = k)
    (h : ∀ x ∈ xs, x.isNil = false ∧ x.kind = k) :
    checkMultipleDataTypeLoop prev xs = .ok := by
  induction xs generalizing prev with
  | nil => rfl
  | cons a rest ih =>
    obtain ⟨hnil, hk⟩ := h a (List.mem_cons_self _ _)
    obtain ⟨htk, -⟩ := typeOfKind_of_not_nil hnil
    rw [checkMultipleDataTypeLoop, htk]
    simp only
    have hcond : ¬ (prev ≠ .Invalid ∧ prev ≠ a.kind) := by
      rintro ⟨h1, h2⟩
      rcases hprev with hp | hp
      · exact h1 hp
      · exact h2 (by rw [hp, hk])
    rw [if_neg hcond]
    exact ih a.kind (Or.inr hk) (fun x hx => h x (List.mem_cons_of_mem _ hx))

/-- The store at the index after the elements `pre`. -/
theorem set_append_cons (pre : List Val) (s v : Val) (suf : List Val) :
    (pre ++ s :: suf).set pre.length v = pre ++ v :: suf := by
  induction pre with
  | nil => rfl
  | cons a pre ih => simp [List.set, ih]

/-- The loop of the numeric kinds on an array of numbers stores the conversion
of each number at its index, and rejects none. -/
theorem sliceNumberLoop_nums (A : Arch) (k : NumKind) (qs : List Rat) :
    ∀ (pre suf : List Val), qs.length ≤ suf.length →
      sliceNumberLoop A k (pre ++ suf) pre.length (qs.map JSON.num)
        = .ok (pre ++ qs.map (fun q => Val.num k (convertFloat A k q)) ++ suf.drop qs.length) := by
  induction qs with
  | nil => intro pre suf _; simp [sliceNumberLoop]
  | cons q qs ih =>
    intro pre suf hlen
    cases suf with
    | nil => simp at hlen
    | cons s suf =>
      simp only [List.map_cons, sliceNumberLoop, isNumericValue, JSON.kind, convertPayloadTo]
      simp only [Bool.not_true, Bool.false_eq_true, if_false]
      rw [set_append_cons]
      have h := ih (pre ++ [Val.num k (convertFloat A k q)]) suf
        (by simpa using hlen)
      simp only [List.length_append, List.length_singleton, List.append_assoc,
        List.singleton_append] at h
      rw [h]
      simp

/-- The check accepts an array of numbers. -/
theorem check_nums (qs : List Rat) :
    checkMultipleDataTypeInPayloadArray (qs.map JSON.num) = .ok := by
  apply checkLoop_same .Invalid .Float64 _ (Or.inl rfl)
  intro x hx
  rw [List.mem_map] at hx
  obtain ⟨q, -, rfl⟩ := hx
  exact ⟨rfl, rfl⟩

/-- A payload array of numbers merged into a settable slice field of a numeric
element kind: the field is set to the conversions of the numbers, in order. -/
theorem mergeField_slice_nums (A : Arch) (cp : Copy) (k : NumKind)
    (cur : Option (List Val)) (q : Rat) (qs : List Rat) :
    mergePayloadToStructField A cp true (.slice (.num k) cur) (.arr ((q :: qs).map JSON.num))
      = (.slice (.num k) (some ((q :: qs).map (fun q => Val.num k (convertFloat A k q)))),
          .ok) := by
  have hcheck := check_nums (q :: qs)
  have hloop := sliceNumberLoop_nums A k (q :: qs) []
    (makeNewSlice (.num k) ((q :: qs).map JSON.num)) (by simp [makeNewSlice])
  simp only [List.map_cons] at hcheck hloop ⊢
  rw [sliceSF_cons, getNewSlice_cons, hcheck]
  simp only [List.nil_append, List.length_nil] at hloop
  simp only [hloop]
  simp [makeNewSlice]

/-- The number 300 converts to 44 at the width of 8 bits. -/
theorem convertFloat_300_uint8 (A : Arch) : convertFloat A .uint8 300 = .int 44 := by
  have h : truncToInt 300 = 300 := by decide
  have hc : (0 : Int) ≤ 300 ∧ (300 : Int) < 2 ^ 64 := by decide
  simp only [convertFloat, floatToUint64, h, wrapUnsigned, NumKind.bits, if_pos hc]
  decide

/-- C21, at an input where the code departs from it: the Number 300 does not
fit the 8-bit unsigned element of the field `Bytes []uint8`, yet the merge of
the payload `[300]` succeeds and stores the wrapped value 44; no TypeMismatch is
reported. -/
theorem out_of_range_element_is_stored :
    mergePayloadToStructField arch64 .first true (.slice (.num .uint8) none) (.arr [.num 300])
      = (.slice (.num .uint8) (some [.num .uint8 (.int 44)]), .ok) ∧
    ¬ NumKind.represents arch64 .uint8 (truncToInt 300) := by
  constructor
  · have h := mergeField_slice_nums arch64 .first .uint8 none 300 []
    simp only [List.map_cons, List.map_nil, convertFloat_300_uint8] at h
    exact h
  · unfold NumKind.represents
    decide

/-- On arrays without nil the check returns `nil` exactly when all values have
one kind, and the error of the mixed kinds otherwise. -/
theorem check_of_no_nil (xs : List JSON) (hnn : ∀ x ∈ xs, x.isNil = false) :
    (checkMultipleDataTypeInPayloadArray xs = .ok ↔ ∀ x ∈ xs, ∀ y ∈ xs, x.kind = y.kind) ∧
    (checkMultipleDataTypeInPayloadArray xs ≠ .ok →
      checkMultipleDataTypeInPayloadArray xs = .error .multipleDataType) := by
  have hiff : checkMultipleDataTypeInPayloadArray xs = .ok ↔
      ∀ x ∈ xs, ∀ y ∈ xs, x.kind = y.kind := by
    constructor
    · intro h x hx
      exact (checkLoop_ok .Invalid xs h x hx).2.2
    · intro h
      cases xs with
      | nil => rfl
      | cons a rest =>
        exact checkLoop_same .Invalid a.kind (a :: rest) (Or.inl rfl)
          (fun x hx => ⟨hnn x hx, h x hx a (List.mem_cons_self _ _)⟩)
  refine ⟨hiff, ?_⟩
  intro hne
  apply check_heterogeneous xs hnn
  by_contra hcon
  apply hne
  rw [hiff]
  intro x hx y hy
  by_contra hxy
  exact hcon ⟨x, hx, y, hy, hxy⟩

/-- C22, at inputs where the code departs from it: on a sequence that holds a
nil element the check does not return; `reflect.TypeOf(nil).Kind()` is a nil
dereference and the function panics.  So the one-element sequence `[null]` and
the sequence `[null, null]`, whose elements all have the kind of the first, are
not accepted, and `[1, null]` is not rejected with HeterogeneousArray; a nil is
only never reached when two kinds before it already differ. -/
theorem homogeneity_check_panics_on_nil :
    checkMultipleDataTypeInPayloadArray [.null] = .panic ∧
    checkMultipleDataTypeInPayloadArray [.null, .null] = .panic ∧
    checkMultipleDataTypeInPayloadArray [.num 1, .null] = .panic ∧
    checkMultipleDataTypeInPayloadArray [.num 1, .str "a", .null] = .error .multipleDataType := by
  simp [checkMultipleDataTypeInPayloadArray, checkMultipleDataTypeLoop, typeOfKind, JSON.kind]

/-- The first piece of `strings.Split(s, ",")` is the prefix of `s` before its
first comma. -/
theorem stringsSplitComma_head (cs : List Char) :
    ∃ pieces, stringsSplitComma cs = cs.takeWhile (fun c => c != ',') :: pieces := by
  induction cs with
  | nil => exact ⟨[], rfl⟩
  | cons c cs ih =>
    obtain ⟨pieces, hp⟩ := ih
    by_cases hc : c = ','
    · subst hc
      exact ⟨stringsSplitComma cs, by simp [stringsSplitComma]⟩
    · refine ⟨pieces, ?_⟩
      simp [stringsSplitComma, hc, hp]

/-- C23 (key extraction): for every field, `getJsonStructTag` returns the prefix
of the json tag before its first comma (the whole tag when it has no comma),
and fails, with the error of the kind MissingFieldKey, exactly when that prefix
is empty; what follows the first comma is ignored. -/
theorem field_key_extraction :
    (∀ structField : FieldInfo,
      getJsonStructTag structField
        = if tagPrefix structField.jsonTag = "" then .error .missingJsonTag
          else .ok (tagPrefix structField.jsonTag)) ∧
    (∀ structField : FieldInfo,
      getJsonStructTag structField = .error .missingJsonTag ↔
        tagPrefix structField.jsonTag = "") ∧
    Err.kind .missingJsonTag = .MissingFieldKey ∧
    (∀ pre rest : List Char, ',' ∉ pre →
      tagPrefix (String.mk (pre ++ ',' :: rest)) = String.mk pre ∧
      tagPrefix (String.mk pre) = String.mk pre) := by
  have h1 : ∀ structField : FieldInfo,
      getJsonStructTag structField
        = if tagPrefix structField.jsonTag = "" then .error .missingJsonTag
          else .ok (tagPrefix structField.jsonTag) := by
    intro structField
    obtain ⟨pieces, hp⟩ := stringsSplitComma_head structField.jsonTag.data
    simp only [getJsonStructTag, hp, tagPrefix]
  refine ⟨h1, ?_, rfl, ?_⟩
  · intro structField
    rw [h1]
    split <;> simp_all
  · intro pre rest hpre
    have hall : ∀ c ∈ pre, (c != ',') = true := by
      intro c hc
      have : c ≠ ',' := fun e => hpre (e ▸ hc)
      simpa using this
    constructor
    · simp only [tagPrefix]
      congr 1
      rw [List.takeWhile_append_of_pos hall]
      simp
    · simp only [tagPrefix]
      congr 1
      exact List.takeWhile_eq_self_iff.mpr hall

/-- C23 at the tag `age,omitempty`: the key is `age`. -/
theorem field_key_extraction_witness :
    ',' ∉ "age".data ∧
    tagPrefix (String.mk ("age".data ++ ',' :: "omitempty".data)) = String.mk "age".data ∧
    tagPrefix (String.mk "age".data) = String.mk "age".data :=
  have h : ',' ∉ "age".data := by decide
  ⟨h, field_key_extraction.2.2.2 "age".data "omitempty".data h⟩

/-- In the first copy the loop of the `reflect.Struct` case does not read the
scratch record it is given: each round starts from a new zero value. -/
theorem sliceStructLoop_first_scratch (A : Arch) (fieldTypes : List (FieldInfo × GoType))
    (items : List JSON) :
    ∀ (s s' : List (FieldInfo × Val)) (sl : List Val) (i : Nat),
      sliceStructLoop A .first fieldTypes s sl i items
        = sliceStructLoop A .first fieldTypes s' sl i items := by
  intro s s' sl i
  cases items with
  | nil => simp [sliceStructLoop]
  | cons x rest =>
    cases x with
    | obj m => rw [sliceStructLoop, sliceStructLoop]
    | _ => simp [sliceStructLoop]

/-- The payload `[{"a": 1, "b": 2}, {"a": 3}]` merged into a field of type
`[]struct{A, B int}` by the second copy: the second element keeps the `B` that
the first element was given. -/
theorem pairs_second_copy (A : Arch) (cur : Option (List Val)) :
    mergePayloadToStructField A .second true (.slice (.struct pairType) cur) pairsPayload
      = (.slice (.struct pairType) (some [pair 1 2, pair 3 2]), .ok) := by
  have h1 : convertFloat A .int 1 = .int 1 :=
    convertFloat_of_represents A .int 1 rfl (by
      cases hw : A.word64 <;> simp [NumKind.represents, NumKind.signed, NumKind.bits, hw] <;>
        decide)
  have h2 : convertFloat A .int 2 = .int 2 :=
    convertFloat_of_represents A .int 2 rfl (by
      cases hw : A.word64 <;> simp [NumKind.represents, NumKind.signed, NumKind.bits, hw] <;>
        decide)
  have h3 : convertFloat A .int 3 = .int 3 :=
    convertFloat_of_represents A .int 3 rfl (by
      cases hw : A.word64 <;> simp [NumKind.represents, NumKind.signed, NumKind.bits, hw] <;>
        decide)
  simp [pairsPayload, pairType, pair, traverseStructAndMergeStructFieldsWithPayload,
    getJsonStructTag, stringsSplitComma, lookup, field,
    mergePayloadToStructField, mergePayloadToSliceSF, helperCheckSettabilityAndSFDataType,
    JSON.isNil, JSON.kind, getNewReflectValueSliceWithPayloadValues,
    parseStructValueToInterfaceArray, checkMultipleDataTypeInPayloadArray,
    checkMultipleDataTypeLoop, typeOfKind, makeNewSlice, sliceStructLoop, isNumericValue,
    convertPayloadTo, zero, zeroFields, mergePayloadToNumberSF, h1, h2, h3]

/-- The payload `[{"a": 1, "b": 2}, {"a": 3}]` merged into a field of type
`[]struct{A, B int}` by the first copy: the `B` of the second element is
zero. -/
theorem pairs_first_copy (A : Arch) (cur : Option (List Val)) :
    mergePayloadToStructField A .first true (.slice (.struct pairType) cur) pairsPayload
      = (.slice (.struct pairType) (some [pair 1 2, pair 3 0]), .ok) := by
  have h1 : convertFloat A .int 1 = .int 1 :=
    convertFloat_of_represents A .int 1 rfl (by
      cases hw : A.word64 <;> simp [NumKind.represents, NumKind.signed, NumKind.bits, hw] <;>
        decide)
  have h2 : convertFloat A .int 2 = .int 2 :=
    convertFloat_of_represents A .int 2 rfl (by
      cases hw : A.word64 <;> simp [NumKind.represents, NumKind.signed, NumKind.bits, hw] <;>
        decide)
  have h3 : convertFloat A .int 3 = .int 3 :=
    convertFloat_of_represents A .int 3 rfl (by
      cases hw : A.word64 <;> simp [NumKind.represents, NumKind.signed, NumKind.bits, hw] <;>
        decide)
  simp [pairsPayload, pairType, pair, traverseStructAndMergeStructFieldsWithPayload,
    getJsonStructTag, stringsSplitComma, lookup, field,
    mergePayloadToStructField, mergePayloadToSliceSF, helperCheckSettabilityAndSFDataType,
    JSON.isNil, JSON.kind, getNewReflectValueSliceWithPayloadValues,
    parseStructValueToInterfaceArray, checkMultipleDataTypeInPayloadArray,
    checkMultipleDataTypeLoop, typeOfKind, makeNewSlice, sliceStructLoop, isNumericValue,
    convertPayloadTo, zero, zeroFields, mergePayloadToNumberSF, h1, h2, h3]

/-- C24, at an input where the code departs from it: in the first copy of the
program the scratch record is allocated inside the loop, and for the payload
`[{"a": 1, "b": 2}, {"a": 3}]` the second element, whose mapping omits `b`,
receives the zero value of `B` and not the 2 of the first element. -/
theorem first_copy_omitted_field_is_zero :
    mergePayloadToStructField arch64 .first true (.slice (.struct pairType) none) pairsPayload
      = (.slice (.struct pairType) (some [pair 1 2, pair 3 0]), .ok) :=
  pairs_first_copy arch64 none

/-- C24 as amended: the scratch record is reused across the rounds of the loop
only in the second copy of the program, where it is allocated before the loop:
there the payload `[{"a": 1, "b": 2}, {"a": 3}]` gives the second element the
`B` of the first.  In the first copy the scratch record is allocated in each
round: the loop does not depend on the scratch record it starts from, and the
same payload gives the second element the zero value of `B`. -/
theorem scratch_reuse_only_in_second_copy (A : Arch) :
    (∀ cur, mergePayloadToStructField A .second true (.slice (.struct pairType) cur)
        pairsPayload
      = (.slice (.struct pairType) (some [pair 1 2, pair 3 2]), .ok)) ∧
    (∀ cur, mergePayloadToStructField A .first true (.slice (.struct pairType) cur)
        pairsPayload
      = (.slice (.struct pairType) (some [pair 1 2, pair 3 0]), .ok)) ∧
    (∀ fieldTypes items scratch scratch2 sliceReflectValue index,
      sliceStructLoop A .first fieldTypes scratch sliceReflectValue index items
        = sliceStructLoop A .first fieldTypes scratch2 sliceReflectValue index items) :=
  ⟨pairs_second_copy A, pairs_first_copy A,
    fun fieldTypes items scratch scratch2 sliceReflectValue index =>
      sliceStructLoop_first_scratch A fieldTypes items scratch scratch2 sliceReflectValue index⟩

/-- A value of a payload map is no deeper than the deepest value of the map. -/
theorem depth_lookup {key : String} {m : List (String × JSON)} {p : JSON}
    (h : lookup key m = some p) : p.depth ≤ depthEntries m := by
  induction m with
  | nil => simp [lookup] at h
  | cons hd tl ih =>
    obtain ⟨k, w⟩ := hd
    simp only [lookup] at h
    simp only [depthEntries]
    split at h
    · cases h
      exact Nat.le_max_left _ _
    · exact Nat.le_trans (ih h) (Nat.le_max_right _ _)

/-- The merge of a field stays within the depth `d` when the traversal and the
construction of a slice do. -/
theorem mergeFieldWithin_of (A : Arch) (cp : Copy) (d : Nat)
    (hT : ∀ canSet fields m, depthEntries m + 1 ≤ d →
      traverseWithin A cp d canSet fields m
        = some (traverseStructAndMergeStructFieldsWithPayload A cp canSet fields m))
    (hG : ∀ canSet elem p, 1 ≤ d → JSON.depth p ≤ d →
      getNewReflectValueSliceWithin A cp d canSet elem p
        = some (getNewReflectValueSliceWithPayloadValues A cp canSet elem p))
    (canSet : Bool) (v : Val) (p : JSON) (hp : p.depth ≤ d) :
    mergePayloadToStructFieldWithin A cp d canSet v p
      = some (mergePayloadToStructField A cp canSet v p) := by
  cases v with
  | struct fields =>
    rw [mergePayloadToStructFieldWithin, mergePayloadToStructField]
    cases p with
    | obj m =>
      rw [mergePayloadToStructSFWithin, mergePayloadToStructSF]
      cases helperCheckSettabilityAndSFDataType canSet with
      | error e => rfl
      | ok u =>
        simp only
        rw [hT canSet fields m (by simpa [JSON.depth] using hp)]
    | _ =>
      cases hh : helperCheckSettabilityAndSFDataType canSet <;>
        simp [mergePayloadToStructSFWithin, mergePayloadToStructSF, hh]
  | slice elem cur =>
    rw [mergePayloadToStructFieldWithin, mergePayloadToStructField,
      mergePayloadToSliceSFWithin, mergePayloadToSliceSF]
    cases helperCheckSettabilityAndSFDataType canSet with
    | error e => rfl
    | ok u =>
      simp only
      by_cases hn : p.isNil = true
      · simp [hn]
      · by_cases hk : p.kind = .Slice
        · have h1 : 1 ≤ d := by
            cases p <;> simp [JSON.kind] at hk
            simp [JSON.depth] at hp
            omega
          simp only [hn, hk, hG canSet elem p h1 hp]
          cases getNewReflectValueSliceWithPayloadValues A cp canSet elem p with
          | ok o => cases o <;> simp
          | error e => simp
          | panic => simp
        · simp [hn, hk]
  | _ => simp [mergePayloadToStructFieldWithin, mergePayloadToStructField]

/-- The loop over the fields stays within the depth `d` when the merge of a
field does. -/
theorem traverseLoopWithin_of (A : Arch) (cp : Copy) (d : Nat)
    (hF : ∀ canSet v p, JSON.depth p ≤ d →
      mergePayloadToStructFieldWithin A cp d canSet v p
        = some (mergePayloadToStructField A cp canSet v p))
    (canSet : Bool) (m : List (String × JSON)) (hm : depthEntries m ≤ d)
    (fields : List (FieldInfo × Val)) :
    traverseLoopWithin A cp d canSet fields m
      = some (traverseStructAndMergeStructFieldsWithPayload A cp canSet fields m) := by
  induction fields with
  | nil => simp [traverseLoopWithin, traverseStructAndMergeStructFieldsWithPayload]
  | cons hd tl ih =>
    obtain ⟨sf, v⟩ := hd
    rw [traverseLoopWithin, traverse_cons]
    cases getJsonStructTag sf with
    | error e => rfl
    | ok key =>
      simp only
      cases hl : lookup key m with
      | none => simp only [ih]
      | some pv =>
        simp only [hF _ v pv (Nat.le_trans (depth_lookup hl) hm), ih]
        rcases hmf : mergePayloadToStructField A cp (canSet && sf.exported) v pv
          with ⟨merged, out⟩
        cases out <;> simp

/-- The loop of the `reflect.Struct` case stays within the depth `d` when the
traversal does. -/
theorem sliceStructLoopWithin_of (A : Arch) (cp : Copy) (d : Nat)
    (hT : ∀ canSet fields m, depthEntries m + 1 ≤ d →
      traverseWithin A cp d canSet fields m
        = some (traverseStructAndMergeStructFieldsWithPayload A cp canSet fields m))
    (fieldTypes : List (FieldInfo × GoType)) (items : List JSON) :
    ∀ (scratch : List (FieldInfo × Val)) (sl : List Val) (i : Nat), depthItems items ≤ d →
      sliceStructLoopWithin A cp d fieldTypes scratch sl i items
        = some (sliceStructLoop A cp fieldTypes scratch sl i items) := by
  induction items with
  | nil => intro scratch sl i _; simp [sliceStructLoopWithin, sliceStructLoop]
  | cons x rest ih =>
    intro scratch sl i hd
    simp only [depthItems] at hd
    have hx : x.depth ≤ d := Nat.le_trans (Nat.le_max_left _ _) hd
    have hr : depthItems rest ≤ d := Nat.le_trans (Nat.le_max_right _ _) hd
    cases x with
    | obj m =>
      unfold sliceStructLoop
      unfold sliceStructLoopWithin
      simp only
      rw [hT _ _ m (by simpa [JSON.depth] using hx)]
      generalize traverseStructAndMergeStructFieldsWithPayload A cp true _ m = r
      obtain ⟨merged, out⟩ := r
      cases out with
      | ok => exact ih _ _ _ hr
      | error e => rfl
      | panic => rfl
    | _ => simp [sliceStructLoopWithin, sliceStructLoop]

/-- The loop of the `reflect.Slice` case stays within the depth `d` when the
construction of a slice does. -/
theorem sliceSliceLoopWithin_of (A : Arch) (cp : Copy) (d : Nat)
    (hG : ∀ canSet elem p, 1 ≤ d → JSON.depth p ≤ d →
      getNewReflectValueSliceWithin A cp d canSet elem p
        = some (getNewReflectValueSliceWithPayloadValues A cp canSet elem p))
    (elem : GoType) (items : List JSON) :
    ∀ (sl : List Val) (i : Nat), depthItems items ≤ d →
      sliceSliceLoopWithin A cp d elem sl i items
        = some (sliceSliceLoop A cp elem sl i items) := by
  induction items with
  | nil => intro sl i _; simp [sliceSliceLoopWithin, sliceSliceLoop]
  | cons x rest ih =>
    intro sl i hd
    simp only [depthItems] at hd
    have hx : x.depth ≤ d := Nat.le_trans (Nat.le_max_left _ _) hd
    have hr : depthItems rest ≤ d := Nat.le_trans (Nat.le_max_right _ _) hd
    cases x with
    | arr xs =>
      unfold sliceSliceLoop
      unfold sliceSliceLoopWithin
      simp only
      rw [hG true elem (.arr xs) (by simp [JSON.depth] at hx; omega) hx]
      generalize getNewReflectValueSliceWithPayloadValues A cp true elem (.arr xs) = r
      cases r with
      | ok o =>
        cases o with
        | none => rfl
        | some w => exact ih _ _ hr
      | error e => rfl
      | panic => rfl
    | _ => simp [sliceSliceLoopWithin, sliceSliceLoop]

/-- The function `getNewReflectValueSliceWithPayloadValues` with room for
`d + 1` nested activations, on a settable value and a payload array that is
not empty. -/
theorem getNewSliceWithin_cons (A : Arch) (cp : Copy) (d : Nat) (elem : GoType) (x : JSON)
    (rest : List JSON) :
    getNewReflectValueSliceWithin A cp (d + 1) true elem (.arr (x :: rest)) =
      match checkMultipleDataTypeInPayloadArray (x :: rest) with
      | .error e => some (.error e)
      | .panic => some .panic
      | .ok =>
        match (match elem with
          | .struct fieldTypes =>
            sliceStructLoopWithin A cp d fieldTypes (zeroFields fieldTypes)
              (makeNewSlice elem (x :: rest)) 0 (x :: rest)
          | .map key e =>
            some (sliceMapLoop key e (makeNewSlice elem (x :: rest)) 0 (x :: rest))
          | .iface hasMethods =>
            some (sliceInterfaceLoop A hasMethods (makeNewSlice elem (x :: rest)) 0 (x :: rest))
          | .slice e => sliceSliceLoopWithin A cp d e (makeNewSlice elem (x :: rest)) 0 (x :: rest)
          | .bool =>
            some (sliceScalarLoop A elem .Bool (makeNewSlice elem (x :: rest)) 0 (x :: rest))
          | .string =>
            some (sliceScalarLoop A elem .String (makeNewSlice elem (x :: rest)) 0 (x :: rest))
          | .num k => some (sliceNumberLoop A k (makeNewSlice elem (x :: rest)) 0 (x :: rest))
          | .other _ => some (.ok (makeNewSlice elem (x :: rest)))) with
        | none => none
        | some (.ok items) => some (.ok (some (.slice elem (some items))))
        | some (.error e) => some (.error e)
        | some .panic => some .panic := by
  rw [getNewReflectValueSliceWithin]
  simp [parseStructValueToInterfaceArray]

/-- The two functions that descend into a payload node, run with room for at
least as many nested activations as the node is deep, return what the
functions return. -/
theorem within_of_depth (A : Arch) (cp : Copy) (d : Nat) :
    (∀ canSet fields m, depthEntries m + 1 ≤ d →
      traverseWithin A cp d canSet fields m
        = some (traverseStructAndMergeStructFieldsWithPayload A cp canSet fields m)) ∧
    (∀ canSet elem p, 1 ≤ d → JSON.depth p ≤ d →
      getNewReflectValueSliceWithin A cp d canSet elem p
        = some (getNewReflectValueSliceWithPayloadValues A cp canSet elem p)) := by
  induction d with
  | zero => exact ⟨fun _ _ _ h => by omega, fun _ _ _ h => by omega⟩
  | succ d ih =>
    obtain ⟨hT, hG⟩ := ih
    have hF := mergeFieldWithin_of A cp d hT hG
    constructor
    · intro canSet fields m hm
      rw [traverseWithin]
      exact traverseLoopWithin_of A cp d hF canSet m (by omega) fields
    · intro canSet elem p _ hp
      cases canSet with
      | false =>
        rw [getNewReflectValueSliceWithin, getNewReflectValueSliceWithPayloadValues]
        simp
      | true =>
        cases p with
        | arr xs =>
          cases xs with
          | nil =>
            rw [getNewReflectValueSliceWithin, getNewReflectValueSliceWithPayloadValues]
            simp [parseStructValueToInterfaceArray]
          | cons x rest =>
            have hd : depthItems (x :: rest) ≤ d := by
              simp only [JSON.depth] at hp
              omega
            rw [getNewSlice_cons, getNewSliceWithin_cons]
            cases hc : checkMultipleDataTypeInPayloadArray (x :: rest) with
            | error e => simp [hc]
            | panic => simp [hc]
            | ok =>
              simp only [hc]
              cases elem with
              | struct fts =>
                simp only [sliceStructLoopWithin_of A cp d hT fts (x :: rest) _ _ _ hd]
                cases sliceStructLoop A cp fts (zeroFields fts)
                  (makeNewSlice (.struct fts) (x :: rest)) 0 (x :: rest) <;> rfl
              | slice e =>
                simp only [sliceSliceLoopWithin_of A cp d hG e (x :: rest) _ _ hd]
                cases sliceSliceLoop A cp e (makeNewSlice (.slice e) (x :: rest)) 0
                  (x :: rest) <;> rfl
              | map key e =>
                simp
                cases sliceMapLoop key e (makeNewSlice (.map key e) (x :: rest)) 0
                  (x :: rest) <;> rfl
              | iface hm =>
                simp
                cases sliceInterfaceLoop A hm (makeNewSlice (.iface hm) (x :: rest)) 0
                  (x :: rest) <;> rfl
              | bool =>
                simp
                cases sliceScalarLoop A .bool .Bool (makeNewSlice .bool (x :: rest)) 0
                  (x :: rest) <;> rfl
              | string =>
                simp
                cases sliceScalarLoop A .string .String (makeNewSlice .string (x :: rest)) 0
                  (x :: rest) <;> rfl
              | num k =>
                simp
                cases sliceNumberLoop A k (makeNewSlice (.num k) (x :: rest)) 0
                  (x :: rest) <;> rfl
              | other k => simp
        | _ =>
          rw [getNewReflectValueSliceWithin, getNewReflectValueSliceWithPayloadValues]
          simp [parseStructValueToInterfaceArray]

/-- An element of a payload array is no deeper than the deepest element of the
array. -/
theorem depth_mem {x : JSON} {xs : List JSON} (h : x ∈ xs) : x.depth ≤ depthItems xs := by
  induction xs with
  | nil => simp at h
  | cons hd tl ih =>
    simp only [depthItems]
    rcases List.mem_cons.mp h with rfl | h
    · exact Nat.le_max_left _ _
    · exact Nat.le_trans (ih h) (Nat.le_max_right _ _)

/-- The nested record scenario needs room for two nested activations: with room
for one the traversal of the nested record is cut off, with room for two the
merge returns its result. -/
theorem nested_record_depth_scenario (A : Arch) (cp : Copy) :
    (JSON.obj [("addr", .obj [("city", .str "B")])]).depth = 2 ∧
    traverseWithin A cp 1 true [(field "Addr" "addr", .struct addrFields)]
        [("addr", .obj [("city", .str "B")])] = none ∧
    traverseWithin A cp 2 true [(field "Addr" "addr", .struct addrFields)]
        [("addr", .obj [("city", .str "B")])]
      = some ([(field "Addr" "addr",
            .struct [(field "City" "city", .str "B"), (field "Zip" "zip", .str "1")])], .ok) := by
  refine ⟨by simp [JSON.depth, depthEntries], ?_, ?_⟩
  · simp [traverseWithin, traverseLoopWithin, mergePayloadToStructFieldWithin,
      mergePayloadToStructSFWithin, helperCheckSettabilityAndSFDataType, field,
      getJsonStructTag, stringsSplitComma, lookup]
  · rw [(within_of_depth A cp 2).1 _ _ _ (by simp [JSON.depth, depthEntries]),
      nested_record_scenario]

/-- C25 (termination): the functions of the model are total, their recursion
being on the payload node, and the recursion is no deeper than the payload: for
every payload node `p` and every `n` that is at least the nesting depth of `p`,
the merge of `p` into any field, the traversal of any record with `p` (a map)
and the construction of a slice from `p` (an array), run with room for only `n`
nested activations of the functions that descend into a payload node, are not
cut off and return the result of the merge.  Each recursive call is on a value
of the map or an element of the array of its caller, which is strictly less
deep. -/
theorem merge_terminates_within_payload_depth (A : Arch) (cp : Copy) (p : JSON) (n : Nat)
    (hn : p.depth ≤ n) :
    (∀ canSet v, mergePayloadToStructFieldWithin A cp n canSet v p
      = some (mergePayloadToStructField A cp canSet v p)) ∧
    (∀ canSet fields payloadMap, p = .obj payloadMap →
      traverseWithin A cp n canSet fields payloadMap
        = some (traverseStructAndMergeStructFieldsWithPayload A cp canSet fields payloadMap)) ∧
    (∀ canSet elem interfaceSlice, p = .arr interfaceSlice →
      getNewReflectValueSliceWithin A cp n canSet elem p
        = some (getNewReflectValueSliceWithPayloadValues A cp canSet elem p)) ∧
    (∀ payloadMap key q, p = .obj payloadMap → lookup key payloadMap = some q →
      q.depth < p.depth) ∧
    (∀ interfaceSlice x, p = .arr interfaceSlice → x ∈ interfaceSlice → x.depth < p.depth) := by
  obtain ⟨hT, hG⟩ := within_of_depth A cp n
  refine ⟨fun canSet v => mergeFieldWithin_of A cp n hT hG canSet v p hn, ?_, ?_, ?_, ?_⟩
  · rintro canSet fields m rfl
    exact hT canSet fields m (by simpa [JSON.depth] using hn)
  · rintro canSet elem xs rfl
    exact hG canSet elem _ (by simp [JSON.depth] at hn; omega) hn
  · rintro m key q rfl hq
    have := depth_lookup hq
    simp only [JSON.depth]
    omega
  · rintro xs x rfl hx
    have := depth_mem hx
    simp only [JSON.depth]
    omega

/-- C25 at the payload `{"addr": {"city": "B"}}`, of depth 2, with room for two
nested activations. -/
theorem merge_terminates_within_payload_depth_witness :
    (JSON.obj [("addr", .obj [("city", .str "B")])]).depth ≤ 2 ∧
    traverseWithin arch64 .first 2 true [(field "Addr" "addr", .struct addrFields)]
        [("addr", .obj [("city", .str "B")])]
      = some (traverseStructAndMergeStructFieldsWithPayload arch64 .first true
          [(field "Addr" "addr", .struct addrFields)] [("addr", .obj [("city", .str "B")])]) :=
  ⟨by simp [JSON.depth, depthEntries],
    (merge_terminates_within_payload_depth arch64 .first
      (.obj [("addr", .obj [("city", .str "B")])]) 2
      (by simp [JSON.depth, depthEntries])).2.1 true _ _ rfl⟩

/-- Two payloads in which the keys of the fields have the same values are
merged alike. -/
theorem traverse_congr (A : Arch) (cp : Copy) (canSet : Bool)
    (fields : List (FieldInfo × Val)) (m m' : List (String × JSON))
    (h : ∀ x ∈ fields, ∀ key, getJsonStructTag x.1 = .ok key → lookup key m = lookup key m') :
    traverseStructAndMergeStructFieldsWithPayload A cp canSet fields m
      = traverseStructAndMergeStructFieldsWithPayload A cp canSet fields m' := by
  induction fields with
  | nil => rw [traverse_nil, traverse_nil]
  | cons hd tl ih =>
    obtain ⟨sf, v⟩ := hd
    have ih' := ih (fun x hx => h x (List.mem_cons_of_mem _ hx))
    rw [traverse_cons, traverse_cons]
    cases htag : getJsonStructTag sf with
    | error e => rfl
    | ok key =>
      have := h (sf, v) (List.mem_cons_self _ _) key htag
      simp only [← this, ih']

/-- Removing entries whose key is not `key` does not change what is found
under `key`. -/
theorem lookup_filter (P : String → Bool) (key : String) (hP : P key = true)
    (m : List (String × JSON)) :
    lookup key (m.filter (fun kv => P kv.1)) = lookup key m := by
  induction m with
  | nil => rfl
  | cons hd tl ih =>
    obtain ⟨k, v⟩ := hd
    by_cases hk : P k = true
    · simp only [List.filter_cons, hk, if_true, lookup, ih]
    · have hne : k ≠ key := fun e => hk (e ▸ hP)
      simp only [List.filter_cons, hk, lookup, hne, if_false]
      exact ih

/-- A key that is not among the keys of a map is not found in it. -/
theorem lookup_eq_none_of_not_mem (key : String) (m : List (String × JSON))
    (h : ∀ kv ∈ m, kv.1 ≠ key) : lookup key m = none := by
  induction m with
  | nil => rfl
  | cons hd tl ih =>
    obtain ⟨k, v⟩ := hd
    have hne : k ≠ key := h (k, v) (List.mem_cons_self _ _)
    simp only [lookup, hne, if_false]
    exact ih (fun kv hkv => h kv (List.mem_cons_of_mem _ hkv))

/-- The key of a field is among the keys of the record. -/
theorem mem_fieldKeys {fields : List (FieldInfo × Val)} {x : FieldInfo × Val} {key : String}
    (hx : x ∈ fields) (hkey : getJsonStructTag x.1 = .ok key) : key ∈ fieldKeys fields := by
  unfold fieldKeys
  rw [List.mem_filterMap]
  exact ⟨x, hx, by rw [hkey]⟩

/-- C26 (unknown payload keys are ignored): the traversal of a record with a
payload returns the same fields and the same outcome as with the payload from
which every key that is not the key of a field is removed; when all fields
declare keys, a payload of unknown keys only, and the empty payload, succeed
and leave the record as it was; `PatchValues` on a pointer to the record
returns the same for both payloads.  A key is found by equality of strings. -/
theorem unknown_keys_ignored (A : Arch) (cp : Copy) (canSet : Bool)
    (fields : List (FieldInfo × Val)) :
    (∀ m, traverseStructAndMergeStructFieldsWithPayload A cp canSet fields m
        = traverseStructAndMergeStructFieldsWithPayload A cp canSet fields
            (restrictToKeys fields m)) ∧
    ((∀ x ∈ fields, ∃ key, getJsonStructTag x.1 = .ok key) →
      (∀ m, (∀ kv ∈ m, kv.1 ∉ fieldKeys fields) →
        traverseStructAndMergeStructFieldsWithPayload A cp canSet fields m = (fields, .ok)) ∧
      traverseStructAndMergeStructFieldsWithPayload A cp canSet fields [] = (fields, .ok)) ∧
    (∀ m, PatchValues A cp (some m) (.pointer (.struct fields))
        = PatchValues A cp (some (restrictToKeys fields m)) (.pointer (.struct fields))) ∧
    (∀ key k v rest, lookup key ((k, v) :: rest) = if k = key then some v else lookup key rest) := by
  have hT : ∀ canSet m, traverseStructAndMergeStructFieldsWithPayload A cp canSet fields m
      = traverseStructAndMergeStructFieldsWithPayload A cp canSet fields
          (restrictToKeys fields m) := by
    intro canSet m
    apply traverse_congr
    intro x hx key hkey
    exact (lookup_filter (fun k => decide (k ∈ fieldKeys fields)) key
      (by simpa using mem_fieldKeys hx hkey) m).symm
  refine ⟨hT canSet, ?_, ?_, fun _ _ _ _ => rfl⟩
  rotate_left
  · intro m
    simp [PatchValues, getReflectValueFromIStructPointer, ← hT true m]
  · intro hkeys
    have hunknown : ∀ m, (∀ kv ∈ m, kv.1 ∉ fieldKeys fields) →
        traverseStructAndMergeStructFieldsWithPayload A cp canSet fields m = (fields, .ok) := by
      intro m hm
      apply traverse_all_absent
      intro x hx
      obtain ⟨key, hkey⟩ := hkeys x hx
      refine ⟨key, hkey, lookup_eq_none_of_not_mem key m ?_⟩
      intro kv hkv e
      exact hm kv hkv (e ▸ mem_fieldKeys hx hkey)
    exact ⟨hunknown, hunknown [] (by simp)⟩

/-- C26 at the record `personFields` and the payload `{"zip": "1"}`, whose
only key is unknown. -/
theorem unknown_keys_ignored_witness :
    (∀ x ∈ personFields, ∃ key, getJsonStructTag x.1 = .ok key) ∧
    (∀ kv ∈ [("zip", JSON.str "1")], kv.1 ∉ fieldKeys personFields) ∧
    traverseStructAndMergeStructFieldsWithPayload arch64 .first true personFields
        [("zip", .str "1")] = (personFields, .ok) :=
  have h1 : ∀ x ∈ personFields, ∃ key, getJsonStructTag x.1 = .ok key := by
    intro x hx
    simp [personFields] at hx
    rcases hx with rfl | rfl | rfl
    · exact ⟨"name", rfl⟩
    · exact ⟨"age", rfl⟩
    · exact ⟨"tags", rfl⟩
  have h2 : ∀ kv ∈ [("zip", JSON.str "1")], kv.1 ∉ fieldKeys personFields := by
    intro kv hkv
    simp at hkv
    subst hkv
    have : fieldKeys personFields = ["name", "age", "tags"] := rfl
    rw [this]
    decide
  ⟨h1, h2, ((unknown_keys_ignored arch64 .first true personFields).2.1 h1).1 _ h2⟩

/-- A payload array that passes the check, merged into a settable slice field
whose element kind has no case in the switch, sets the field to zero values. -/
theorem mergeField_slice_other (A : Arch) (cp : Copy) (k : OtherKind)
    (cur : Option (List Val)) (x : JSON) (rest : List JSON)
    (hcheck : checkMultipleDataTypeInPayloadArray (x :: rest) = .ok) :
    mergePayloadToStructField A cp true (.slice (.other k) cur) (.arr (x :: rest))
      = (.slice (.other k) (some (List.replicate (x :: rest).length (zero (.other k)))),
          .ok) := by
  rw [sliceSF_cons, getNewSlice_cons, hcheck]
  simp [makeNewSlice]

/-- A sequence of pointers takes the payload `[1, 2]` without an error and
holds two zero pointers, while a field that is a pointer reports
UnsupportedShape. -/
theorem unsupported_element_scenario (A : Arch) (cp : Copy) (cur : Option (List Val)) :
    mergePayloadToStructField A cp true (.slice (.other .pointer) cur)
        (.arr [.num 1, .num 2])
      = (.slice (.other .pointer) (some [.other .pointer 0, .other .pointer 0]), .ok) ∧
    mergePayloadToStructField A cp true (.other .pointer 7) (.num 1)
      = (.other .pointer 7, .error .unsupportedType) := by
  constructor
  · rw [mergeField_slice_other]
    · simp [zero, List.replicate]
    · simp [checkMultipleDataTypeInPayloadArray, checkMultipleDataTypeLoop, typeOfKind,
        JSON.kind]
  · simp [mergePayloadToStructField]

/-- C27, at an input where the code departs from it: the payload `[null]` is
not empty and its elements have one kind, but for the field `Ptrs []*int`
`PatchValues` panics in `checkMultipleDataTypeInPayloadArray` on the nil
element instead of setting the field to one zero pointer. -/
theorem unsupported_element_array_with_nil_panics :
    PatchValues arch64 .first (some [("ptrs", .arr [.null])])
        (.pointer (.struct [(field "Ptrs" "ptrs", .slice (.other .pointer) none)]))
      = (.pointer (.struct [(field "Ptrs" "ptrs", .slice (.other .pointer) none)]), .panic) := by
  simp [PatchValues, getReflectValueFromIStructPointer,
    traverseStructAndMergeStructFieldsWithPayload, field, getJsonStructTag, stringsSplitComma,
    lookup, mergePayloadToStructField, mergePayloadToSliceSF,
    helperCheckSettabilityAndSFDataType, JSON.isNil, JSON.kind,
    getNewReflectValueSliceWithPayloadValues, parseStructValueToInterfaceArray,
    checkMultipleDataTypeInPayloadArray, checkMultipleDataTypeLoop, typeOfKind]

/-- A merge that returns `nil` was made on a settable field. -/
theorem mergeField_ok_canSet {A : Arch} {cp : Copy} {canSet : Bool} {v : Val} {pv : JSON}
    (h : (mergePayloadToStructField A cp canSet v pv).2 = .ok) : canSet = true := by
  cases canSet with
  | true => rfl
  | false =>
    exfalso
    cases v with
    | struct fs =>
      cases pv <;>
        simp [mergePayloadToStructField, mergePayloadToStructSF,
          helperCheckSettabilityAndSFDataType] at h
    | _ =>
      simp [mergePayloadToStructField, mergePayloadToMapSF, mergePayloadToSliceSF,
        mergePayloadToInterfaceSF, mergePayloadToBoolSF, mergePayloadToStringSF,
        mergePayloadToNumberSF, helperCheckSettabilityAndSFDataType] at h

/-- The merge of a payload object into a settable field of kind Struct is the
traversal of its fields. -/
theorem mergeField_struct_obj (A : Arch) (cp : Copy) (fields : List (FieldInfo × Val))
    (m : List (String × JSON)) :
    mergePayloadToStructField A cp true (.struct fields) (.obj m)
      = (.struct (traverseStructAndMergeStructFieldsWithPayload A cp true fields m).1,
          (traverseStructAndMergeStructFieldsWithPayload A cp true fields m).2) := by
  simp [mergePayloadToStructField, mergePayloadToStructSF, helperCheckSettabilityAndSFDataType]

/-- A node that has a converted scalar of the type `t` is not nil and has the
kind that the loop of `t` expects. -/
theorem convertedScalar_kind {A : Arch} {t : GoType} {x : JSON} {v : Val}
    (h : convertedScalar A t x = some v) :
    x.isNil = false ∧ expectedKind t = some x.kind ∧
      (t = .bool ∨ t = .string ∨ ∃ k, t = .num k) ∧ convertPayloadTo A t x = some v := by
  cases t <;> cases x <;> simp [convertedScalar] at h <;>
    simp [JSON.isNil, expectedKind, JSON.kind, convertPayloadTo, h]

/-- The parts of the converted elements of an array that is not empty. -/
theorem convertedItems_cons {A : Arch} {t : GoType} {x : JSON} {xs : List JSON} {ws : List Val}
    (h : convertedItems A t (x :: xs) = some ws) :
    ∃ v vs, convertedScalar A t x = some v ∧ convertedItems A t xs = some vs ∧ ws = v :: vs := by
  simp only [convertedItems] at h
  cases h1 : convertedScalar A t x with
  | none => simp [h1] at h
  | some v =>
    cases h2 : convertedItems A t xs with
    | none => simp [h1, h2] at h
    | some vs =>
      simp [h1, h2] at h
      exact ⟨v, vs, rfl, rfl, h.symm⟩

/-- The nodes of an array that has converted elements are not nil and have one
kind. -/
theorem convertedItems_kind {A : Arch} {t : GoType} {K : Kind} (hK : expectedKind t = some K)
    (items : List JSON) :
    ∀ ws, convertedItems A t items = some ws → ∀ x ∈ items, x.isNil = false ∧ x.kind = K := by
  induction items with
  | nil => intro ws _ x hx; simp at hx
  | cons a rest ih =>
    intro ws h x hx
    obtain ⟨v, vs, h1, h2, -⟩ := convertedItems_cons h
    rcases List.mem_cons.mp hx with rfl | hx
    · obtain ⟨hn, hk, -, -⟩ := convertedScalar_kind h1
      rw [hK] at hk
      exact ⟨hn, (Option.some.inj hk).symm⟩
    · exact ih vs h2 x hx

/-- The loop of the `reflect.Bool, reflect.String` case stores the converted
elements at their indexes. -/
theorem sliceScalarLoop_converted (A : Arch) (t : GoType) (K : Kind)
    (hK : expectedKind t = some K) (items : List JSON) :
    ∀ (ws pre suf : List Val), convertedItems A t items = some ws → items.length ≤ suf.length →
      sliceScalarLoop A t K (pre ++ suf) pre.length items
        = .ok (pre ++ ws ++ suf.drop items.length) := by
  induction items with
  | nil =>
    intro ws pre suf h _
    simp [convertedItems] at h
    subst h
    simp [sliceScalarLoop]
  | cons x xs ih =>
    intro ws pre suf h hlen
    obtain ⟨v, vs, h1, h2, rfl⟩ := convertedItems_cons h
    obtain ⟨-, hk, -, hc⟩ := convertedScalar_kind h1
    rw [hK] at hk
    have hk2 : x.kind = K := (Option.some.inj hk).symm
    cases suf with
    | nil => simp at hlen
    | cons s suf =>
      simp only [sliceScalarLoop, hk2, ne_eq, not_true_eq_false, if_false, hc]
      rw [set_append_cons]
      have h3 := ih vs (pre ++ [v]) suf h2 (by simpa using hlen)
      simp only [List.length_append, List.length_singleton, List.append_assoc,
        List.singleton_append] at h3
      rw [h3]
      simp

/-- The loop of the numeric kinds stores the converted elements at their
indexes. -/
theorem sliceNumberLoop_converted (A : Arch) (k : NumKind) (items : List JSON) :
    ∀ (ws pre suf : List Val), convertedItems A (.num k) items = some ws →
      items.length ≤ suf.length →
      sliceNumberLoop A k (pre ++ suf) pre.length items
        = .ok (pre ++ ws ++ suf.drop items.length) := by
  induction items with
  | nil =>
    intro ws pre suf h _
    simp [convertedItems] at h
    subst h
    simp [sliceNumberLoop]
  | cons x xs ih =>
    intro ws pre suf h hlen
    obtain ⟨v, vs, h1, h2, rfl⟩ := convertedItems_cons h
    obtain ⟨-, hk, -, hc⟩ := convertedScalar_kind h1
    have hk2 : x.kind = .Float64 := by
      simp only [expectedKind] at hk
      exact (Option.some.inj hk).symm
    cases suf with
    | nil => simp at hlen
    | cons s suf =>
      simp only [sliceNumberLoop, isNumericValue, hk2, hc]
      simp only [Bool.not_true, Bool.false_eq_true, if_false, decide_True]
      rw [set_append_cons]
      have h3 := ih vs (pre ++ [v]) suf h2 (by simpa using hlen)
      simp only [List.length_append, List.length_singleton, List.append_assoc,
        List.singleton_append] at h3
      rw [h3]
      simp

/-- The converted elements are as many as the nodes. -/
theorem convertedItems_length {A : Arch} {t : GoType} (items : List JSON) :
    ∀ ws, convertedItems A t items = some ws → ws.length = items.length := by
  induction items with
  | nil => intro ws h; simp [convertedItems] at h; subst h; rfl
  | cons x xs ih =>
    intro ws h
    obtain ⟨v, vs, -, h2, rfl⟩ := convertedItems_cons h
    simp [ih vs h2]

/-- The merge of a payload node into a settable field returns `nil` and stores
the converted value, when the node has one for the field. -/
theorem mergeField_converted (A : Arch) (cp : Copy) (v : Val) (pv : JSON) (w : Val)
    (h : convertedValue A v pv = some w) :
    mergePayloadToStructField A cp true v pv = (w, .ok) := by
  cases v with
  | bool cur =>
    cases pv <;> simp [convertedValue] at h <;> subst h <;>
      simp [mergePayloadToStructField, mergePayloadToBoolSF,
        helperCheckSettabilityAndSFDataType, JSON.isNil, JSON.kind, convertPayloadTo]
  | str cur =>
    cases pv <;> simp [convertedValue] at h <;> subst h <;>
      simp [mergePayloadToStructField, mergePayloadToStringSF,
        helperCheckSettabilityAndSFDataType, JSON.isNil, JSON.kind, convertPayloadTo]
  | num k cur =>
    cases pv with
    | null =>
      simp only [convertedValue, Option.some.injEq] at h
      subst h
      cases k <;>
        simp [mergePayloadToStructField, mergePayloadToNumberSF,
          helperCheckSettabilityAndSFDataType, JSON.isNil, convertZero, NumKind.isFloat]
    | num q =>
      simp [convertedValue] at h
      subst h
      exact mergeField_number A cp k cur q
    | _ => simp [convertedValue] at h
  | map key elem cur =>
    cases pv <;> simp [convertedValue] at h
    subst h
    simp [mergePayloadToStructField, mergePayloadToMapSF, helperCheckSettabilityAndSFDataType,
      JSON.isNil]
  | iface hm cur =>
    cases hm <;> cases pv <;> simp [convertedValue] at h <;> subst h <;>
      exact open_field_takes_non_null A cp cur _ rfl
  | slice elem cur =>
    cases pv with
    | null =>
      simp [convertedValue] at h
      subst h
      simp [mergePayloadToStructField, mergePayloadToSliceSF,
        helperCheckSettabilityAndSFDataType, JSON.isNil, makeNewSlice]
    | arr xs =>
      cases xs with
      | nil => simp [convertedValue] at h
      | cons x rest =>
        simp only [convertedValue] at h
        cases hi : convertedItems A elem (x :: rest) with
        | none => simp [hi] at h
        | some items =>
          simp only [hi, Option.some.injEq] at h
          subst h
          obtain ⟨v0, vs, h1, -, -⟩ := convertedItems_cons hi
          obtain ⟨-, hk, ht, -⟩ := convertedScalar_kind h1
          have hcheck : checkMultipleDataTypeInPayloadArray (x :: rest) = .ok :=
            checkLoop_same .Invalid x.kind (x :: rest) (Or.inl rfl)
              (convertedItems_kind hk (x :: rest) items hi)
          have hlen := convertedItems_length (x :: rest) items hi
          have hdrop : ∀ (z : Val), items ++ List.drop (x :: rest).length
              (List.replicate (x :: rest).length z) = items := by
            intro z
            simp
          rw [sliceSF_cons, getNewSlice_cons, hcheck]
          rcases ht with rfl | rfl | ⟨k, rfl⟩
          · have hl := sliceScalarLoop_converted A .bool x.kind hk (x :: rest) items []
              (makeNewSlice .bool (x :: rest)) hi (by simp [makeNewSlice])
            simp only [expectedKind, Option.some.injEq] at hk
            simp only [List.nil_append, List.length_nil, makeNewSlice, hdrop, ← hk] at hl
            simp only [makeNewSlice, hl]
          · have hl := sliceScalarLoop_converted A .string x.kind hk (x :: rest) items []
              (makeNewSlice .string (x :: rest)) hi (by simp [makeNewSlice])
            simp only [expectedKind, Option.some.injEq] at hk
            simp only [List.nil_append, List.length_nil, makeNewSlice, hdrop, ← hk] at hl
            simp only [makeNewSlice, hl]
          · have hl := sliceNumberLoop_converted A k (x :: rest) items []
              (makeNewSlice (.num k) (x :: rest)) hi (by simp [makeNewSlice])
            simp only [List.nil_append, List.length_nil, makeNewSlice, hdrop] at hl
            simp only [makeNewSlice, hl]
    | _ => simp [convertedValue] at h
  | struct fs => cases pv <;> simp [convertedValue] at h
  | other k c => cases pv <;> simp [convertedValue] at h

/-- What a merge that returns `nil` stores: the field was settable, the value
stored is the converted value of the payload node when it has one, and a field
of kind Struct merged with a payload object holds the traversal of its fields,
which returned `nil`. -/
theorem mergeField_ok_value (A : Arch) (cp : Copy) (canSet : Bool) (v : Val) (pv : JSON)
    (hok : (mergePayloadToStructField A cp canSet v pv).2 = .ok) :
    (∀ w, convertedValue A v pv = some w →
      (mergePayloadToStructField A cp canSet v pv).1 = w) ∧
    (∀ fs m, v = .struct fs → pv = .obj m →
      (traverseStructAndMergeStructFieldsWithPayload A cp true fs m).2 = .ok ∧
      (mergePayloadToStructField A cp canSet v pv).1
        = .struct (traverseStructAndMergeStructFieldsWithPayload A cp true fs m).1) := by
  have hc := mergeField_ok_canSet hok
  subst hc
  constructor
  · intro w hw
    rw [mergeField_converted A cp v pv w hw]
  · rintro fs m rfl rfl
    rw [mergeField_struct_obj] at hok ⊢
    exact ⟨hok, rfl⟩

/-- After a traversal that returns `nil`, each field whose key is in the payload
holds the result of its own merge, which is the converted value of the payload
node when the node has one and the traversal of the nested fields for a nested
record, and each other field holds its prior value. -/
theorem traverse_ok_values (A : Arch) (cp : Copy) (canSet : Bool)
    (fields : List (FieldInfo × Val)) (m : List (String × JSON))
    (hok : (traverseStructAndMergeStructFieldsWithPayload A cp canSet fields m).2 = .ok)
    (i : Nat) (sf : FieldInfo) (v : Val) (hfield : fields[i]? = some (sf, v)) :
    ∃ key, getJsonStructTag sf = .ok key ∧
      (∀ pv, lookup key m = some pv →
        (mergePayloadToStructField A cp (canSet && sf.exported) v pv).2 = .ok ∧
        (traverseStructAndMergeStructFieldsWithPayload A cp canSet fields m).1[i]?
          = some (sf, (mergePayloadToStructField A cp (canSet && sf.exported) v pv).1) ∧
        (∀ w, convertedValue A v pv = some w →
          (traverseStructAndMergeStructFieldsWithPayload A cp canSet fields m).1[i]?
            = some (sf, w)) ∧
        (∀ fs m2, v = .struct fs → pv = .obj m2 →
          (traverseStructAndMergeStructFieldsWithPayload A cp true fs m2).2 = .ok ∧
          (traverseStructAndMergeStructFieldsWithPayload A cp canSet fields m).1[i]?
            = some (sf, .struct
                (traverseStructAndMergeStructFieldsWithPayload A cp true fs m2).1))) ∧
      (lookup key m = none →
        (traverseStructAndMergeStructFieldsWithPayload A cp canSet fields m).1[i]?
          = some (sf, v)) := by
  obtain ⟨key, hkey, hsome, hnone⟩ := traverse_ok_fields A cp canSet fields m hok i sf v hfield
  refine ⟨key, hkey, ?_, hnone⟩
  intro pv hpv
  obtain ⟨h1, h2⟩ := hsome pv hpv
  obtain ⟨hw, hs⟩ := mergeField_ok_value A cp (canSet && sf.exported) v pv h1
  refine ⟨h1, h2, ?_, ?_⟩
  · intro w hcv
    rw [h2, hw w hcv]
  · intro fs m2 hv hp
    obtain ⟨h3, h4⟩ := hs fs m2 hv hp
    exact ⟨h3, by rw [h2, h4]⟩

/-- C4 (nested record merge): a settable field of kind Struct merged with a
payload object `m` is merged by the traversal of its own fields with `m`.  When
that merge returns `nil`, each nested field whose key is in `m` holds the result
of its own merge with the value of the key: the converted value of that payload
node (the same boolean or string, the converted number, the zero value for
`null`, the node itself in an `interface{}`, the converted elements in a
sequence of scalars), and for a nested record merged with an object the
traversal of its fields in turn; each nested field whose key is not in `m`
holds its prior value.  So `{Addr: {City: "A", Zip: "1"}}` merged with
`{"addr": {"city": "B"}}` becomes `{Addr: {City: "B", Zip: "1"}}`. -/
theorem nested_record_merge (A : Arch) (cp : Copy) :
    (∀ (fields : List (FieldInfo × Val)) (m : List (String × JSON)),
      (mergePayloadToStructField A cp true (.struct fields) (.obj m)).2 = .ok →
      ∃ merged,
        mergePayloadToStructField A cp true (.struct fields) (.obj m) = (.struct merged, .ok) ∧
        traverseStructAndMergeStructFieldsWithPayload A cp true fields m = (merged, .ok) ∧
        ∀ (i : Nat) (sf : FieldInfo) (v : Val), fields[i]? = some (sf, v) →
          ∃ key, getJsonStructTag sf = .ok key ∧
            (∀ pv, lookup key m = some pv →
              (mergePayloadToStructField A cp sf.exported v pv).2 = .ok ∧
              merged[i]? = some (sf, (mergePayloadToStructField A cp sf.exported v pv).1) ∧
              (∀ w, convertedValue A v pv = some w → merged[i]? = some (sf, w)) ∧
              (∀ fs m2, v = .struct fs → pv = .obj m2 →
                (traverseStructAndMergeStructFieldsWithPayload A cp true fs m2).2 = .ok ∧
                merged[i]? = some (sf, .struct
                  (traverseStructAndMergeStructFieldsWithPayload A cp true fs m2).1))) ∧
            (lookup key m = none → merged[i]? = some (sf, v))) ∧
    mergePayloadToStructField A cp true
        (.struct [(field "Addr" "addr",
          .struct [(field "City" "city", .str "A"), (field "Zip" "zip", .str "1")])])
        (.obj [("addr", .obj [("city", .str "B")])])
      = (.struct [(field "Addr" "addr",
          .struct [(field "City" "city", .str "B"), (field "Zip" "zip", .str "1")])], .ok) := by
  constructor
  · intro fields m hok
    rw [mergeField_struct_obj] at hok
    simp only at hok
    refine ⟨(traverseStructAndMergeStructFieldsWithPayload A cp true fields m).1, ?_, ?_, ?_⟩
    · rw [mergeField_struct_obj, hok]
    · rw [← hok]
    · intro i sf v hfield
      simpa using traverse_ok_values A cp true fields m hok i sf v hfield
  · simp [mergePayloadToStructField, mergePayloadToStructSF, helperCheckSettabilityAndSFDataType,
      traverseStructAndMergeStructFieldsWithPayload, field, getJsonStructTag,
      stringsSplitComma, lookup, mergePayloadToStringSF, JSON.isNil, JSON.kind, convertPayloadTo]

/-- Witness of C4: in the record `{City: "A", Zip: "1"}` merged with
`{"city": "B"}`, the field `City`, at index 0, holds the converted value "B"
and the field `Zip`, at index 1, whose key is absent, holds "1". -/
theorem nested_record_merge_witness :
    (mergePayloadToStructField arch64 .first true (.struct addrFields)
        (.obj [("city", .str "B")])).2 = .ok ∧
    ∃ merged,
      mergePayloadToStructField arch64 .first true (.struct addrFields)
        (.obj [("city", .str "B")]) = (.struct merged, .ok) ∧
      merged[0]? = some (field "City" "city", .str "B") ∧
      merged[1]? = some (field "Zip" "zip", .str "1") := by
  have h : (mergePayloadToStructField arch64 .first true (.struct addrFields)
      (.obj [("city", .str "B")])).2 = .ok := by
    simp [mergePayloadToStructField, mergePayloadToStructSF, helperCheckSettabilityAndSFDataType,
      traverseStructAndMergeStructFieldsWithPayload, addrFields, field, getJsonStructTag,
      stringsSplitComma, lookup, mergePayloadToStringSF, JSON.isNil, JSON.kind, convertPayloadTo]
  obtain ⟨merged, h1, -, h3⟩ :=
    (nested_record_merge arch64 .first).1 addrFields [("city", .str "B")] h
  refine ⟨h, merged, h1, ?_, ?_⟩
  · obtain ⟨key, hkey, hsome, -⟩ := h3 0 (field "City" "city") (.str "A") rfl
    have hk : key = "city" := by
      have : getJsonStructTag (field "City" "city") = .ok "city" := rfl
      rw [this] at hkey
      injection hkey with hkey
      exact hkey.symm
    subst hk
    exact (hsome (.str "B") rfl).2.2.1 (.str "B") rfl
  · obtain ⟨key, hkey, -, hnone⟩ := h3 1 (field "Zip" "zip") (.str "1") rfl
    have hk : key = "zip" := by
      have : getJsonStructTag (field "Zip" "zip") = .ok "zip" := rfl
      rw [this] at hkey
      injection hkey with hkey
      exact hkey.symm
    subst hk
    exact hnone rfl

/-- C20 (partial mutation on failure): a traversal that does not return `nil`
stops at a first failing field, which has no key or whose merge fails.  The
fields declared before it were merged in order: each whose key is in the payload
holds the result of its merge, which returned `nil` and is the converted value
of the payload node (for a nested record, the traversal of its fields), and
each other one holds its prior value.  The fields declared after it hold their
prior values, and the outcome is that of the failing field; nothing is rolled
back.  So `{Name: "old", Age: 30, City: "A"}` merged with
`{"name": "new", "age": "thirty", "city": "B"}` fails at `Age` with `Name`
already "new" and `City` still "A": the merge fails and the destination has
changed. -/
theorem partial_mutation_in_declaration_order (A : Arch) (cp : Copy) (canSet : Bool) :
    (∀ (fields : List (FieldInfo × Val)) (m : List (String × JSON)),
      (traverseStructAndMergeStructFieldsWithPayload A cp canSet fields m).2 ≠ .ok →
      ∃ pre structField v post after,
        fields = pre ++ (structField, v) :: post ∧
        (traverseStructAndMergeStructFieldsWithPayload A cp canSet fields m).1
          = (traverseStructAndMergeStructFieldsWithPayload A cp canSet pre m).1 ++
              (structField, after) :: post ∧
        (traverseStructAndMergeStructFieldsWithPayload A cp canSet pre m).1.length
          = pre.length ∧
        ((getJsonStructTag structField = .error .missingJsonTag ∧ after = v ∧
            (traverseStructAndMergeStructFieldsWithPayload A cp canSet fields m).2
              = .error .missingJsonTag) ∨
         (∃ key pv, getJsonStructTag structField = .ok key ∧ lookup key m = some pv ∧
            (mergePayloadToStructField A cp (canSet && structField.exported) v pv).2 ≠ .ok ∧
            after = (mergePayloadToStructField A cp (canSet && structField.exported) v pv).1 ∧
            (traverseStructAndMergeStructFieldsWithPayload A cp canSet fields m).2
              = (mergePayloadToStructField A cp (canSet && structField.exported) v pv).2)) ∧
        (∀ (j : Nat) (sf : FieldInfo) (w : Val), pre[j]? = some (sf, w) →
          ∃ key, getJsonStructTag sf = .ok key ∧
            (∀ pv, lookup key m = some pv →
              (mergePayloadToStructField A cp (canSet && sf.exported) w pv).2 = .ok ∧
              (traverseStructAndMergeStructFieldsWithPayload A cp canSet fields m).1[j]?
                = some (sf, (mergePayloadToStructField A cp (canSet && sf.exported) w pv).1) ∧
              (∀ c, convertedValue A w pv = some c →
                (traverseStructAndMergeStructFieldsWithPayload A cp canSet fields m).1[j]?
                  = some (sf, c)) ∧
              (∀ fs m2, w = .struct fs → pv = .obj m2 →
                (traverseStructAndMergeStructFieldsWithPayload A cp true fs m2).2 = .ok ∧
                (traverseStructAndMergeStructFieldsWithPayload A cp canSet fields m).1[j]?
                  = some (sf, .struct
                      (traverseStructAndMergeStructFieldsWithPayload A cp true fs m2).1))) ∧
            (lookup key m = none →
              (traverseStructAndMergeStructFieldsWithPayload A cp canSet fields m).1[j]?
                = some (sf, w)))) ∧
    traverseStructAndMergeStructFieldsWithPayload A cp true
        [(field "Name" "name", .str "old"), (field "Age" "age", .num .int (.int 30)),
          (field "City" "city", .str "A")]
        [("name", .str "new"), ("age", .str "thirty"), ("city", .str "B")]
      = ([(field "Name" "name", .str "new"), (field "Age" "age", .num .int (.int 30)),
          (field "City" "city", .str "A")], .error .incompatible) ∧
    (∃ (fields : List (FieldInfo × Val)) (m : List (String × JSON)),
      (traverseStructAndMergeStructFieldsWithPayload A cp true fields m).2 ≠ .ok ∧
      (traverseStructAndMergeStructFieldsWithPayload A cp true fields m).1 ≠ fields) := by
  have hscn : traverseStructAndMergeStructFieldsWithPayload A cp true
        [(field "Name" "name", .str "old"), (field "Age" "age", .num .int (.int 30)),
          (field "City" "city", .str "A")]
        [("name", .str "new"), ("age", .str "thirty"), ("city", .str "B")]
      = ([(field "Name" "name", .str "new"), (field "Age" "age", .num .int (.int 30)),
          (field "City" "city", .str "A")], .error .incompatible) := by
    simp [traverseStructAndMergeStructFieldsWithPayload, field, getJsonStructTag,
      stringsSplitComma, lookup, mergePayloadToStructField, mergePayloadToNumberSF,
      mergePayloadToStringSF, convertPayloadTo,
      helperCheckSettabilityAndSFDataType, JSON.isNil, JSON.kind, isNumericValue]
  refine ⟨?_, hscn, ?_⟩
  · intro fields m hfail
    obtain ⟨pre, sf, v, post, hsplit, hpre, hcase⟩ := traverse_fail_split A cp canSet fields m hfail
    have hlen := traverse_length A cp canSet pre m
    have hidx : ∀ after out,
        traverseStructAndMergeStructFieldsWithPayload A cp canSet fields m
          = ((traverseStructAndMergeStructFieldsWithPayload A cp canSet pre m).1 ++
              (sf, after) :: post, out) →
        ∀ (j : Nat) (sf2 : FieldInfo) (w : Val), pre[j]? = some (sf2, w) →
          ∃ key, getJsonStructTag sf2 = .ok key ∧
            (∀ pv, lookup key m = some pv →
              (mergePayloadToStructField A cp (canSet && sf2.exported) w pv).2 = .ok ∧
              (traverseStructAndMergeStructFieldsWithPayload A cp canSet fields m).1[j]?
                = some (sf2, (mergePayloadToStructField A cp (canSet && sf2.exported) w pv).1) ∧
              (∀ c, convertedValue A w pv = some c →
                (traverseStructAndMergeStructFieldsWithPayload A cp canSet fields m).1[j]?
                  = some (sf2, c)) ∧
              (∀ fs m2, w = .struct fs → pv = .obj m2 →
                (traverseStructAndMergeStructFieldsWithPayload A cp true fs m2).2 = .ok ∧
                (traverseStructAndMergeStructFieldsWithPayload A cp canSet fields m).1[j]?
                  = some (sf2, .struct
                      (traverseStructAndMergeStructFieldsWithPayload A cp true fs m2).1))) ∧
            (lookup key m = none →
              (traverseStructAndMergeStructFieldsWithPayload A cp canSet fields m).1[j]?
                = some (sf2, w)) := by
      intro after out hr j sf2 w hj
      have hjlt : j < (traverseStructAndMergeStructFieldsWithPayload A cp canSet pre m).1.length := by
        rw [hlen]
        exact (List.getElem?_eq_some.mp hj).1
      have hget : (traverseStructAndMergeStructFieldsWithPayload A cp canSet fields m).1[j]?
          = (traverseStructAndMergeStructFieldsWithPayload A cp canSet pre m).1[j]? := by
        rw [hr]
        simp only
        rw [List.getElem?_append_left hjlt]
      obtain ⟨key, hkey, hsome, hnone⟩ := traverse_ok_values A cp canSet pre m hpre j sf2 w hj
      refine ⟨key, hkey, ?_, ?_⟩
      · intro pv hpv
        obtain ⟨h1, h2, h3, h4⟩ := hsome pv hpv
        refine ⟨h1, by rw [hget]; exact h2, ?_, ?_⟩
        · intro c hc
          rw [hget]
          exact h3 c hc
        · intro fs m2 hw hp
          obtain ⟨h5, h6⟩ := h4 fs m2 hw hp
          exact ⟨h5, by rw [hget]; exact h6⟩
      · intro hn
        rw [hget]
        exact hnone hn
    rcases hcase with ⟨e, he, hr⟩ | ⟨key, pv, hkey, hl, hne, hr⟩
    · have hee : e = .missingJsonTag := by
        unfold getJsonStructTag at he
        simp only at he
        split at he
        · cases he; rfl
        · cases he
      subst hee
      exact ⟨pre, sf, v, post, v, hsplit, by rw [hr], hlen, Or.inl ⟨he, rfl, by rw [hr]⟩,
        hidx v _ hr⟩
    · exact ⟨pre, sf, v, post, _, hsplit, by rw [hr], hlen,
        Or.inr ⟨key, pv, hkey, hl, hne, rfl, by rw [hr]⟩, hidx _ _ hr⟩
  · refine ⟨[(field "Name" "name", .str "old"), (field "Age" "age", .num .int (.int 30)),
        (field "City" "city", .str "A")],
      [("name", .str "new"), ("age", .str "thirty"), ("city", .str "B")], ?_, ?_⟩
    · rw [hscn]
      simp
    · rw [hscn]
      simp [field]

/-- Witness of C20 on the partial mutation scenario: the traversal fails, the
fields split at a first failing field with the fields before it merged and the
fields after it as they were, and the destination is left with `Name` set to
"new". -/
theorem partial_mutation_in_declaration_order_witness :
    (traverseStructAndMergeStructFieldsWithPayload arch64 .first true
        [(field "Name" "name", .str "old"), (field "Age" "age", .num .int (.int 30)),
          (field "City" "city", .str "A")]
        [("name", .str "new"), ("age", .str "thirty"), ("city", .str "B")]).2 ≠ .ok ∧
    ∃ pre structField v post after,
      [(field "Name" "name", Val.str "old"), (field "Age" "age", .num .int (.int 30)),
          (field "City" "city", .str "A")] = pre ++ (structField, v) :: post ∧
      (traverseStructAndMergeStructFieldsWithPayload arch64 .first true
        [(field "Name" "name", .str "old"), (field "Age" "age", .num .int (.int 30)),
          (field "City" "city", .str "A")]
        [("name", .str "new"), ("age", .str "thirty"), ("city", .str "B")]).1
        = (traverseStructAndMergeStructFieldsWithPayload arch64 .first true pre
            [("name", .str "new"), ("age", .str "thirty"), ("city", .str "B")]).1 ++
            (structField, after) :: post ∧
      traverseStructAndMergeStructFieldsWithPayload arch64 .first true
        [(field "Name" "name", .str "old"), (field "Age" "age", .num .int (.int 30)),
          (field "City" "city", .str "A")]
        [("name", .str "new"), ("age", .str "thirty"), ("city", .str "B")]
        = ([(field "Name" "name", .str "new"), (field "Age" "age", .num .int (.int 30)),
            (field "City" "city", .str "A")], .error .incompatible) := by
  have h : (traverseStructAndMergeStructFieldsWithPayload arch64 .first true
        [(field "Name" "name", .str "old"), (field "Age" "age", .num .int (.int 30)),
          (field "City" "city", .str "A")]
        [("name", .str "new"), ("age", .str "thirty"), ("city", .str "B")]).2 ≠ .ok := by
    rw [partial_mutation_scenario]
    simp
  obtain ⟨pre, sf, v, post, after, h1, h2, -⟩ :=
    (partial_mutation_in_declaration_order arch64 .first true).1 _ _ h
  exact ⟨h, pre, sf, v, post, after, h1, h2,
    (partial_mutation_in_declaration_order arch64 .first true).2.1⟩

/-- The conversion of a number to a signed integer kind, when the truncation
is an `int64`: the truncation reduced to the width, in two's complement. -/
theorem convertFloat_signed (A : Arch) (k : NumKind) (q : Rat) (hk : k.signed = true)
    (hlo : -(2 : Int) ^ 63 ≤ truncToInt q) (hhi : truncToInt q < 2 ^ 63) :
    convertFloat A k q
      = .int ((truncToInt q + 2 ^ (k.bits A - 1)) % 2 ^ k.bits A - 2 ^ (k.bits A - 1)) := by
  cases k <;> simp only [NumKind.signed] at hk <;>
    first
      | exact absurd hk (by decide)
      | simp only [convertFloat, floatToInt64, wrapSigned, if_pos (And.intro hlo hhi)]

/-- The conversion of a number to an unsigned integer kind, when the truncation
is a `uint64`: the truncation modulo two to the width. -/
theorem convertFloat_unsigned (A : Arch) (k : NumKind) (q : Rat) (hf : k.isFloat = false)
    (hk : k.signed = false) (hlo : 0 ≤ truncToInt q) (hhi : truncToInt q < 2 ^ 64) :
    convertFloat A k q = .int (truncToInt q % 2 ^ k.bits A) := by
  cases k <;> simp only [NumKind.signed, NumKind.isFloat] at hk hf <;>
    first
      | exact absurd hk (by decide)
      | exact absurd hf (by decide)
      | simp only [convertFloat, floatToUint64, wrapUnsigned, if_pos (And.intro hlo hhi)]

/-- The conversion of a number to an integer kind, when the truncation is not
a 64-bit integer of the signedness of the kind: what the implementation gives
for the conversion to 64 bits, reduced to the width. -/
theorem convertFloat_unrepresentable (A : Arch) (k : NumKind) (q : Rat) :
    (k.signed = true → ¬ (-(2 : Int) ^ 63 ≤ truncToInt q ∧ truncToInt q < 2 ^ 63) →
      convertFloat A k q
        = .int (((A.floatToInt64 q + 2 ^ 63) % 2 ^ 64 - 2 ^ 63 + 2 ^ (k.bits A - 1))
            % 2 ^ k.bits A - 2 ^ (k.bits A - 1))) ∧
    (k.isFloat = false → k.signed = false → ¬ (0 ≤ truncToInt q ∧ truncToInt q < 2 ^ 64) →
      convertFloat A k q = .int (A.floatToUint64 q % 2 ^ 64 % 2 ^ k.bits A)) := by
  constructor
  · intro hk hn
    cases k <;> simp only [NumKind.signed] at hk <;>
      first
        | exact absurd hk (by decide)
        | simp only [convertFloat, floatToInt64, wrapSigned, if_neg hn]
  · intro hf hk hn
    cases k <;> simp only [NumKind.signed, NumKind.isFloat] at hk hf <;>
      first
        | exact absurd hk (by decide)
        | exact absurd hf (by decide)
        | simp only [convertFloat, floatToUint64, wrapUnsigned, if_neg hn]

/-- The numbers -3.5 and 200 convert to -3 and -56 at the width of 8 bits. -/
theorem convertFloat_int8_examples (A : Arch) :
    convertFloat A .int8 (mkRat (-7) 2) = .int (-3) ∧ convertFloat A .int8 200 = .int (-56) := by
  have h1 : truncToInt (mkRat (-7) 2) = -3 := by decide
  have h2 : truncToInt 200 = 200 := by decide
  constructor
  · rw [convertFloat_signed A .int8 _ rfl (by rw [h1]; decide) (by rw [h1]; decide), h1]
    simp only [NumKind.bits]
    decide
  · rw [convertFloat_signed A .int8 _ rfl (by rw [h2]; decide) (by rw [h2]; decide), h2]
    simp only [NumKind.bits]
    decide

/-- On amd64 the number -1 converts to 255 at the width of 8 bits. -/
theorem convertFloat_neg_one_uint8 : convertFloat arch64 .uint8 (-1) = .int 255 := by
  have h : truncToInt (-1) = -1 := by decide
  have hn : ¬ (0 ≤ truncToInt (-1) ∧ truncToInt (-1) < 2 ^ 64) := by
    rw [h]
    decide
  rw [(convertFloat_unrepresentable arch64 .uint8 (-1)).2 rfl rfl hn]
  simp only [arch64, h, NumKind.bits]
  decide

/-- C21 as amended: scalar sequence elements are not range-checked.  Every
payload array of Numbers that is not empty merges successfully into a settable
sequence field of any numeric element kind, and no Number is rejected.  Each
element is the Number converted as `Convert` does: unchanged for a `float64`
element, rounded to the nearest `float32` for a `float32` element, and for an
integer element truncated toward zero and reduced to the width of the element
(modulo two to the width, in two's complement for a signed kind) when the
truncation is a 64-bit integer of the signedness of the element; otherwise the
64-bit integer is what the implementation gives for the conversion.  So `[300]`
stores 44 in an 8-bit unsigned element, `[-3.5, 200]` stores -3 and -56 in
8-bit signed elements, and on amd64 `[-1]` stores 255 in an 8-bit unsigned
element. -/
theorem numeric_elements_not_range_checked (A : Arch) (cp : Copy) :
    (∀ k cur q qs,
      mergePayloadToStructField A cp true (.slice (.num k) cur)
          (.arr ((q :: qs).map JSON.num))
        = (.slice (.num k) (some ((q :: qs).map (fun q => Val.num k (convertFloat A k q)))),
            .ok)) ∧
    (∀ q, convertFloat A .float64 q = .float (.fin q)) ∧
    (∀ q, convertFloat A .float32 q = .float (roundFloat32 q)) ∧
    (∀ k q, k.signed = true → -(2 : Int) ^ 63 ≤ truncToInt q → truncToInt q < 2 ^ 63 →
      convertFloat A k q
        = .int ((truncToInt q + 2 ^ (k.bits A - 1)) % 2 ^ k.bits A - 2 ^ (k.bits A - 1))) ∧
    (∀ k q, k.isFloat = false → k.signed = false → 0 ≤ truncToInt q → truncToInt q < 2 ^ 64 →
      convertFloat A k q = .int (truncToInt q % 2 ^ k.bits A)) ∧
    (∀ k q, k.signed = true → ¬ (-(2 : Int) ^ 63 ≤ truncToInt q ∧ truncToInt q < 2 ^ 63) →
      convertFloat A k q
        = .int (((A.floatToInt64 q + 2 ^ 63) % 2 ^ 64 - 2 ^ 63 + 2 ^ (k.bits A - 1))
            % 2 ^ k.bits A - 2 ^ (k.bits A - 1))) ∧
    (∀ k q, k.isFloat = false → k.signed = false →
      ¬ (0 ≤ truncToInt q ∧ truncToInt q < 2 ^ 64) →
      convertFloat A k q = .int (A.floatToUint64 q % 2 ^ 64 % 2 ^ k.bits A)) ∧
    (∀ cur, mergePayloadToStructField A cp true (.slice (.num .uint8) cur) (.arr [.num 300])
        = (.slice (.num .uint8) (some [.num .uint8 (.int 44)]), .ok)) ∧
    (∀ cur, mergePayloadToStructField A cp true (.slice (.num .int8) cur)
          (.arr [.num (mkRat (-7) 2), .num 200])
        = (.slice (.num .int8) (some [.num .int8 (.int (-3)), .num .int8 (.int (-56))]), .ok)) ∧
    (∀ cur, mergePayloadToStructField arch64 cp true (.slice (.num .uint8) cur)
          (.arr [.num (-1)])
        = (.slice (.num .uint8) (some [.num .uint8 (.int 255)]), .ok)) := by
  refine ⟨mergeField_slice_nums A cp, fun _ => rfl, fun _ => rfl, convertFloat_signed A,
    convertFloat_unsigned A, fun k q => (convertFloat_unrepresentable A k q).1,
    fun k q => (convertFloat_unrepresentable A k q).2, ?_, ?_, ?_⟩
  · intro cur
    have h := mergeField_slice_nums A cp .uint8 cur 300 []
    simp only [List.map_cons, List.map_nil, convertFloat_300_uint8] at h
    exact h
  · intro cur
    have h := mergeField_slice_nums A cp .int8 cur (mkRat (-7) 2) [200]
    simp only [List.map_cons, List.map_nil, (convertFloat_int8_examples A).1,
      (convertFloat_int8_examples A).2] at h
    exact h
  · intro cur
    have h := mergeField_slice_nums arch64 cp .uint8 cur (-1) []
    simp only [List.map_cons, List.map_nil, convertFloat_neg_one_uint8] at h
    exact h

/-- Witness of C21 as amended: 300 is a `uint64`, and converts to 300 modulo
256 in an 8-bit unsigned element. -/
theorem numeric_elements_not_range_checked_witness :
    NumKind.isFloat .uint8 = false ∧ NumKind.signed .uint8 = false ∧
    0 ≤ truncToInt 300 ∧ truncToInt 300 < 2 ^ 64 ∧
    convertFloat arch64 .uint8 300 = .int (truncToInt 300 % 2 ^ NumKind.bits arch64 .uint8) ∧
    truncToInt 300 % 2 ^ NumKind.bits arch64 .uint8 = 44 :=
  have h1 : (0 : Int) ≤ truncToInt 300 := by decide
  have h2 : truncToInt 300 < 2 ^ 64 := by decide
  ⟨rfl, rfl, h1, h2,
    (numeric_elements_not_range_checked arch64 .first).2.2.2.2.1 .uint8 300 rfl rfl h1 h2,
    by decide⟩

end JsonPatch
